import Mathlib

/-!
# Infotify: session protocol, catalog scan and transfer

Shallow embedding of the server (`servidor/src/canciones.c`, `servidor/src/usuarios.c`)
and, of the client, the download routine (`cliente/src/canciones.c`) and the handshake
message (`cliente/src/menu.c`).

Conventions of the embedding.
* A byte (`char`) is a `Nat`; a C string is the list of its bytes before the NUL.
* A `char` array is a `List Nat` read through an offset (`cadena`), so that pointers
  kept across iterations see later writes to the same array.
* A routine returns `Except Anomalia _`: `indefinido` marks undefined behaviour of the
  C code (NULL or uninitialised pointer passed on, write past an array, signed
  overflow), `agotado` marks an exhausted step budget of a loop of the model.
* A socket is the list of messages still to be received, the list of messages sent
  and the outcomes of the coming `send` calls.
-/

namespace Infotify

/-! ## Constants of `canciones.h` and `usuarios.h` -/

/-- Bytes of an ASCII literal. -/
def ascii (s : String) : List Nat := s.toList.map Char.toNat

def OK : Int := 0
def ERROR : Int := -1
def SALIR : Int := -4
def BUFFER_SIZE : Nat := 1024
def ARTISTA : Nat := 1
def GENERO : Nat := 3
def LINEA_MAX : Nat := 256
def FILTRO_MAX : Nat := 128
def FIN : List Nat := ascii "FIN"
def EXITO : List Nat := ascii "Usuario registrado exitosamente."
def ERROR_MEMORIA_USUARIOS : List Nat := ascii "No se pudo abrir archivo de datos."
def ERROR_USUARIO_USUARIOS : List Nat := ascii "Error: Datos ingresados erroneos."
def ERROR_VACIO_USUARIOS : List Nat :=
  ascii "Base de datos sin usuario alguno. Registre alguno primero."
def ERROR_REGISTRO_USUARIOS : List Nat := ascii "Error: Usuario ya registrado."
def ERROR_GUARDAR : List Nat := ascii "Error al guardar nuevo usuario."

/-- Largest value of a C `int`. -/
def INT_MAX : Nat := 2147483647

/-- The separator written between the columns of a listing line. -/
def SEP : List Nat := ascii " - "

/-! ## Outcomes -/

/-- Ways in which a run of the model yields no return value. -/
inductive Anomalia where
  | indefinido
  | agotado
deriving DecidableEq, Repr

deriving instance DecidableEq for Except

/-! ## C library -/

/-- The C string stored in `mem` from offset `p`: the bytes before the first NUL. -/
def cadena (mem : List Nat) (p : Nat) : List Nat :=
  (mem.drop p).takeWhile (fun c => decide (c ≠ 0))

/-- Writing `bytes` at the start of the array `mem`. -/
def escribir (mem : List Nat) (bytes : List Nat) : List Nat :=
  bytes ++ mem.drop bytes.length

/-- `tolower` in the C locale. -/
def tolower (c : Nat) : Nat := if 65 ≤ c ∧ c ≤ 90 then c + 32 else c

/-- `isspace` in the C locale. -/
def isspace (c : Nat) : Bool := decide (c = 32 ∨ (9 ≤ c ∧ c ≤ 13))

/-- `isdigit`. -/
def isdigit (c : Nat) : Bool := decide (48 ≤ c ∧ c ≤ 57)

/-- Value of the leading decimal digits of a string. -/
def valor_digitos (s : List Nat) : Nat :=
  (s.takeWhile isdigit).foldl (fun a c => 10 * a + (c - 48)) 0

/-- `atoi` as `(int) strtol(s, NULL, 10)` on an LP64 system: blanks, an optional sign,
digits; the value is clamped to `long` and then cut to 32 bits. -/
def atoi (s : List Nat) : Int :=
  let t := s.dropWhile isspace
  let v : Int :=
    match t with
    | 45 :: r => - (valor_digitos r : Int)
    | 43 :: r => (valor_digitos r : Int)
    | _ => (valor_digitos t : Int)
  let w : Int := max (-(2 : Int) ^ 63) (min v ((2 : Int) ^ 63 - 1))
  (w + 2 ^ 31) % 2 ^ 32 - 2 ^ 31

/-- The bytes printed by `%d` for a non-negative `int`. -/
def decimal (n : Nat) : List Nat := (Nat.repr n).toList.map Char.toNat

/-- The string left in a buffer of `tam` bytes by `snprintf` when the formatted text
is `texto`: at most `tam - 1` bytes are kept. -/
def snprintf (tam : Nat) (texto : List Nat) : List Nat := texto.take (tam - 1)

/-- Result of `strcat(destino, origen)` for a destination array of `tam` bytes; writing
past the array is undefined. -/
def strcat (tam : Nat) (destino origen : List Nat) : Except Anomalia (List Nat) :=
  if destino.length + origen.length < tam then .ok (destino ++ origen)
  else .error .indefinido

/-- Bytes stored by one `fgets` call that may store `n` bytes: up to and including the
first newline. -/
def fgets_toma : Nat → List Nat → List Nat
  | 0, _ => []
  | _, [] => []
  | n + 1, c :: f => if c = 10 then [c] else c :: fgets_toma n f

/-- One call `fgets(linea, tam, f)` on the unread rest `f` of a file: `none` at end of
file, otherwise the bytes read and the rest left unread. -/
def fgets (tam : Nat) (f : List Nat) : Option (List Nat × List Nat) :=
  if f = [] then none
  else some (fgets_toma (tam - 1) f, f.drop (fgets_toma (tam - 1) f).length)

/-- Length of the initial part of the C string `s` free of the bytes of `rechazo`. -/
def strcspn (s rechazo : List Nat) : Nat :=
  (s.takeWhile (fun c => decide (c ≠ 0 ∧ c ∉ rechazo))).length

/-- Length of the initial part of the C string `s` made of bytes of `acepta`. -/
def strspn (s acepta : List Nat) : Nat :=
  (s.takeWhile (fun c => decide (c ≠ 0 ∧ c ∈ acepta))).length

/-- One `strtok` step on the array `mem`, scanning from offset `s` (the start of the
array on the first call, the saved position on the calls with NULL). Returns the offset
of the token (`none` for NULL), the array after the delimiter was overwritten with NUL,
and the position saved for the next call. -/
def strtok (mem : List Nat) (s : Nat) (delim : List Nat) : Option Nat × List Nat × Nat :=
  let s1 := s + strspn (mem.drop s) delim
  if mem.getD s1 0 = 0 then (none, mem, s1)
  else
    let fin := s1 + strcspn (mem.drop s1) delim
    if mem.getD fin 0 = 0 then (some s1, mem, fin)
    else (some s1, mem.set fin 0, fin + 1)

/-- Whether `strncmp(a, b, n) == 0`, for `a` and `b` given as the bytes from each
pointer on. -/
def strncmp_igual : Nat → List Nat → List Nat → Bool
  | 0, _, _ => true
  | n + 1, a, b =>
    if a.headD 0 ≠ b.headD 0 then false
    else if a.headD 0 = 0 then true
    else strncmp_igual n a.tail b.tail

/-! ## Sockets -/

/-- One end of the connection. `entrada`: messages not yet received, each delivered by
one `recv`; `salida`: messages sent, oldest first; `fallos`: outcome of the coming
`send` calls (`true`: the call returns a negative value), later calls succeed. -/
structure Socket where
  entrada : List (List Nat)
  salida : List (List Nat)
  fallos : List Bool
deriving DecidableEq, Repr

/-- The call `send(sock, m, len(m), 0)`: whether it succeeded, and the socket after it. -/
def send (s : Socket) (m : List Nat) : Bool × Socket :=
  match s.fallos with
  | true :: r => (false, { s with fallos := r })
  | false :: r =>
    (true, { s with salida := if m = [] then s.salida else s.salida ++ [m], fallos := r })
  | [] => (true, { s with salida := if m = [] then s.salida else s.salida ++ [m] })

/-- The call `recv(sock, buffer, tam, 0)`: the bytes received (none when the peer has
closed or the call failed) and the socket after it. A message longer than `tam` is
delivered in pieces. -/
def recv (s : Socket) (tam : Nat) : List Nat × Socket :=
  match s.entrada with
  | [] => ([], s)
  | m :: r =>
    if m.length ≤ tam then (m, { s with entrada := r })
    else (m.take tam, { s with entrada := m.drop tam :: r })

/-- The string in `buffer` after `buffer[bytes_received] = 0` for a received message;
with `BUFFER_SIZE` bytes received the NUL falls outside the array. -/
def terminar (m : List Nat) : Except Anomalia (List Nat) :=
  if m.length < BUFFER_SIZE then .ok (cadena (m ++ [0]) 0) else .error .indefinido

/-! ## Catalog scan (`servidor/src/canciones.c`) -/

/-- The function `verificar(dato, filtro)` on the two C strings. -/
def verificar : List Nat → List Nat → Int
  | d :: dato, f :: filtro => if tolower d ≠ tolower f then ERROR else verificar dato filtro
  | [], [] => OK
  | _, _ => ERROR

/-- The array `linea` after `fgets` stored the bytes `l` and the first newline was
replaced by NUL (`linea[strcspn(linea, "\n")] = 0`). -/
def cargar_linea (linea l : List Nat) : List Nat :=
  (escribir linea (l ++ [0])).set (strcspn (escribir linea (l ++ [0])) [10]) 0

/-- The `for` loop of `listar_servidor`: `n` times, take the next token and append it
and the separator to `buffer`. A NULL token handed to `strcat` is undefined. -/
def listar_campos : Nat → List Nat → Nat → List Nat → Except Anomalia (List Nat × List Nat × Nat)
  | 0, mem, g, buffer => .ok (buffer, mem, g)
  | n + 1, mem, g, buffer =>
    match strtok mem g [44] with
    | (none, _, _) => .error .indefinido
    | (some t, mem1, g1) =>
      match strcat BUFFER_SIZE buffer (cadena mem1 t) with
      | .error e => .error e
      | .ok b1 =>
        match strcat BUFFER_SIZE b1 SEP with
        | .error e => .error e
        | .ok b2 => listar_campos n mem1 g1 b2

/-- Body of the `while` loop of `listar_servidor` up to the `send`: the message built
in `buffer` for the line held in `linea`, and the array after tokenising. -/
def listar_linea (cont : Nat) (linea : List Nat) : Except Anomalia (List Nat × List Nat) :=
  match strtok linea 0 [44] with
  | (none, _, _) => .error .indefinido
  | (some t, mem, g) =>
    match listar_campos 3 mem g (snprintf BUFFER_SIZE (decimal cont ++ SEP ++ cadena mem t ++ SEP)) with
    | .error e => .error e
    | .ok (b, mem1, g1) =>
      match strtok mem1 g1 [44] with
      | (none, _, _) => .error .indefinido
      | (some t4, mem2, _) =>
        match strcat BUFFER_SIZE b (cadena mem2 t4) with
        | .error e => .error e
        | .ok b1 =>
          match strcat BUFFER_SIZE b1 [10] with
          | .error e => .error e
          | .ok b2 => .ok (b2, mem2)

/-- The `while (fgets ...)` loop of `listar_servidor` and the final `send` of the
sentinel. `f`: unread rest of `media.csv`; `linea`: the line array; `cont`: the counter. -/
def listar_bucle : Nat → List Nat → List Nat → Nat → Socket → Except Anomalia (Int × Socket)
  | 0, _, _, _, _ => .error .agotado
  | fuel + 1, f, linea, cont, s =>
    match fgets LINEA_MAX f with
    | none => if (send s FIN).1 then .ok (OK, (send s FIN).2) else .ok (ERROR, (send s FIN).2)
    | some (l, resto) =>
      match listar_linea cont (cargar_linea linea l) with
      | .error e => .error e
      | .ok (msg, linea1) =>
        if (send s msg).1 then
          if cont < INT_MAX then listar_bucle fuel resto linea1 (cont + 1) (send s msg).2
          else .error .indefinido
        else .ok (ERROR, (send s msg).2)

/-- The function `listar_servidor`. `media`: content of `media.csv`, `none` when the
file cannot be opened. The line array starts zeroed; no byte of it is read before it
has been written. -/
def listar_servidor (media : Option (List Nat)) (s : Socket) : Except Anomalia (Int × Socket) :=
  match media with
  | none => .ok (ERROR, s)
  | some f => listar_bucle (f.length + 1) f (List.replicate LINEA_MAX 0) 1 s

/-- The inner loop of `filtrar_servidor`:
`while (token != NULL && i < 5) { segmentos[i++] = token; token = strtok(NULL, ","); }`.
`n` is `5 - i`; the first component of `tok` is the current token. -/
def tokenizar : Nat → Option Nat × List Nat × Nat → List (Option Nat) → Nat →
    List Nat × List (Option Nat)
  | 0, (_, mem, _), segs, _ => (mem, segs)
  | _ + 1, (none, mem, _), segs, _ => (mem, segs)
  | n + 1, (some t, mem, g), segs, i =>
    tokenizar n (strtok mem g [44]) (segs.set i (some t)) (i + 1)

/-- The string behind `segmentos[i]`; an entry never assigned is an uninitialised
pointer. -/
def segmento (mem : List Nat) (segs : List (Option Nat)) (i : Nat) : Except Anomalia (List Nat) :=
  match segs.getD i none with
  | none => .error .indefinido
  | some p => .ok (cadena mem p)

/-- The text formatted by `filtrar_servidor` for a matching line
(`"%d - %s - %s - %s - %s - %s\n"`). -/
def filtrar_formato (cont : Nat) (mem : List Nat) (segs : List (Option Nat)) :
    Except Anomalia (List Nat) :=
  match segmento mem segs 0, segmento mem segs 1, segmento mem segs 2,
    segmento mem segs 3, segmento mem segs 4 with
  | .ok a, .ok b, .ok c, .ok d, .ok e =>
    .ok (snprintf BUFFER_SIZE
      (decimal cont ++ SEP ++ a ++ SEP ++ b ++ SEP ++ c ++ SEP ++ d ++ SEP ++ e ++ [10]))
  | _, _, _, _, _ => .error .indefinido

/-- The `while (fgets ...)` loop of `filtrar_servidor` and the final `send` of the
sentinel. `segs` is the array `segmentos`, kept from one line to the next. -/
def filtrar_bucle : Nat → List Nat → List Nat → List (Option Nat) → List Nat → Nat → Nat →
    Socket → Except Anomalia (Int × Socket)
  | 0, _, _, _, _, _, _, _ => .error .agotado
  | fuel + 1, f, linea, segs, filtro, sector, cont, s =>
    match fgets LINEA_MAX f with
    | none => if (send s FIN).1 then .ok (OK, (send s FIN).2) else .ok (ERROR, (send s FIN).2)
    | some (l, resto) =>
      match tokenizar 5 (strtok (cargar_linea linea l) 0 [44]) segs 0 with
      | (mem, segs1) =>
        match segmento mem segs1 sector with
        | .error e => .error e
        | .ok dato =>
          if verificar dato filtro = OK then
            match filtrar_formato cont mem segs1 with
            | .error e => .error e
            | .ok msg =>
              if (send s msg).1 then
                if cont < INT_MAX then
                  filtrar_bucle fuel resto mem segs1 filtro sector (cont + 1) (send s msg).2
                else .error .indefinido
              else .ok (ERROR, (send s msg).2)
          else
            if cont < INT_MAX then filtrar_bucle fuel resto mem segs1 filtro sector (cont + 1) s
            else .error .indefinido

/-- The function `filtrar_servidor`. The filter text is copied into the array `filtro`
of `FILTRO_MAX` bytes; a longer text is written past it. -/
def filtrar_servidor (media : Option (List Nat)) (s : Socket) (sector : Nat) :
    Except Anomalia (Int × Socket) :=
  match media with
  | none => .ok (ERROR, s)
  | some f =>
    if (recv s BUFFER_SIZE).1.length = 0 then .ok (ERROR, (recv s BUFFER_SIZE).2)
    else
      match terminar (recv s BUFFER_SIZE).1 with
      | .error e => .error e
      | .ok filtro =>
        if filtro.length < FILTRO_MAX then
          filtrar_bucle (f.length + 1) f (List.replicate LINEA_MAX 0)
            (List.replicate 5 none) filtro sector 1 (recv s BUFFER_SIZE).2
        else .error .indefinido

/-- The function `menu_filtrar_servidor`. -/
def menu_filtrar_servidor (media : Option (List Nat)) (s : Socket) :
    Except Anomalia (Int × Socket) :=
  if (recv s BUFFER_SIZE).1.length = 0 then .ok (ERROR, (recv s BUFFER_SIZE).2)
  else
    match terminar (recv s BUFFER_SIZE).1 with
    | .error e => .error e
    | .ok texto =>
      if atoi texto = 1 then filtrar_servidor media (recv s BUFFER_SIZE).2 ARTISTA
      else if atoi texto = 2 then filtrar_servidor media (recv s BUFFER_SIZE).2 GENERO
      else .ok (ERROR, (recv s BUFFER_SIZE).2)

/-! ### Well-formed catalogs -/

/-- A song record: the five columns of a catalog line. -/
structure Cancion where
  titulo : List Nat
  artista : List Nat
  album : List Nat
  genero : List Nat
  anio : List Nat
deriving DecidableEq, Repr

/-- A column: non-empty, without NUL, newline or comma. -/
def campo_valido (c : List Nat) : Prop := c ≠ [] ∧ ∀ b ∈ c, b ≠ 0 ∧ b ≠ 10 ∧ b ≠ 44

/-- The catalog line of a record, without its newline. -/
def linea_csv (c : Cancion) : List Nat :=
  c.titulo ++ 44 :: (c.artista ++ 44 :: (c.album ++ 44 :: (c.genero ++ 44 :: c.anio)))

/-- A well-formed record: five valid columns, and the line with its newline fits in
one `fgets` of `LINEA_MAX` bytes. -/
def cancion_valida (c : Cancion) : Prop :=
  campo_valido c.titulo ∧ campo_valido c.artista ∧ campo_valido c.album ∧
    campo_valido c.genero ∧ campo_valido c.anio ∧ (linea_csv c).length + 1 < LINEA_MAX

/-- The bytes of a catalog file: each line followed by a newline. -/
def archivo_csv : List Cancion → List Nat
  | [] => []
  | c :: cs => linea_csv c ++ 10 :: archivo_csv cs

/-- The last line of a catalog file that does not end in a newline (`none`: the file
ends in a newline or is empty). -/
def linea_abierta (ult : Option Cancion) : List Nat :=
  match ult with
  | none => []
  | some c => linea_csv c

/-- The bytes `media` are a catalog file holding the records `cs`, one per line: every
line is followed by a newline, except possibly the last one. -/
def es_catalogo (media : List Nat) (cs : List Cancion) : Prop :=
  ∃ (cs1 : List Cancion) (ult : Option Cancion),
    cs = cs1 ++ ult.toList ∧ media = archivo_csv cs1 ++ linea_abierta ult

/-- The listing line of the record `c` with ordinal `k`:
`k - title - artist - album - genre - year` and a newline. -/
def linea_listado (k : Nat) (c : Cancion) : List Nat :=
  decimal k ++ SEP ++ c.titulo ++ SEP ++ c.artista ++ SEP ++ c.album ++ SEP ++ c.genero ++
    SEP ++ c.anio ++ [10]

/-- The column of a record addressed by `sector`. -/
def campo (c : Cancion) (sector : Nat) : List Nat :=
  match sector with
  | 0 => c.titulo
  | 1 => c.artista
  | 2 => c.album
  | 3 => c.genero
  | _ => c.anio

/-- Listing lines of the records of `cs`, numbered from `k`. -/
def lineas_desde : Nat → List Cancion → List (List Nat)
  | _, [] => []
  | k, c :: cs => linea_listado k c :: lineas_desde (k + 1) cs

/-- Listing lines, numbered from `k` by position, of the records of `cs` whose column
`sector` equals `filtro` up to case. -/
def filtradas_desde (filtro : List Nat) (sector : Nat) : Nat → List Cancion → List (List Nat)
  | _, [] => []
  | k, c :: cs =>
    if (campo c sector).map tolower = filtro.map tolower then
      linea_listado k c :: filtradas_desde filtro sector (k + 1) cs
    else filtradas_desde filtro sector (k + 1) cs

/-! ### Layout of the line array while a well-formed line is tokenised -/

/-- The array up to and including the NUL that ends the first token. -/
def pre1 (c : Cancion) : List Nat := c.titulo ++ [0]
/-- The array up to and including the NUL that ends the second token. -/
def pre2 (c : Cancion) : List Nat := pre1 c ++ (c.artista ++ [0])
/-- The array up to and including the NUL that ends the third token. -/
def pre3 (c : Cancion) : List Nat := pre2 c ++ (c.album ++ [0])
/-- The array up to and including the NUL that ends the fourth token. -/
def pre4 (c : Cancion) : List Nat := pre3 c ++ (c.genero ++ [0])
/-- The array up to the NUL that ends the line. -/
def pre5 (c : Cancion) : List Nat := pre4 c ++ c.anio
/-- The array after the fourth comma, `cola` being what follows the NUL of the line. -/
def resto4 (c : Cancion) (cola : List Nat) : List Nat := c.anio ++ 0 :: cola
/-- The array after the third comma. -/
def resto3 (c : Cancion) (cola : List Nat) : List Nat := c.genero ++ 44 :: resto4 c cola
/-- The array after the second comma. -/
def resto2 (c : Cancion) (cola : List Nat) : List Nat := c.album ++ 44 :: resto3 c cola
/-- The array after the first comma. -/
def resto1 (c : Cancion) (cola : List Nat) : List Nat := c.artista ++ 44 :: resto2 c cola

/-- The offsets stored in `segmentos` by a well-formed line. -/
def segmentos_de (c : Cancion) : List (Option Nat) :=
  [some 0, some (pre1 c).length, some (pre2 c).length, some (pre3 c).length,
    some (pre4 c).length]

/-! ## Transfer (`escuchar_cancion_servidor`, `escuchar_cancion_cliente`) -/

/-- A file as the server finds it under a given name: missing (`access` fails), present
but not openable (`fopen` returns NULL), or readable with the given bytes. -/
inductive Archivo where
  | inexistente
  | cerrado
  | contenido (bytes : List Nat)
deriving DecidableEq, Repr

/-- The loop `while ((bytes_read = fread(buffer, 1, BUFFER_SIZE, cancion)) > 0)` of
`escuchar_cancion_servidor` and the final `send` of the sentinel. `f`: unread rest. -/
def enviar_bloques : Nat → List Nat → Socket → Except Anomalia (Int × Socket)
  | 0, _, _ => .error .agotado
  | fuel + 1, f, s =>
    if 0 < (f.take BUFFER_SIZE).length then
      if (send s (f.take BUFFER_SIZE)).1 then
        enviar_bloques fuel (f.drop BUFFER_SIZE) (send s (f.take BUFFER_SIZE)).2
      else .ok (ERROR, (send s (f.take BUFFER_SIZE)).2)
    else if (send s FIN).1 then .ok (OK, (send s FIN).2)
    else .ok (ERROR, (send s FIN).2)

/-- The function `escuchar_cancion_servidor`; `fs` gives the file behind each name. -/
def escuchar_cancion_servidor (fs : List Nat → Archivo) (s : Socket) :
    Except Anomalia (Int × Socket) :=
  if (recv s BUFFER_SIZE).1.length = 0 then .ok (ERROR, (recv s BUFFER_SIZE).2)
  else
    match terminar (recv s BUFFER_SIZE).1 with
    | .error e => .error e
    | .ok nombre =>
      if nombre = FIN then .ok (OK, (recv s BUFFER_SIZE).2)
      else
        match fs nombre with
        | .inexistente => .ok (OK, (send (recv s BUFFER_SIZE).2 FIN).2)
        | .cerrado => .ok (ERROR, (send (recv s BUFFER_SIZE).2 (ascii "ERROR")).2)
        | .contenido b =>
          if (send (recv s BUFFER_SIZE).2 (ascii "OK")).1 then
            enviar_bloques (b.length + 1) b (send (recv s BUFFER_SIZE).2 (ascii "OK")).2
          else .ok (ERROR, (send (recv s BUFFER_SIZE).2 (ascii "OK")).2)

/-- What a call of `escuchar_cancion_cliente` leaves behind: the value returned, the
socket, the local file it created (name and bytes written, `none` when no file was
opened) and whether it printed `Descarga finalizada.`. -/
structure Descarga where
  estado : Int
  sock : Socket
  archivo : Option (List Nat × List Nat)
  finalizada : Bool
deriving DecidableEq, Repr

/-- The inner `while (1)` of `escuchar_cancion_cliente`: receive a chunk into `buffer`,
stop at the sentinel, otherwise `fwrite` it. `escrito`: bytes written so far;
`escrituras`: outcome of the coming `fwrite` calls (`true`: short write). Returns the
value to return, the socket, the bytes written and whether the sentinel ended the loop. -/
def recibir_bloques : Nat → Socket → List Nat → List Nat → List Bool →
    Except Anomalia (Int × Socket × List Nat × Bool)
  | 0, _, _, _, _ => .error .agotado
  | fuel + 1, s, buffer, escrito, escrituras =>
    if (recv s BUFFER_SIZE).1.length = 0 then .ok (ERROR, (recv s BUFFER_SIZE).2, escrito, false)
    else if strncmp_igual FIN.length (escribir buffer (recv s BUFFER_SIZE).1) FIN
        ∧ (recv s BUFFER_SIZE).1.length = FIN.length then
      .ok (OK, (recv s BUFFER_SIZE).2, escrito, true)
    else if escrituras.headD false then .ok (ERROR, (recv s BUFFER_SIZE).2, escrito, false)
    else
      recibir_bloques fuel (recv s BUFFER_SIZE).2 (escribir buffer (recv s BUFFER_SIZE).1)
        (escrito ++ (recv s BUFFER_SIZE).1) escrituras.tail

/-- Step budget that covers every `recv` the pending input of a socket allows. -/
def presupuesto (s : Socket) : Nat := (s.entrada.map List.length).sum + s.entrada.length + 1

/-- The file name built by `snprintf(cancion, sizeof(cancion), "%d.mp3", eleccion)`. -/
def nombre_cancion (eleccion : Int) : List Nat :=
  snprintf 50 (decimal eleccion.toNat ++ ascii ".mp3")

/-- The function `escuchar_cancion_cliente`. `teclado`: the values typed at the prompt
(`none`: not a number); `locales`: names of the files already present; `abre`: whether
`fopen(cancion, "wb")` succeeds; `escrituras`: outcome of the coming `fwrite` calls;
`buffer`: the caller's array. The budget of the outer loop is the typed input. -/
def escuchar_cancion_cliente : List (Option Int) → List (List Nat) → Bool → List Bool →
    Socket → List Nat → Except Anomalia Descarga
  | [], _, _, _, _, _ => .error .agotado
  | none :: t, locales, abre, escrituras, s, buffer =>
    escuchar_cancion_cliente t locales abre escrituras s buffer
  | some eleccion :: t, locales, abre, escrituras, s, buffer =>
    if eleccion = 0 then
      if (send s FIN).1 then .ok ⟨OK, (send s FIN).2, none, false⟩
      else .ok ⟨ERROR, (send s FIN).2, none, false⟩
    else if eleccion < 0 then escuchar_cancion_cliente t locales abre escrituras s buffer
    else if nombre_cancion eleccion ∈ locales then
      escuchar_cancion_cliente t locales abre escrituras s buffer
    else
      let cancion := nombre_cancion eleccion
      let buffer1 := escribir buffer (cancion ++ [0])
      let s1 := send s (cadena buffer1 0)
      if s1.1 then
        let r := recv s1.2 BUFFER_SIZE
        if r.1.length = 0 then .ok ⟨ERROR, r.2, none, false⟩
        else if r.1.length < BUFFER_SIZE then
          let buffer2 := escribir buffer1 (r.1 ++ [0])
          if cadena buffer2 0 = FIN then .ok ⟨OK, r.2, none, false⟩
          else if cadena buffer2 0 = ascii "ERROR" then .ok ⟨ERROR, r.2, none, false⟩
          else if abre then
            match recibir_bloques (presupuesto r.2) r.2 buffer2 [] escrituras with
            | .error e => .error e
            | .ok (estado, s2, escrito, fin) => .ok ⟨estado, s2, some (cancion, escrito), fin⟩
          else .ok ⟨ERROR, r.2, none, false⟩
        else .error .indefinido
      else .ok ⟨ERROR, s1.2, none, false⟩

/-! ## Credential store (`servidor/src/usuarios.c`) -/

/-- An account record: the strings held by the two fields of `struct Cuenta`. -/
structure Cuenta where
  usuario : List Nat
  contrasenia : List Nat
deriving DecidableEq, Repr

/-- The input/output fault met by one call into the store: none, `fopen` returns NULL,
the `fread` call number `n` (from 0) fails with the error indicator set, `fwrite`
fails, or the write error comes up only when `fclose` flushes the buffered record
(`fwrite` has returned 1 by then). -/
inductive FalloES where
  | ninguno
  | apertura
  | lectura (n : Nat)
  | escritura
  | cierre
deriving DecidableEq, Repr

/-- The comparison loop of `validar_inicio`; `k` numbers the coming `fread` call. -/
def validar_inicio_bucle (es : FalloES) (usuario contrasenia : List Nat) :
    Nat → List Cuenta → List Nat
  | k, [] => if es = .lectura k then ERROR_MEMORIA_USUARIOS else ERROR_USUARIO_USUARIOS
  | k, c :: r =>
    if es = .lectura k then ERROR_MEMORIA_USUARIOS
    else if c.usuario = usuario ∧ c.contrasenia = contrasenia then EXITO
    else validar_inicio_bucle es usuario contrasenia (k + 1) r

/-- The function `validar_inicio`. `db`: the records of `usuarios.db`, `none` when the
file does not exist. -/
def validar_inicio (es : FalloES) (db : Option (List Cuenta)) (usuario contrasenia : List Nat) :
    List Nat :=
  match db with
  | none => ERROR_MEMORIA_USUARIOS
  | some regs =>
    if es = .apertura then ERROR_MEMORIA_USUARIOS
    else if es = .lectura 0 then ERROR_MEMORIA_USUARIOS
    else
      match regs with
      | [] => ERROR_VACIO_USUARIOS
      | _ :: _ => validar_inicio_bucle es usuario contrasenia 1 regs

/-- The comparison loop of `validar_registro`; `k` numbers the coming `fread` call. -/
def validar_registro_bucle (es : FalloES) (usuario : List Nat) : Nat → List Cuenta → List Nat
  | k, [] => if es = .lectura k then ERROR_MEMORIA_USUARIOS else EXITO
  | k, c :: r =>
    if es = .lectura k then ERROR_MEMORIA_USUARIOS
    else if c.usuario = usuario then ERROR_REGISTRO_USUARIOS
    else validar_registro_bucle es usuario (k + 1) r

/-- The function `validar_registro`: the token returned and the store after the call
(a missing file is created empty). -/
def validar_registro (es : FalloES) (db : Option (List Cuenta)) (usuario : List Nat) :
    List Nat × Option (List Cuenta) :=
  match db with
  | some regs =>
    if es = .apertura then (ERROR_MEMORIA_USUARIOS, some regs)
    else (validar_registro_bucle es usuario 0 regs, some regs)
  | none =>
    if es = .apertura then (ERROR_MEMORIA_USUARIOS, none)
    else (EXITO, some [])

/-- The function `guardar_cuenta`: the value returned and the store after the call
(`fopen` in append mode creates a missing file). The record is one `fwrite` of
`sizeof(Cuenta)` bytes into the buffer of the stream; it reaches the file when `fclose`
flushes, and the value of `fclose` is not looked at: a write error at that point leaves
the file without the record while the function returns OK. -/
def guardar_cuenta (es : FalloES) (db : Option (List Cuenta)) (usuario : Cuenta) :
    Int × Option (List Cuenta) :=
  if es = .apertura then (ERROR, db)
  else if es = .escritura then (ERROR, some (db.getD []))
  else if es = .cierre then (OK, some (db.getD []))
  else (OK, some (db.getD [] ++ [usuario]))

/-- A user name or password as the handshake carries it: non-empty, at most 25 bytes,
without NUL. -/
def credencial_valida (t : List Nat) : Prop := t ≠ [] ∧ t.length ≤ 25 ∧ ∀ b ∈ t, b ≠ 0

/-- The server and the client run on one download: the server answers the request for
track `eleccion`, and the client, asked for that track, with no local file and no disk
fault, receives every message the server sent as one read. Returns what the client
leaves behind. -/
def descarga (fs : List Nat → Archivo) (eleccion : Int) (buffer : List Nat) :
    Except Anomalia Descarga :=
  match escuchar_cancion_servidor fs ⟨[nombre_cancion eleccion], [], []⟩ with
  | .error e => .error e
  | .ok (_, servidor) =>
    escuchar_cancion_cliente [some eleccion] [] true [] ⟨servidor.salida, [], []⟩ buffer

/-- The chunks in which `fread` delivers the bytes `f`, `n` bounding their number. -/
def trozos : Nat → List Nat → List (List Nat)
  | 0, _ => []
  | n + 1, f => if f = [] then [] else f.take BUFFER_SIZE :: trozos n (f.drop BUFFER_SIZE)

/-- A server file system holding one file. -/
def un_archivo (nombre bytes : List Nat) : List Nat → Archivo :=
  fun n => if n = nombre then .contenido bytes else .inexistente

/-- A file is copied whole by a download unless its last chunk is the sentinel: its
length leaves remainder 3 modulo the chunk size and its last three bytes are `FIN`. -/
def copia_fiel (b : List Nat) : Prop :=
  ¬ (b.length % BUFFER_SIZE = 3 ∧ b.drop (b.length - 3) = FIN)

/-- Ordinals, counted from `k` by position, of the records of `cs` whose column `sector`
equals `filtro` up to case. -/
def ordinales (filtro : List Nat) (sector : Nat) : Nat → List Cancion → List Nat
  | _, [] => []
  | k, c :: cs =>
    if (campo c sector).map tolower = filtro.map tolower then
      k :: ordinales filtro sector (k + 1) cs
    else ordinales filtro sector (k + 1) cs

instance (c : List Nat) : Decidable (campo_valido c) := by
  unfold campo_valido; infer_instance

instance (c : Cancion) : Decidable (cancion_valida c) := by
  unfold cancion_valida; infer_instance

instance (t : List Nat) : Decidable (credencial_valida t) := by
  unfold credencial_valida; infer_instance

instance (b : List Nat) : Decidable (copia_fiel b) := by
  unfold copia_fiel; infer_instance

/-- A small catalog: the genres differ from the filter text `Rock` by case only, by a
longer text, and altogether. -/
def catalogo_ejemplo : List Cancion :=
  [⟨ascii "Uno", ascii "Ana", ascii "Alfa", ascii "Jazz", ascii "1999"⟩,
   ⟨ascii "Dos", ascii "Beto", ascii "Beta", ascii "rock", ascii "2001"⟩,
   ⟨ascii "Tres", ascii "Ana", ascii "Gama", ascii "Rock n Roll", ascii "2005"⟩]

/-! ## Session (`menu_canciones_servidor`, `procesar_opcion`, `menu_bucle_servidor`) -/

/-- The handlers called by the `switch` of `menu_canciones_servidor`. -/
inductive Manejador where
  | listar
  | filtrar
  | escuchar
deriving DecidableEq, Repr

/-- The `switch (opcion)` of `menu_canciones_servidor`: the handler of each case,
`none` for `default`. -/
def manejador_de (opcion : Int) : Option Manejador :=
  if opcion = 1 then some .listar
  else if opcion = 2 then some .filtrar
  else if opcion = 3 then some .escuchar
  else none

/-- The call made by a case of the `switch`. -/
def despachar (h : Manejador) (media : Option (List Nat)) (fs : List Nat → Archivo)
    (s : Socket) : Except Anomalia (Int × Socket) :=
  match h with
  | .listar => listar_servidor media s
  | .filtrar => menu_filtrar_servidor media s
  | .escuchar => escuchar_cancion_servidor fs s

/-- Adding a handler call in front of the calls of the rest of a run. -/
def anotar (p : Manejador × Int) (r : Except Anomalia (Socket × List (Manejador × Int))) :
    Except Anomalia (Socket × List (Manejador × Int)) :=
  match r with
  | .error e => .error e
  | .ok (s, t) => .ok (s, p :: t)

/-- The `do ... while (estado == OK)` loop of `menu_canciones_servidor`. Returns the
socket when the loop is left and the handlers called, each with the value it returned,
in order. -/
def menu_canciones_bucle : Nat → Option (List Nat) → (List Nat → Archivo) → Socket →
    Except Anomalia (Socket × List (Manejador × Int))
  | 0, _, _, _ => .error .agotado
  | fuel + 1, media, fs, s =>
    if (recv s BUFFER_SIZE).1.length = 0 then .ok ((recv s BUFFER_SIZE).2, [])
    else
      match terminar (recv s BUFFER_SIZE).1 with
      | .error e => .error e
      | .ok texto =>
        match manejador_de (atoi texto) with
        | none => .ok ((recv s BUFFER_SIZE).2, [])
        | some h =>
          match despachar h media fs (recv s BUFFER_SIZE).2 with
          | .error e => .error e
          | .ok (estado, s1) =>
            if estado = OK then anotar (h, estado) (menu_canciones_bucle fuel media fs s1)
            else .ok (s1, [(h, estado)])

/-- The function `menu_canciones_servidor`. Every turn of the loop takes at least one
`recv`, so the pending input bounds the number of turns. -/
def menu_canciones_servidor (media : Option (List Nat)) (fs : List Nat → Archivo)
    (s : Socket) : Except Anomalia (Socket × List (Manejador × Int)) :=
  menu_canciones_bucle (presupuesto s) media fs s

/-- What a call of `procesar_opcion` leaves behind. `db`: the credential store after
the call; `menu`: whether `menu_canciones_servidor` was entered; `fin`: the value
returned, the socket and the handlers called by the catalog menu. The store is settled
before the catalog menu starts, so it is known even when the menu runs into undefined
behaviour. -/
structure Atencion where
  db : Option (List Cuenta)
  menu : Bool
  fin : Except Anomalia (Int × Socket × List (Manejador × Int))
deriving DecidableEq

/-- The tail of the two successful branches of `procesar_opcion`:
`menu_canciones_servidor(client_sock, buffer); return SALIR;`. -/
def entrar_menu (media : Option (List Nat)) (fs : List Nat → Archivo) (s : Socket) :
    Except Anomalia (Int × Socket × List (Manejador × Int)) :=
  match menu_canciones_servidor media fs s with
  | .error e => .error e
  | .ok (s1, t) => .ok (SALIR, s1, t)

/-- The function `procesar_opcion`. `es1` is the fault met by `validar_inicio` or
`validar_registro`, `es2` the fault met by `guardar_cuenta`. -/
def procesar_opcion (media : Option (List Nat)) (fs : List Nat → Archivo)
    (es1 es2 : FalloES) (db : Option (List Cuenta)) (s : Socket) (opcion : Int)
    (usuario : Cuenta) : Atencion :=
  if opcion = 1 then
    let buffer := snprintf BUFFER_SIZE (validar_inicio es1 db usuario.usuario usuario.contrasenia)
    if (send s buffer).1 then
      if buffer = EXITO then ⟨db, true, entrar_menu media fs (send s buffer).2⟩
      else ⟨db, false, .ok (OK, (send s buffer).2, [])⟩
    else ⟨db, false, .ok (SALIR, (send s buffer).2, [])⟩
  else if opcion = 2 then
    let r := validar_registro es1 db usuario.usuario
    let buffer := snprintf BUFFER_SIZE r.1
    if buffer = EXITO then
      let g := guardar_cuenta es2 r.2 usuario
      if g.1 = ERROR then
        ⟨g.2, false, .ok (SALIR, (send s (snprintf BUFFER_SIZE ERROR_GUARDAR)).2, [])⟩
      else if (send s buffer).1 then ⟨g.2, true, entrar_menu media fs (send s buffer).2⟩
      else ⟨g.2, false, .ok (SALIR, (send s buffer).2, [])⟩
    else if (send s buffer).1 then ⟨r.2, false, .ok (OK, (send s buffer).2, [])⟩
    else ⟨r.2, false, .ok (SALIR, (send s buffer).2, [])⟩
  else ⟨db, false, .ok (OK, s, [])⟩

/-- The call `strcpy(campo, token)` for a field of `struct Cuenta` (26 bytes): the
string the field holds. A NULL token or a token of more than 25 bytes is undefined. -/
def copiar_campo (mem : List Nat) (token : Option Nat) : Except Anomalia (List Nat) :=
  match token with
  | none => .error .indefinido
  | some p => if (cadena mem p).length < 26 then .ok (cadena mem p) else .error .indefinido

/-- The parsing of a handshake message in `menu_bucle_servidor`: three `strtok` calls
on `:`, two `strcpy` and `atoi`. Returns the opcode and the account. -/
def leer_solicitud (m : List Nat) : Except Anomalia (Int × Cuenta) :=
  if m.length < BUFFER_SIZE then
    match strtok (m ++ [0]) 0 [58] with
    | (t0, mem0, g0) =>
      match strtok mem0 g0 [58] with
      | (t1, mem1, g1) =>
        match copiar_campo mem1 t1 with
        | .error e => .error e
        | .ok usuario =>
          match strtok mem1 g1 [58] with
          | (t2, mem2, _) =>
            match copiar_campo mem2 t2 with
            | .error e => .error e
            | .ok contrasenia =>
              match t0 with
              | none => .error .indefinido
              | some p => .ok (atoi (cadena mem2 p), ⟨usuario, contrasenia⟩)
  else .error .indefinido

/-- What one connection leaves behind: the calls of `procesar_opcion` in order, the
credential store at the end, and the socket that is closed. -/
structure Sesion where
  turnos : List Atencion
  db : Option (List Cuenta)
  fin : Except Anomalia Socket
deriving DecidableEq

/-- One connection of `menu_bucle_servidor`: the inner `while (1)` between `accept` and
`close`. `fallos`: the input/output faults met by the coming calls of
`procesar_opcion` (later calls meet none). -/
def menu_bucle_servidor : Nat → Option (List Nat) → (List Nat → Archivo) →
    List (FalloES × FalloES) → Option (List Cuenta) → Socket → Sesion
  | 0, _, _, _, db, _ => ⟨[], db, .error .agotado⟩
  | fuel + 1, media, fs, fallos, db, s =>
    if (recv s BUFFER_SIZE).1.length = 0 then ⟨[], db, .ok (recv s BUFFER_SIZE).2⟩
    else
      match leer_solicitud (recv s BUFFER_SIZE).1 with
      | .error e => ⟨[], db, .error e⟩
      | .ok (opcion, usuario) =>
        let a := procesar_opcion media fs (fallos.headD (.ninguno, .ninguno)).1
          (fallos.headD (.ninguno, .ninguno)).2 db (recv s BUFFER_SIZE).2 opcion usuario
        match a.fin with
        | .error e => ⟨[a], a.db, .error e⟩
        | .ok (valor, s1, _) =>
          if valor = SALIR then ⟨[a], a.db, .ok s1⟩
          else
            ⟨a :: (menu_bucle_servidor fuel media fs fallos.tail a.db s1).turnos,
              (menu_bucle_servidor fuel media fs fallos.tail a.db s1).db,
              (menu_bucle_servidor fuel media fs fallos.tail a.db s1).fin⟩

/-- The records of a credential store; a missing file holds none. -/
def registros (db : Option (List Cuenta)) : List Cuenta := db.getD []

/-- One request handed to `procesar_opcion`, with the environment it meets. -/
structure Solicitud where
  media : Option (List Nat)
  fs : List Nat → Archivo
  es1 : FalloES
  es2 : FalloES
  sock : Socket
  opcion : Int
  usuario : Cuenta

/-- The credential store after the requests `qs` were processed one at a time by
`procesar_opcion`, starting from `db`. -/
def almacen_tras (db : Option (List Cuenta)) (qs : List Solicitud) : Option (List Cuenta) :=
  qs.foldl (fun d q => (procesar_opcion q.media q.fs q.es1 q.es2 d q.sock q.opcion q.usuario).db)
    db

/-- No two records of the store have the same user name. -/
def nombres_unicos (db : Option (List Cuenta)) : Prop :=
  ((registros db).map (fun c => c.usuario)).Nodup

/-- One connection served to its end: the loop of `menu_bucle_servidor` with the budget
that covers the pending input of the socket. -/
def conexion (media : Option (List Nat)) (fs : List Nat → Archivo)
    (fallos : List (FalloES × FalloES)) (db : Option (List Cuenta)) (s : Socket) : Sesion :=
  menu_bucle_servidor (presupuesto s) media fs fallos db s

/-! ## Handshake message of the client (`cliente/src/menu.c`) -/

/-- The bytes printed by `%d` for an `int`. -/
def decimal_int (n : Int) : List Nat :=
  if n < 0 then 45 :: decimal n.natAbs else decimal n.toNat

/-- The message built by `menu_cliente` with
`snprintf(buffer, BUFFER_SIZE, "%d:%s:%s", opcion, credencial.usuario, credencial.contrasenia)`
and sent with `strlen(buffer)` bytes. -/
def mensaje_cliente (opcion : Int) (credencial : Cuenta) : List Nat :=
  snprintf BUFFER_SIZE
    (decimal_int opcion ++ 58 :: (credencial.usuario ++ 58 :: credencial.contrasenia))

/-- The first non-empty segment of a text cut at `:`: the token that `strtok` on `:`
finds in it. -/
def primer_segmento (s : List Nat) : List Nat :=
  (s.dropWhile (fun x => decide (x = 58))).takeWhile (fun x => decide (x ≠ 58))

/-! # Lemmas -/

/-! ## Lemmas on lists used as memory -/

theorem takeWhile_hasta (p : Nat → Bool) (a : List Nat) (x : Nat) (r : List Nat)
    (ha : ∀ b ∈ a, p b = true) (hx : p x = false) : (a ++ x :: r).takeWhile p = a := by
  induction a with
  | nil => simp [List.takeWhile, hx]
  | cons c cs ih =>
    have hc : p c = true := ha c (List.mem_cons_self c cs)
    have hcs : ∀ b ∈ cs, p b = true := fun b hb => ha b (List.mem_cons_of_mem c hb)
    simp [List.takeWhile, hc, ih hcs]

theorem drop_medio (pre r : List Nat) : (pre ++ r).drop pre.length = r := by
  induction pre with
  | nil => rfl
  | cons c cs ih => simp [ih]

theorem getD_medio (pre : List Nat) (x : Nat) (post : List Nat) :
    (pre ++ x :: post).getD pre.length 0 = x := by
  induction pre with
  | nil => rfl
  | cons c cs ih => simpa using ih

theorem set_medio (pre : List Nat) (x y : Nat) (post : List Nat) :
    (pre ++ x :: post).set pre.length y = pre ++ y :: post := by
  induction pre with
  | nil => rfl
  | cons c cs ih => simp [ih]

theorem cadena_medio (pre campo post : List Nat) (h : ∀ b ∈ campo, b ≠ 0) :
    cadena (pre ++ (campo ++ 0 :: post)) pre.length = campo := by
  unfold cadena
  rw [drop_medio]
  exact takeWhile_hasta _ campo 0 post (fun b hb => by simpa using h b hb) (by simp)

theorem strcspn_hasta (campo : List Nat) (x : Nat) (post delim : List Nat)
    (h : ∀ b ∈ campo, b ≠ 0 ∧ b ∉ delim) (hx : x = 0 ∨ x ∈ delim) :
    strcspn (campo ++ x :: post) delim = campo.length := by
  unfold strcspn
  rw [takeWhile_hasta _ campo x post (fun b hb => by simpa using h b hb)]
  rcases hx with hx | hx
  · simp [hx]
  · simp [hx]

theorem strspn_cero (c : Nat) (r delim : List Nat) (h : c = 0 ∨ c ∉ delim) :
    strspn (c :: r) delim = 0 := by
  unfold strspn
  rcases h with h | h
  · simp [List.takeWhile, h]
  · simp [List.takeWhile, h]

/-- A token followed by a delimiter: `strtok` returns it, overwrites the delimiter and
saves the position after it. -/
theorem strtok_separado (pre campo post : List Nat) (hne : campo ≠ [])
    (h : ∀ b ∈ campo, b ≠ 0 ∧ b ≠ 44) :
    strtok (pre ++ (campo ++ 44 :: post)) pre.length [44] =
      (some pre.length, pre ++ (campo ++ 0 :: post), (pre ++ (campo ++ [0])).length) := by
  obtain ⟨c, cs, rfl⟩ := List.exists_cons_of_ne_nil hne
  have hc := h c (List.mem_cons_self c cs)
  have h1 : strspn ((pre ++ (c :: cs ++ 44 :: post)).drop pre.length) [44] = 0 := by
    rw [drop_medio]; exact strspn_cero c _ _ (Or.inr (by simpa using hc.2))
  have h2 : strcspn ((pre ++ (c :: cs ++ 44 :: post)).drop pre.length) [44] = (c :: cs).length := by
    rw [drop_medio]
    exact strcspn_hasta (c :: cs) 44 post [44] (fun b hb => by simpa using h b hb) (Or.inr (by simp))
  have h3 : (pre ++ (c :: cs ++ 44 :: post)).getD pre.length 0 = c := by
    simpa using getD_medio pre c (cs ++ 44 :: post)
  have h4 : (pre ++ (c :: cs ++ 44 :: post)).getD (pre.length + (c :: cs).length) 0 = 44 := by
    have := getD_medio (pre ++ c :: cs) 44 post
    simpa [List.append_assoc] using this
  have h5 : (pre ++ (c :: cs ++ 44 :: post)).set (pre.length + (c :: cs).length) 0
      = pre ++ (c :: cs ++ 0 :: post) := by
    simp
  unfold strtok
  simp only [h1, Nat.add_zero, h3, h2, h4, h5]
  simp [hc.1, Nat.add_assoc]

/-- The last token, ended by the NUL of the string: `strtok` returns it and saves the
position of the NUL. -/
theorem strtok_final (pre campo post : List Nat) (hne : campo ≠ [])
    (h : ∀ b ∈ campo, b ≠ 0 ∧ b ≠ 44) :
    strtok (pre ++ (campo ++ 0 :: post)) pre.length [44] =
      (some pre.length, pre ++ (campo ++ 0 :: post), (pre ++ campo).length) := by
  obtain ⟨c, cs, rfl⟩ := List.exists_cons_of_ne_nil hne
  have hc := h c (List.mem_cons_self c cs)
  have h1 : strspn ((pre ++ (c :: cs ++ 0 :: post)).drop pre.length) [44] = 0 := by
    rw [drop_medio]; exact strspn_cero c _ _ (Or.inr (by simpa using hc.2))
  have h2 : strcspn ((pre ++ (c :: cs ++ 0 :: post)).drop pre.length) [44] = (c :: cs).length := by
    rw [drop_medio]
    exact strcspn_hasta (c :: cs) 0 post [44] (fun b hb => by simpa using h b hb) (Or.inl rfl)
  have h3 : (pre ++ (c :: cs ++ 0 :: post)).getD pre.length 0 = c := by
    simpa using getD_medio pre c (cs ++ 0 :: post)
  have h4 : (pre ++ (c :: cs ++ 0 :: post)).getD (pre.length + (c :: cs).length) 0 = 0 := by
    have := getD_medio (pre ++ c :: cs) 0 post
    simpa [List.append_assoc] using this
  unfold strtok
  simp only [h1, Nat.add_zero, h3, h2, h4]
  simp [hc.1]

/-- At the NUL that ends the string `strtok` returns NULL and leaves the array as it is. -/
theorem strtok_nulo (pre post : List Nat) :
    strtok (pre ++ 0 :: post) pre.length [44] = (none, pre ++ 0 :: post, pre.length) := by
  have h1 : strspn ((pre ++ 0 :: post).drop pre.length) [44] = 0 := by
    rw [drop_medio]; exact strspn_cero 0 _ _ (Or.inl rfl)
  unfold strtok
  simp only [h1, Nat.add_zero, getD_medio]
  simp

theorem campo_sin (f : List Nat) (h : campo_valido f) : ∀ b ∈ f, b ≠ 0 ∧ b ≠ 44 :=
  fun b hb => ⟨(h.2 b hb).1, (h.2 b hb).2.2⟩

theorem campo_sin_nul (f : List Nat) (h : campo_valido f) : ∀ b ∈ f, b ≠ 0 :=
  fun b hb => (h.2 b hb).1

theorem tok0 (c : Cancion) (cola : List Nat) (hv : cancion_valida c) :
    strtok (linea_csv c ++ 0 :: cola) 0 [44] =
      (some 0, pre1 c ++ resto1 c cola, (pre1 c).length) := by
  have h := strtok_separado [] c.titulo (resto1 c cola) hv.1.1 (campo_sin _ hv.1)
  simpa [linea_csv, pre1, resto1, resto2, resto3, resto4] using h

theorem tok1 (c : Cancion) (cola : List Nat) (hv : cancion_valida c) :
    strtok (pre1 c ++ resto1 c cola) (pre1 c).length [44] =
      (some (pre1 c).length, pre2 c ++ resto2 c cola, (pre2 c).length) := by
  have h := strtok_separado (pre1 c) c.artista (resto2 c cola) hv.2.1.1 (campo_sin _ hv.2.1)
  have e : pre1 c ++ (c.artista ++ 0 :: resto2 c cola) = pre2 c ++ resto2 c cola := by
    simp [pre2]
  rw [e] at h
  exact h

theorem tok2 (c : Cancion) (cola : List Nat) (hv : cancion_valida c) :
    strtok (pre2 c ++ resto2 c cola) (pre2 c).length [44] =
      (some (pre2 c).length, pre3 c ++ resto3 c cola, (pre3 c).length) := by
  have h := strtok_separado (pre2 c) c.album (resto3 c cola) hv.2.2.1.1 (campo_sin _ hv.2.2.1)
  have e : pre2 c ++ (c.album ++ 0 :: resto3 c cola) = pre3 c ++ resto3 c cola := by
    simp [pre3]
  rw [e] at h
  exact h

theorem tok3 (c : Cancion) (cola : List Nat) (hv : cancion_valida c) :
    strtok (pre3 c ++ resto3 c cola) (pre3 c).length [44] =
      (some (pre3 c).length, pre4 c ++ resto4 c cola, (pre4 c).length) := by
  have h := strtok_separado (pre3 c) c.genero (resto4 c cola) hv.2.2.2.1.1
    (campo_sin _ hv.2.2.2.1)
  have e : pre3 c ++ (c.genero ++ 0 :: resto4 c cola) = pre4 c ++ resto4 c cola := by
    simp [pre4]
  rw [e] at h
  exact h

theorem tok4 (c : Cancion) (cola : List Nat) (hv : cancion_valida c) :
    strtok (pre4 c ++ resto4 c cola) (pre4 c).length [44] =
      (some (pre4 c).length, pre5 c ++ 0 :: cola, (pre5 c).length) := by
  have h := strtok_final (pre4 c) c.anio cola hv.2.2.2.2.1.1 (campo_sin _ hv.2.2.2.2.1)
  unfold resto4 pre5
  rw [h, List.append_assoc]

theorem tok5 (c : Cancion) (cola : List Nat) :
    strtok (pre5 c ++ 0 :: cola) (pre5 c).length [44] =
      (none, pre5 c ++ 0 :: cola, (pre5 c).length) :=
  strtok_nulo (pre5 c) cola

/-- The tokens read right after the `strtok` call that returned them. -/
theorem cad0 (c : Cancion) (cola : List Nat) (hv : cancion_valida c) :
    cadena (pre1 c ++ resto1 c cola) 0 = c.titulo := by
  have h := cadena_medio [] c.titulo (resto1 c cola) (campo_sin_nul _ hv.1)
  simpa [pre1] using h

theorem cad1 (c : Cancion) (cola : List Nat) (hv : cancion_valida c) :
    cadena (pre2 c ++ resto2 c cola) (pre1 c).length = c.artista := by
  have h := cadena_medio (pre1 c) c.artista (resto2 c cola) (campo_sin_nul _ hv.2.1)
  simpa [pre2] using h

theorem cad2 (c : Cancion) (cola : List Nat) (hv : cancion_valida c) :
    cadena (pre3 c ++ resto3 c cola) (pre2 c).length = c.album := by
  have h := cadena_medio (pre2 c) c.album (resto3 c cola) (campo_sin_nul _ hv.2.2.1)
  simpa [pre3] using h

theorem cad3 (c : Cancion) (cola : List Nat) (hv : cancion_valida c) :
    cadena (pre4 c ++ resto4 c cola) (pre3 c).length = c.genero := by
  have h := cadena_medio (pre3 c) c.genero (resto4 c cola) (campo_sin_nul _ hv.2.2.2.1)
  simpa [pre4] using h

theorem cad4 (c : Cancion) (cola : List Nat) (hv : cancion_valida c) :
    cadena (pre5 c ++ 0 :: cola) (pre4 c).length = c.anio := by
  have h := cadena_medio (pre4 c) c.anio cola (campo_sin_nul _ hv.2.2.2.2.1)
  simpa [pre5] using h

/-- The tokens read from the array once the whole line has been tokenised. -/
theorem fin0 (c : Cancion) (cola : List Nat) (hv : cancion_valida c) :
    cadena (pre5 c ++ 0 :: cola) 0 = c.titulo := by
  have h := cadena_medio [] c.titulo
    (c.artista ++ 0 :: (c.album ++ 0 :: (c.genero ++ 0 :: (c.anio ++ 0 :: cola))))
    (campo_sin_nul _ hv.1)
  simpa [pre5, pre4, pre3, pre2, pre1] using h

theorem fin1 (c : Cancion) (cola : List Nat) (hv : cancion_valida c) :
    cadena (pre5 c ++ 0 :: cola) (pre1 c).length = c.artista := by
  have h := cadena_medio (pre1 c) c.artista
    (c.album ++ 0 :: (c.genero ++ 0 :: (c.anio ++ 0 :: cola))) (campo_sin_nul _ hv.2.1)
  have e : pre1 c ++ (c.artista ++ 0 :: (c.album ++ 0 :: (c.genero ++ 0 :: (c.anio ++ 0 :: cola))))
      = pre5 c ++ 0 :: cola := by simp [pre5, pre4, pre3, pre2]
  rw [e] at h
  exact h

theorem fin2 (c : Cancion) (cola : List Nat) (hv : cancion_valida c) :
    cadena (pre5 c ++ 0 :: cola) (pre2 c).length = c.album := by
  have h := cadena_medio (pre2 c) c.album
    (c.genero ++ 0 :: (c.anio ++ 0 :: cola)) (campo_sin_nul _ hv.2.2.1)
  have e : pre2 c ++ (c.album ++ 0 :: (c.genero ++ 0 :: (c.anio ++ 0 :: cola)))
      = pre5 c ++ 0 :: cola := by simp [pre5, pre4, pre3]
  rw [e] at h
  exact h

theorem fin3 (c : Cancion) (cola : List Nat) (hv : cancion_valida c) :
    cadena (pre5 c ++ 0 :: cola) (pre3 c).length = c.genero := by
  have h := cadena_medio (pre3 c) c.genero (c.anio ++ 0 :: cola) (campo_sin_nul _ hv.2.2.2.1)
  have e : pre3 c ++ (c.genero ++ 0 :: (c.anio ++ 0 :: cola)) = pre5 c ++ 0 :: cola := by
    simp [pre5, pre4]
  rw [e] at h
  exact h

theorem fgets_toma_linea (l resto : List Nat) (n : Nat) (hl : ∀ b ∈ l, b ≠ 10)
    (hn : l.length < n) : fgets_toma n (l ++ 10 :: resto) = l ++ [10] := by
  induction l generalizing n with
  | nil =>
    cases n with
    | zero => omega
    | succ m => simp [fgets_toma]
  | cons c cs ih =>
    cases n with
    | zero => simp at hn
    | succ m =>
      have hc : c ≠ 10 := hl c (List.mem_cons_self c cs)
      have hcs : ∀ b ∈ cs, b ≠ 10 := fun b hb => hl b (List.mem_cons_of_mem c hb)
      have hm : cs.length < m := by simpa using hn
      simp [fgets_toma, hc, ih m hcs hm]

/-- A line without newline that fits the array is delivered whole by one `fgets`. -/
theorem fgets_linea (l resto : List Nat) (hl : ∀ b ∈ l, b ≠ 10)
    (hn : l.length + 1 < LINEA_MAX) :
    fgets LINEA_MAX (l ++ 10 :: resto) = some (l ++ [10], resto) := by
  have h := fgets_toma_linea l resto (LINEA_MAX - 1) hl (by omega)
  unfold fgets
  rw [h]
  have e : (l ++ 10 :: resto).drop (l ++ [10]).length = resto := by
    simp
  simp [e]

theorem linea_csv_limpia (c : Cancion) (hv : cancion_valida c) :
    ∀ b ∈ linea_csv c, b ≠ 0 ∧ b ∉ [10] := by
  intro b hb
  obtain ⟨h0, h1, h2, h3, h4, _⟩ := hv
  simp only [linea_csv, List.mem_append, List.mem_cons] at hb
  have k : b = 44 ∨ (b ≠ 0 ∧ b ≠ 10) := by
    rcases hb with hb | hb | hb | hb | hb | hb | hb | hb | hb
    · exact Or.inr ⟨(h0.2 b hb).1, (h0.2 b hb).2.1⟩
    · exact Or.inl hb
    · exact Or.inr ⟨(h1.2 b hb).1, (h1.2 b hb).2.1⟩
    · exact Or.inl hb
    · exact Or.inr ⟨(h2.2 b hb).1, (h2.2 b hb).2.1⟩
    · exact Or.inl hb
    · exact Or.inr ⟨(h3.2 b hb).1, (h3.2 b hb).2.1⟩
    · exact Or.inl hb
    · exact Or.inr ⟨(h4.2 b hb).1, (h4.2 b hb).2.1⟩
  rcases k with k | k
  · subst k; simp
  · exact ⟨k.1, by simpa using k.2⟩

/-- The line array once a well-formed line was read and its newline removed. -/
theorem cargar_linea_ok (linea : List Nat) (c : Cancion) (hv : cancion_valida c) :
    cargar_linea linea (linea_csv c ++ [10]) =
      linea_csv c ++ 0 :: 0 :: linea.drop ((linea_csv c).length + 2) := by
  have e : escribir linea (linea_csv c ++ [10] ++ [0]) =
      linea_csv c ++ 10 :: 0 :: linea.drop ((linea_csv c).length + 2) := by
    simp [escribir]
  have k : strcspn (linea_csv c ++ 10 :: 0 :: linea.drop ((linea_csv c).length + 2)) [10]
      = (linea_csv c).length :=
    strcspn_hasta (linea_csv c) 10 _ [10] (linea_csv_limpia c hv) (Or.inr (by simp))
  unfold cargar_linea
  rw [e, k]
  exact set_medio (linea_csv c) 10 0 _

theorem strcat_ok (tam : Nat) (a b : List Nat) (h : a.length + b.length < tam) :
    strcat tam a b = .ok (a ++ b) := by
  simp [strcat, h]

theorem snprintf_ok (tam : Nat) (a : List Nat) (h : a.length < tam) :
    snprintf tam a = a := by
  unfold snprintf
  exact List.take_of_length_le (by omega)

theorem length_linea_csv (c : Cancion) :
    (linea_csv c).length =
      c.titulo.length + c.artista.length + c.album.length + c.genero.length + c.anio.length + 4 := by
  simp [linea_csv]; omega

theorem length_SEP : SEP.length = 3 := by decide

/-- The message `listar_servidor` builds for a well-formed line. -/
theorem listar_linea_ok (cont : Nat) (c : Cancion) (cola : List Nat) (hv : cancion_valida c)
    (hd : (decimal cont).length ≤ 10) :
    listar_linea cont (linea_csv c ++ 0 :: cola) =
      .ok (linea_listado cont c, pre5 c ++ 0 :: cola) := by
  have hlen := length_linea_csv c
  have hfit : (linea_csv c).length + 1 < 256 := hv.2.2.2.2.2
  have hs := length_SEP
  unfold listar_linea
  rw [tok0 c cola hv]
  simp only []
  rw [cad0 c cola hv, snprintf_ok BUFFER_SIZE _ (by simp [BUFFER_SIZE, hs]; omega)]
  simp only [listar_campos]
  rw [tok1 c cola hv]
  simp only []
  rw [cad1 c cola hv, strcat_ok BUFFER_SIZE _ _ (by simp [BUFFER_SIZE, hs]; omega)]
  simp only []
  rw [strcat_ok BUFFER_SIZE _ _ (by simp [BUFFER_SIZE, hs]; omega)]
  simp only []
  rw [tok2 c cola hv]
  simp only []
  rw [cad2 c cola hv, strcat_ok BUFFER_SIZE _ _ (by simp [BUFFER_SIZE, hs]; omega)]
  simp only []
  rw [strcat_ok BUFFER_SIZE _ _ (by simp [BUFFER_SIZE, hs]; omega)]
  simp only []
  rw [tok3 c cola hv]
  simp only []
  rw [cad3 c cola hv, strcat_ok BUFFER_SIZE _ _ (by simp [BUFFER_SIZE, hs]; omega)]
  simp only []
  rw [strcat_ok BUFFER_SIZE _ _ (by simp [BUFFER_SIZE, hs]; omega)]
  simp only []
  rw [tok4 c cola hv]
  simp only []
  rw [cad4 c cola hv, strcat_ok BUFFER_SIZE _ _ (by simp [BUFFER_SIZE, hs]; omega)]
  simp only []
  rw [strcat_ok BUFFER_SIZE _ _ (by simp [BUFFER_SIZE, hs]; omega)]
  simp [linea_listado]

theorem decimal_length (n : Nat) (h : n ≤ INT_MAX) : (decimal n).length ≤ 10 := by
  have k := Nat.repr_length n 10 (by decide) (by unfold INT_MAX at h; omega)
  simpa [decimal] using k

/-- A `send` on a socket none of whose coming calls fails. -/
theorem send_ok (s : Socket) (m : List Nat) (hs : ∀ b ∈ s.fallos, b = false) (hm : m ≠ []) :
    (send s m).1 = true ∧ (send s m).2.salida = s.salida ++ [m] ∧
      (send s m).2.entrada = s.entrada ∧ ∀ b ∈ (send s m).2.fallos, b = false := by
  unfold send
  cases hf : s.fallos with
  | nil => simp [hm, hf, hs]
  | cons b r =>
    have hb : b = false := hs b (by simp [hf])
    have hr : ∀ x ∈ r, x = false := fun x hx => hs x (by simp [hf, hx])
    subst hb
    refine ⟨rfl, ?_, rfl, hr⟩
    simp [hm]

theorem FIN_ne_nil : FIN ≠ [] := by decide

theorem linea_listado_ne_nil (k : Nat) (c : Cancion) : linea_listado k c ≠ [] := by
  simp [linea_listado]

theorem length_archivo_csv (cs : List Cancion) : cs.length ≤ (archivo_csv cs).length := by
  induction cs with
  | nil => simp
  | cons c cs ih => simp [archivo_csv]; omega

theorem fgets_toma_todo (l : List Nat) (n : Nat) (hl : ∀ b ∈ l, b ≠ 10)
    (hn : l.length ≤ n) : fgets_toma n l = l := by
  induction l generalizing n with
  | nil => cases n <;> simp [fgets_toma]
  | cons c cs ih =>
    cases n with
    | zero => simp at hn
    | succ m =>
      have hc : c ≠ 10 := hl c (List.mem_cons_self c cs)
      have hcs : ∀ b ∈ cs, b ≠ 10 := fun b hb => hl b (List.mem_cons_of_mem c hb)
      have hm : cs.length ≤ m := by simpa using hn
      simp [fgets_toma, hc, ih m hcs hm]

/-- A last line without newline that fits the array is delivered whole by one `fgets`. -/
theorem fgets_linea_final (l : List Nat) (hne : l ≠ []) (hl : ∀ b ∈ l, b ≠ 10)
    (hn : l.length + 1 < LINEA_MAX) : fgets LINEA_MAX l = some (l, []) := by
  have h := fgets_toma_todo l (LINEA_MAX - 1) hl (by omega)
  unfold fgets
  rw [h]
  simp [hne]

/-- The line array once a well-formed last line without newline was read. -/
theorem cargar_linea_final (linea : List Nat) (c : Cancion) (hv : cancion_valida c) :
    cargar_linea linea (linea_csv c) =
      linea_csv c ++ 0 :: linea.drop ((linea_csv c).length + 1) := by
  have e : escribir linea (linea_csv c ++ [0]) =
      linea_csv c ++ 0 :: linea.drop ((linea_csv c).length + 1) := by
    simp [escribir]
  have k : strcspn (linea_csv c ++ 0 :: linea.drop ((linea_csv c).length + 1)) [10]
      = (linea_csv c).length :=
    strcspn_hasta (linea_csv c) 0 _ [10] (linea_csv_limpia c hv) (Or.inl rfl)
  unfold cargar_linea
  rw [e, k]
  exact set_medio (linea_csv c) 0 0 _

theorem linea_csv_ne_nil (c : Cancion) : linea_csv c ≠ [] := by
  intro h
  have := length_linea_csv c
  rw [h] at this
  simp at this

/-- How `fgets` and `cargar_linea` deliver the first line of a catalog file: the line
is followed by a newline and the rest of the file, or it ends the file. -/
theorem primera_linea (linea resto : List Nat) (c : Cancion) (hv : cancion_valida c) :
    (∃ cola, fgets LINEA_MAX (linea_csv c ++ 10 :: resto) = some (linea_csv c ++ [10], resto) ∧
      cargar_linea linea (linea_csv c ++ [10]) = linea_csv c ++ 0 :: cola) ∧
    (∃ cola, fgets LINEA_MAX (linea_csv c) = some (linea_csv c, []) ∧
      cargar_linea linea (linea_csv c) = linea_csv c ++ 0 :: cola) := by
  have hl : ∀ b ∈ linea_csv c, b ≠ 10 :=
    fun b hb => by simpa using (linea_csv_limpia c hv b hb).2
  exact ⟨⟨_, fgets_linea (linea_csv c) resto hl hv.2.2.2.2.2, cargar_linea_ok linea c hv⟩,
    ⟨_, fgets_linea_final (linea_csv c) (linea_csv_ne_nil c) hl hv.2.2.2.2.2,
      cargar_linea_final linea c hv⟩⟩

theorem listar_bucle_fin (fuel : Nat) (linea : List Nat) (cont : Nat) (s : Socket)
    (hs : ∀ b ∈ s.fallos, b = false) :
    ∃ s1, listar_bucle (fuel + 1) [] linea cont s = .ok (OK, s1) ∧
      s1.salida = s.salida ++ [FIN] ∧ s1.entrada = s.entrada := by
  obtain ⟨h1, h2, h3, _⟩ := send_ok s FIN hs FIN_ne_nil
  exact ⟨(send s FIN).2, by simp [listar_bucle, fgets, h1], h2, h3⟩

/-- One turn of the loop of `listar_servidor` on a well-formed line. -/
theorem listar_bucle_paso (fuel : Nat) (f l resto linea cola : List Nat) (cont : Nat)
    (s : Socket) (c : Cancion) (hc : cancion_valida c)
    (hf : fgets LINEA_MAX f = some (l, resto))
    (hl : cargar_linea linea l = linea_csv c ++ 0 :: cola) (hcont : cont < INT_MAX)
    (hs : ∀ b ∈ s.fallos, b = false) :
    listar_bucle (fuel + 1) f linea cont s =
      listar_bucle fuel resto (pre5 c ++ 0 :: cola) (cont + 1)
        (send s (linea_listado cont c)).2 := by
  obtain ⟨h1, _, _, _⟩ := send_ok s (linea_listado cont c) hs (linea_listado_ne_nil cont c)
  conv => lhs; unfold listar_bucle
  rw [hf]
  simp only []
  rw [hl, listar_linea_ok cont c _ hc (decimal_length cont (by omega))]
  simp only [h1, hcont, if_true]

/-- The scan of `listar_servidor` over a well-formed catalog. -/
theorem listar_bucle_ok (ult : Option Cancion) (cs : List Cancion) :
    ∀ (fuel : Nat) (linea : List Nat) (cont : Nat) (s : Socket),
      (∀ c ∈ cs ++ ult.toList, cancion_valida c) → (cs ++ ult.toList).length < fuel →
      cont + (cs ++ ult.toList).length ≤ INT_MAX → (∀ b ∈ s.fallos, b = false) →
      ∃ s1, listar_bucle fuel (archivo_csv cs ++ linea_abierta ult) linea cont s = .ok (OK, s1) ∧
        s1.salida = s.salida ++ lineas_desde cont (cs ++ ult.toList) ++ [FIN] ∧
        s1.entrada = s.entrada := by
  induction cs with
  | nil =>
    intro fuel linea cont s hv hfuel hcont hs
    cases ult with
    | none =>
      cases fuel with
      | zero => simp at hfuel
      | succ n =>
        obtain ⟨s1, e1, e2, e3⟩ := listar_bucle_fin n linea cont s hs
        exact ⟨s1, by simpa [archivo_csv, linea_abierta] using e1,
          by simpa [lineas_desde] using e2, e3⟩
    | some c =>
      have hc : cancion_valida c := hv c (by simp)
      have hlen : ([] ++ (some c).toList).length = 1 := rfl
      rw [hlen] at hfuel hcont
      match fuel, hfuel with
      | n + 2, _ =>
        obtain ⟨cola, hf, hl⟩ := (primera_linea linea [] c hc).2
        obtain ⟨_, h2, h3, h4⟩ := send_ok s (linea_listado cont c) hs (linea_listado_ne_nil cont c)
        obtain ⟨s1, e1, e2, e3⟩ := listar_bucle_fin n (pre5 c ++ 0 :: cola) (cont + 1)
          (send s (linea_listado cont c)).2 h4
        refine ⟨s1, ?_, ?_, ?_⟩
        · simp only [archivo_csv, linea_abierta, List.nil_append]
          rw [listar_bucle_paso (n + 1) _ _ _ linea cola cont s c hc hf hl (by omega) hs]
          exact e1
        · rw [e2, h2]; simp [lineas_desde]
        · rw [e3, h3]
  | cons c cs ih =>
    intro fuel linea cont s hv hfuel hcont hs
    have hlen : (c :: cs ++ ult.toList).length = (cs ++ ult.toList).length + 1 := by simp
    rw [hlen] at hfuel hcont
    cases fuel with
    | zero => simp at hfuel
    | succ n =>
      have hc : cancion_valida c := hv c (by simp)
      have hcs : ∀ x ∈ cs ++ ult.toList, cancion_valida x := fun x hx =>
        hv x (by simpa using Or.inr (by simpa using hx))
      obtain ⟨cola, hf, hl⟩ :=
        (primera_linea linea (archivo_csv cs ++ linea_abierta ult) c hc).1
      obtain ⟨_, h2, h3, h4⟩ := send_ok s (linea_listado cont c) hs (linea_listado_ne_nil cont c)
      obtain ⟨s1, e1, e2, e3⟩ := ih n (pre5 c ++ 0 :: cola) (cont + 1)
        (send s (linea_listado cont c)).2 hcs (by omega) (by omega) h4
      refine ⟨s1, ?_, ?_, ?_⟩
      · have hfile : archivo_csv (c :: cs) ++ linea_abierta ult =
            linea_csv c ++ 10 :: (archivo_csv cs ++ linea_abierta ult) := by
          simp [archivo_csv]
        rw [hfile, listar_bucle_paso n _ _ _ linea cola cont s c hc hf hl (by omega) hs]
        exact e1
      · rw [e2, h2]
        simp [lineas_desde]
      · rw [e3, h3]

/-- The function `verificar` accepts exactly the strings equal up to case. -/
theorem verificar_OK_iff (dato filtro : List Nat) :
    verificar dato filtro = OK ↔ dato.map tolower = filtro.map tolower := by
  induction dato generalizing filtro with
  | nil =>
    cases filtro with
    | nil => simp [verificar]
    | cons f fs => simp [verificar, OK, ERROR]
  | cons d ds ih =>
    cases filtro with
    | nil => simp [verificar, OK, ERROR]
    | cons f fs =>
      by_cases h : tolower d = tolower f
      · simp [verificar, h, ih fs]
      · simp [verificar, h, OK, ERROR]

theorem verificar_valores (dato filtro : List Nat) :
    verificar dato filtro = OK ∨ verificar dato filtro = ERROR := by
  induction dato generalizing filtro with
  | nil =>
    cases filtro with
    | nil => simp [verificar]
    | cons f fs => simp [verificar]
  | cons d ds ih =>
    cases filtro with
    | nil => simp [verificar]
    | cons f fs =>
      by_cases h : tolower d = tolower f
      · simpa [verificar, h] using ih fs
      · simp [verificar, h]

theorem tokenizar_ok (c : Cancion) (cola : List Nat) (segs : List (Option Nat))
    (hv : cancion_valida c) (hs : segs.length = 5) :
    tokenizar 5 (strtok (linea_csv c ++ 0 :: cola) 0 [44]) segs 0 =
      (pre5 c ++ 0 :: cola, segmentos_de c) := by
  obtain ⟨a0, segs, rfl⟩ := List.exists_cons_of_length_eq_add_one hs
  obtain ⟨a1, segs, rfl⟩ := List.exists_cons_of_length_eq_add_one (by simpa using hs : segs.length = 3 + 1)
  obtain ⟨a2, segs, rfl⟩ := List.exists_cons_of_length_eq_add_one (by simpa using hs : segs.length = 2 + 1)
  obtain ⟨a3, segs, rfl⟩ := List.exists_cons_of_length_eq_add_one (by simpa using hs : segs.length = 1 + 1)
  obtain ⟨a4, segs, rfl⟩ := List.exists_cons_of_length_eq_add_one (by simpa using hs : segs.length = 0 + 1)
  have hnil : segs = [] := List.eq_nil_of_length_eq_zero (by simpa using hs)
  subst hnil
  rw [tok0 c cola hv]
  simp only [tokenizar]
  rw [tok1 c cola hv]
  simp only [tokenizar]
  rw [tok2 c cola hv]
  simp only [tokenizar]
  rw [tok3 c cola hv]
  simp only [tokenizar]
  rw [tok4 c cola hv]
  rw [tokenizar, tok5 c cola]
  simp [tokenizar, segmentos_de]

theorem segmento_ok (c : Cancion) (cola : List Nat) (hv : cancion_valida c) (i : Nat)
    (hi : i ≤ 4) : segmento (pre5 c ++ 0 :: cola) (segmentos_de c) i = .ok (campo c i) := by
  interval_cases i
  · simp [segmento, segmentos_de, campo, fin0 c cola hv]
  · simp [segmento, segmentos_de, campo, fin1 c cola hv]
  · simp [segmento, segmentos_de, campo, fin2 c cola hv]
  · simp [segmento, segmentos_de, campo, fin3 c cola hv]
  · simp [segmento, segmentos_de, campo, cad4 c cola hv]

/-- The message `filtrar_servidor` builds for a well-formed line. -/
theorem filtrar_formato_ok (cont : Nat) (c : Cancion) (cola : List Nat) (hv : cancion_valida c)
    (hd : (decimal cont).length ≤ 10) :
    filtrar_formato cont (pre5 c ++ 0 :: cola) (segmentos_de c) = .ok (linea_listado cont c) := by
  have hlen := length_linea_csv c
  have hfit : (linea_csv c).length + 1 < 256 := hv.2.2.2.2.2
  have hs := length_SEP
  unfold filtrar_formato
  rw [segmento_ok c cola hv 0 (by omega), segmento_ok c cola hv 1 (by omega),
    segmento_ok c cola hv 2 (by omega), segmento_ok c cola hv 3 (by omega),
    segmento_ok c cola hv 4 (by omega)]
  simp only [campo]
  rw [snprintf_ok BUFFER_SIZE _ (by simp [BUFFER_SIZE, hs]; omega)]
  simp [linea_listado]

theorem length_segmentos_de (c : Cancion) : (segmentos_de c).length = 5 := rfl

theorem filtrar_bucle_fin (fuel : Nat) (linea : List Nat) (segs : List (Option Nat))
    (filtro : List Nat) (sector cont : Nat) (s : Socket) (hs : ∀ b ∈ s.fallos, b = false) :
    ∃ s1, filtrar_bucle (fuel + 1) [] linea segs filtro sector cont s = .ok (OK, s1) ∧
      s1.salida = s.salida ++ [FIN] ∧ s1.entrada = s.entrada := by
  obtain ⟨h1, h2, h3, _⟩ := send_ok s FIN hs FIN_ne_nil
  exact ⟨(send s FIN).2, by simp [filtrar_bucle, fgets, h1], h2, h3⟩

/-- One turn of the loop of `filtrar_servidor` on a well-formed line. -/
theorem filtrar_bucle_paso (fuel : Nat) (f l resto linea cola : List Nat)
    (segs : List (Option Nat)) (filtro : List Nat) (sector cont : Nat) (s : Socket)
    (c : Cancion) (hc : cancion_valida c) (hsec : sector ≤ 4)
    (hf : fgets LINEA_MAX f = some (l, resto))
    (hl : cargar_linea linea l = linea_csv c ++ 0 :: cola) (hcont : cont < INT_MAX)
    (hsegs : segs.length = 5) (hs : ∀ b ∈ s.fallos, b = false) :
    filtrar_bucle (fuel + 1) f linea segs filtro sector cont s =
      if verificar (campo c sector) filtro = OK then
        filtrar_bucle fuel resto (pre5 c ++ 0 :: cola) (segmentos_de c) filtro sector (cont + 1)
          (send s (linea_listado cont c)).2
      else
        filtrar_bucle fuel resto (pre5 c ++ 0 :: cola) (segmentos_de c) filtro sector (cont + 1)
          s := by
  obtain ⟨h1, _, _, _⟩ := send_ok s (linea_listado cont c) hs (linea_listado_ne_nil cont c)
  conv => lhs; unfold filtrar_bucle
  rw [hf]
  simp only []
  rw [hl, tokenizar_ok c _ segs hc hsegs]
  simp only []
  rw [segmento_ok c _ hc sector hsec]
  simp only []
  rw [filtrar_formato_ok cont c _ hc (decimal_length cont (by omega))]
  simp only [h1, hcont, if_true]

/-- A turn of the loop of `filtrar_servidor` followed by a scan of the remaining
records `recs`. -/
theorem filtrar_bucle_sigue (fuel : Nat) (f l resto linea cola : List Nat)
    (segs : List (Option Nat)) (filtro : List Nat) (sector cont : Nat) (s : Socket)
    (c : Cancion) (recs : List Cancion) (hc : cancion_valida c) (hsec : sector ≤ 4)
    (hf : fgets LINEA_MAX f = some (l, resto))
    (hl : cargar_linea linea l = linea_csv c ++ 0 :: cola) (hcont : cont < INT_MAX)
    (hsegs : segs.length = 5) (hs : ∀ b ∈ s.fallos, b = false)
    (ih : ∀ s2 : Socket, (∀ b ∈ s2.fallos, b = false) →
      ∃ s1, filtrar_bucle fuel resto (pre5 c ++ 0 :: cola) (segmentos_de c) filtro sector
          (cont + 1) s2 = .ok (OK, s1) ∧
        s1.salida = s2.salida ++ filtradas_desde filtro sector (cont + 1) recs ++ [FIN] ∧
        s1.entrada = s2.entrada) :
    ∃ s1, filtrar_bucle (fuel + 1) f linea segs filtro sector cont s = .ok (OK, s1) ∧
      s1.salida = s.salida ++ filtradas_desde filtro sector cont (c :: recs) ++ [FIN] ∧
      s1.entrada = s.entrada := by
  rw [filtrar_bucle_paso fuel f l resto linea cola segs filtro sector cont s c hc hsec hf hl
    hcont hsegs hs]
  by_cases hm : verificar (campo c sector) filtro = OK
  · obtain ⟨_, h2, h3, h4⟩ := send_ok s (linea_listado cont c) hs (linea_listado_ne_nil cont c)
    obtain ⟨s1, e1, e2, e3⟩ := ih (send s (linea_listado cont c)).2 h4
    refine ⟨s1, ?_, ?_, ?_⟩
    · rw [if_pos hm]; exact e1
    · rw [e2, h2]
      simp [filtradas_desde, (verificar_OK_iff _ _).1 hm]
    · rw [e3, h3]
  · obtain ⟨s1, e1, e2, e3⟩ := ih s hs
    refine ⟨s1, ?_, ?_, e3⟩
    · rw [if_neg hm]; exact e1
    · rw [e2]
      have hne : ¬ (campo c sector).map tolower = filtro.map tolower :=
        fun h => hm ((verificar_OK_iff _ _).2 h)
      simp [filtradas_desde, hne]

/-- The scan of `filtrar_servidor` over a well-formed catalog. -/
theorem filtrar_bucle_ok (filtro : List Nat) (sector : Nat) (hsec : sector ≤ 4)
    (ult : Option Cancion) (cs : List Cancion) :
    ∀ (fuel : Nat) (linea : List Nat) (segs : List (Option Nat)) (cont : Nat) (s : Socket),
      (∀ c ∈ cs ++ ult.toList, cancion_valida c) → (cs ++ ult.toList).length < fuel →
      cont + (cs ++ ult.toList).length ≤ INT_MAX →
      segs.length = 5 → (∀ b ∈ s.fallos, b = false) →
      ∃ s1, filtrar_bucle fuel (archivo_csv cs ++ linea_abierta ult) linea segs filtro sector
          cont s = .ok (OK, s1) ∧
        s1.salida = s.salida ++ filtradas_desde filtro sector cont (cs ++ ult.toList) ++ [FIN] ∧
        s1.entrada = s.entrada := by
  induction cs with
  | nil =>
    intro fuel linea segs cont s hv hfuel hcont hsegs hs
    cases ult with
    | none =>
      cases fuel with
      | zero => simp at hfuel
      | succ n =>
        obtain ⟨s1, e1, e2, e3⟩ := filtrar_bucle_fin n linea segs filtro sector cont s hs
        exact ⟨s1, by simpa [archivo_csv, linea_abierta] using e1,
          by simpa [filtradas_desde] using e2, e3⟩
    | some c =>
      have hc : cancion_valida c := hv c (by simp)
      have hlen : ([] ++ (some c).toList).length = 1 := rfl
      rw [hlen] at hfuel hcont
      match fuel, hfuel with
      | n + 2, _ =>
        obtain ⟨cola, hf, hl⟩ := (primera_linea linea [] c hc).2
        have := filtrar_bucle_sigue (n + 1) (linea_csv c) _ _ linea cola segs filtro sector cont s
          c [] hc hsec hf hl (by omega) hsegs hs
          (fun s2 h2 => by
            obtain ⟨s1, e1, e2, e3⟩ := filtrar_bucle_fin n (pre5 c ++ 0 :: cola) (segmentos_de c)
              filtro sector (cont + 1) s2 h2
            exact ⟨s1, e1, by simpa [filtradas_desde] using e2, e3⟩)
        simpa [archivo_csv, linea_abierta] using this
  | cons c cs ih =>
    intro fuel linea segs cont s hv hfuel hcont hsegs hs
    have hlen : (c :: cs ++ ult.toList).length = (cs ++ ult.toList).length + 1 := by simp
    rw [hlen] at hfuel hcont
    cases fuel with
    | zero => simp at hfuel
    | succ n =>
      have hc : cancion_valida c := hv c (by simp)
      have hcs : ∀ x ∈ cs ++ ult.toList, cancion_valida x := fun x hx =>
        hv x (by simpa using Or.inr (by simpa using hx))
      obtain ⟨cola, hf, hl⟩ :=
        (primera_linea linea (archivo_csv cs ++ linea_abierta ult) c hc).1
      have hfile : archivo_csv (c :: cs) ++ linea_abierta ult =
          linea_csv c ++ 10 :: (archivo_csv cs ++ linea_abierta ult) := by
        simp [archivo_csv]
      rw [hfile]
      exact filtrar_bucle_sigue n _ _ _ linea cola segs filtro sector cont s c
        (cs ++ ult.toList) hc hsec hf hl (by omega) hsegs hs
        (fun s2 h2 => ih n (pre5 c ++ 0 :: cola) (segmentos_de c) (cont + 1) s2 hcs (by omega)
          (by omega) (length_segmentos_de c) h2)

/-! ## Lemmas on the transfer -/

theorem digitChar_digito (m : Nat) (h : m < 10) :
    48 ≤ (Nat.digitChar m).toNat ∧ (Nat.digitChar m).toNat ≤ 57 := by
  interval_cases m <;> decide

theorem toDigitsCore_digitos (fuel : Nat) :
    ∀ (n : Nat) (acc : List Char), (∀ c ∈ acc, 48 ≤ c.toNat ∧ c.toNat ≤ 57) →
      ∀ c ∈ Nat.toDigitsCore 10 fuel n acc, 48 ≤ c.toNat ∧ c.toNat ≤ 57 := by
  induction fuel with
  | zero => intro n acc h; simpa [Nat.toDigitsCore] using h
  | succ k ih =>
    intro n acc h
    have hd := digitChar_digito (n % 10) (Nat.mod_lt n (by decide))
    have hacc : ∀ c ∈ Nat.digitChar (n % 10) :: acc, 48 ≤ c.toNat ∧ c.toNat ≤ 57 := by
      intro c hc
      rcases List.mem_cons.1 hc with rfl | hc
      · exact hd
      · exact h c hc
    unfold Nat.toDigitsCore
    by_cases h0 : n / 10 = 0
    · simpa [h0] using hacc
    · simpa [h0] using ih (n / 10) _ hacc

/-- The bytes printed by `%d` are decimal digits. -/
theorem decimal_digitos (n : Nat) : ∀ b ∈ decimal n, 48 ≤ b ∧ b ≤ 57 := by
  intro b hb
  have e : decimal n = (Nat.toDigits 10 n).map Char.toNat := by
    simp [decimal, Nat.repr, List.asString]
  rw [e] at hb
  obtain ⟨c, hc, rfl⟩ := List.mem_map.1 hb
  exact toDigitsCore_digitos (n + 1) n [] (by simp) c hc

theorem length_mp3 : (ascii ".mp3").length = 4 := by decide

theorem mp3_bytes : ∀ b ∈ ascii ".mp3", b ≠ 0 := by decide

theorem nombre_cancion_eq (e : Int) (h : e.toNat ≤ INT_MAX) :
    nombre_cancion e = decimal e.toNat ++ ascii ".mp3" := by
  have hd := decimal_length e.toNat h
  have hm := length_mp3
  unfold nombre_cancion
  exact snprintf_ok 50 _ (by simp [hm]; omega)

theorem nombre_cancion_sin_nul (e : Int) (h : e.toNat ≤ INT_MAX) :
    ∀ b ∈ nombre_cancion e, b ≠ 0 := by
  intro b hb
  rw [nombre_cancion_eq e h] at hb
  rcases List.mem_append.1 hb with hb | hb
  · have := decimal_digitos _ b hb; omega
  · exact mp3_bytes b hb

theorem nombre_cancion_length (e : Int) (h : e.toNat ≤ INT_MAX) :
    4 ≤ (nombre_cancion e).length ∧ (nombre_cancion e).length ≤ 14 := by
  have hd := decimal_length e.toNat h
  have hm := length_mp3
  rw [nombre_cancion_eq e h]
  simp [hm]
  omega

theorem length_FIN : FIN.length = 3 := by decide

theorem FIN_eq : FIN = [70, 73, 78] := by decide

theorem nombre_cancion_ne_FIN (e : Int) (h : e.toNat ≤ INT_MAX) : nombre_cancion e ≠ FIN := by
  intro k
  have h1 := (nombre_cancion_length e h).1
  rw [k, length_FIN] at h1
  omega

/-- The string read back from an array in which a NUL-free text and a NUL were stored. -/
theorem cadena_escribir (buffer t : List Nat) (h : ∀ b ∈ t, b ≠ 0) :
    cadena (escribir buffer (t ++ [0])) 0 = t := by
  have k := cadena_medio [] t (buffer.drop (t ++ [0]).length) h
  simpa [escribir] using k

theorem cadena_terminar (t : List Nat) (h : ∀ b ∈ t, b ≠ 0) : cadena (t ++ [0]) 0 = t := by
  have k := cadena_medio [] t [] h
  simpa using k

theorem terminar_ok (t : List Nat) (h : ∀ b ∈ t, b ≠ 0) (hl : t.length < BUFFER_SIZE) :
    terminar t = .ok t := by
  simp [terminar, hl, cadena_terminar t h]

theorem recv_uno (m : List Nat) (r sal : List (List Nat)) (fa : List Bool)
    (h : m.length ≤ BUFFER_SIZE) :
    recv ⟨m :: r, sal, fa⟩ BUFFER_SIZE = (m, ⟨r, sal, fa⟩) := by
  simp [recv, h]

/-- The client takes a chunk for the sentinel exactly when the chunk is the sentinel. -/
theorem es_sentinela (buffer m : List Nat) :
    (strncmp_igual FIN.length (escribir buffer m) FIN = true ∧ m.length = FIN.length) ↔
      m = FIN := by
  constructor
  · rintro ⟨h1, h2⟩
    rw [length_FIN] at h1 h2
    match m, h2 with
    | [a, b, c], _ =>
      rw [FIN_eq] at h1 ⊢
      simp only [escribir, strncmp_igual, List.headD, List.tail, List.cons_append] at h1
      by_cases ha : a = 70
      · by_cases hb : b = 73
        · by_cases hc : c = 78
          · rw [ha, hb, hc]
          · simp [ha, hb, hc] at h1
        · simp [ha, hb] at h1
      · simp [ha] at h1
  · rintro rfl
    refine ⟨?_, rfl⟩
    rw [length_FIN, FIN_eq]
    simp [escribir, strncmp_igual]

/-- The read loop of the server sends the chunks of the file and then the sentinel. -/
theorem enviar_bloques_ok (fuel : Nat) :
    ∀ (f : List Nat) (s : Socket), f.length < fuel → (∀ b ∈ s.fallos, b = false) →
      ∃ s1, enviar_bloques fuel f s = .ok (OK, s1) ∧
        s1.salida = s.salida ++ trozos fuel f ++ [FIN] ∧ s1.entrada = s.entrada := by
  induction fuel with
  | zero => intro f s h; simp at h
  | succ n ih =>
    intro f s hlen hs
    by_cases hf : f = []
    · subst hf
      obtain ⟨h1, h2, h3, _⟩ := send_ok s FIN hs FIN_ne_nil
      refine ⟨(send s FIN).2, ?_, ?_, h3⟩
      · simp [enviar_bloques, h1]
      · simp [h2, trozos]
    · have hpos : 0 < (f.take BUFFER_SIZE).length := by
        have : 0 < f.length := List.length_pos.2 hf
        simp [BUFFER_SIZE]; omega
      have hne : f.take BUFFER_SIZE ≠ [] := List.length_pos.1 hpos
      obtain ⟨h1, h2, h3, h4⟩ := send_ok s (f.take BUFFER_SIZE) hs hne
      have hdrop : (f.drop BUFFER_SIZE).length < n := by
        have : 0 < f.length := List.length_pos.2 hf
        simp [BUFFER_SIZE]; omega
      obtain ⟨s1, e1, e2, e3⟩ := ih (f.drop BUFFER_SIZE) (send s (f.take BUFFER_SIZE)).2 hdrop h4
      refine ⟨s1, ?_, ?_, ?_⟩
      · unfold enviar_bloques
        simp only [hpos, h1, if_true]
        exact e1
      · rw [e2, h2]; simp [trozos, hf]
      · rw [e3, h3]

theorem copia_fiel_paso (f : List Nat) (hf : f ≠ []) (h : copia_fiel f) :
    f.take BUFFER_SIZE ≠ FIN ∧ copia_fiel (f.drop BUFFER_SIZE) := by
  unfold copia_fiel BUFFER_SIZE at *
  by_cases hl : f.length ≤ 1024
  · constructor
    · intro k
      rw [List.take_of_length_le hl] at k
      apply h
      subst k
      simp [length_FIN]
    · rw [List.drop_of_length_le hl]
      simp
  · constructor
    · intro k
      have : (f.take 1024).length = 1024 := by simp; omega
      rw [k, length_FIN] at this
      omega
    · rintro ⟨k1, k2⟩
      apply h
      have hlen : (f.drop 1024).length = f.length - 1024 := by simp
      rw [hlen] at k1 k2
      constructor
      · omega
      · rw [List.drop_drop] at k2
        have e : 1024 + (f.length - 1024 - 3) = f.length - 3 := by omega
        rw [e] at k2
        exact k2

theorem length_trozos (fuel : Nat) : ∀ f : List Nat, (trozos fuel f).length ≤ fuel := by
  induction fuel with
  | zero => intro f; simp [trozos]
  | succ n ih =>
    intro f
    by_cases hf : f = []
    · simp [trozos, hf]
    · simpa [trozos, hf] using ih (f.drop BUFFER_SIZE)

/-- The receive loop of the client, fed the chunks of a file and the sentinel, writes
the file and stops at the sentinel. -/
theorem recibir_bloques_ok (fuel : Nat) :
    ∀ (f : List Nat) (pasos : Nat) (resto sal : List (List Nat)) (fa : List Bool)
      (buffer escrito : List Nat),
      f.length < fuel → copia_fiel f → (trozos fuel f).length < pasos →
      recibir_bloques pasos ⟨trozos fuel f ++ FIN :: resto, sal, fa⟩ buffer escrito [] =
        .ok (OK, ⟨resto, sal, fa⟩, escrito ++ f, true) := by
  induction fuel with
  | zero => intro f _ _ _ _ _ _ h; simp at h
  | succ n ih =>
    intro f pasos resto sal fa buffer escrito hlen hfiel hpasos
    cases pasos with
    | zero => simp at hpasos
    | succ p =>
      by_cases hf : f = []
      · subst hf
        have hr : recv ⟨FIN :: resto, sal, fa⟩ BUFFER_SIZE = (FIN, ⟨resto, sal, fa⟩) :=
          recv_uno FIN resto sal fa (by decide)
        have hfin := ((es_sentinela buffer FIN).2 rfl).1
        rw [length_FIN] at hfin
        unfold recibir_bloques
        simp only [trozos, if_true, List.nil_append, hr]
        simp [length_FIN, hfin]
      · have hpos : 0 < f.length := List.length_pos.2 hf
        have hc : (f.take BUFFER_SIZE).length ≤ BUFFER_SIZE := by simp
        have hc0 : (f.take BUFFER_SIZE).length ≠ 0 := by
          rw [List.length_take]; unfold BUFFER_SIZE; omega
        obtain ⟨hne, hfiel1⟩ := copia_fiel_paso f hf hfiel
        have hno : ¬ (strncmp_igual FIN.length (escribir buffer (f.take BUFFER_SIZE)) FIN = true ∧
            (f.take BUFFER_SIZE).length = FIN.length) :=
          fun k => hne ((es_sentinela buffer _).1 k)
        have ht : trozos (n + 1) f = f.take BUFFER_SIZE :: trozos n (f.drop BUFFER_SIZE) := by
          simp [trozos, hf]
        have hdrop : (f.drop BUFFER_SIZE).length < n := by
          simp [BUFFER_SIZE]; omega
        have hp : (trozos n (f.drop BUFFER_SIZE)).length < p := by
          rw [ht] at hpasos; simpa using hpasos
        have hr : recv ⟨f.take BUFFER_SIZE :: (trozos n (f.drop BUFFER_SIZE) ++ FIN :: resto),
            sal, fa⟩ BUFFER_SIZE =
            (f.take BUFFER_SIZE, ⟨trozos n (f.drop BUFFER_SIZE) ++ FIN :: resto, sal, fa⟩) :=
          recv_uno _ _ sal fa hc
        have hi := ih (f.drop BUFFER_SIZE) p resto sal fa (escribir buffer (f.take BUFFER_SIZE))
          (escrito ++ f.take BUFFER_SIZE) hdrop hfiel1 hp
        unfold recibir_bloques
        rw [ht]
        simp only [List.cons_append, hr, hc0, hno, if_false, List.headD, List.tail]
        rw [hi]
        simp [List.append_assoc]

theorem send_simple (en sal : List (List Nat)) (m : List Nat) (hm : m ≠ []) :
    send ⟨en, sal, []⟩ m = (true, ⟨en, sal ++ [m], []⟩) := by
  simp [send, hm]

theorem OK_bytes : ∀ b ∈ ascii "OK", b ≠ 0 := by decide

/-- The server, asked for an existing readable file, answers `OK`, the chunks of the
file and the sentinel. -/
theorem servidor_envia (fs : List Nat → Archivo) (nombre b : List Nat)
    (r sal : List (List Nat)) (h0 : ∀ x ∈ nombre, x ≠ 0) (hne : nombre ≠ [])
    (hl : nombre.length < BUFFER_SIZE) (hfin : nombre ≠ FIN) (hf : fs nombre = .contenido b) :
    ∃ s1, escuchar_cancion_servidor fs ⟨nombre :: r, sal, []⟩ = .ok (OK, s1) ∧
      s1.salida = sal ++ ascii "OK" :: (trozos (b.length + 1) b ++ [FIN]) ∧ s1.entrada = r := by
  have hr := recv_uno nombre r sal [] (Nat.le_of_lt hl)
  have hlen : nombre.length ≠ 0 := fun k => hne (List.eq_nil_of_length_eq_zero k)
  have hs := send_simple r sal (ascii "OK") (by decide)
  obtain ⟨s1, e1, e2, e3⟩ := enviar_bloques_ok (b.length + 1) b ⟨r, sal ++ [ascii "OK"], []⟩
    (Nat.lt_succ_self _) (by simp)
  refine ⟨s1, ?_, ?_, e3⟩
  · unfold escuchar_cancion_servidor
    simp only [hr, hlen, if_false, terminar_ok nombre h0 hl, hfin, hf, hs, if_true]
    exact e1
  · rw [e2]; simp

theorem presupuesto_basta (a b sal : List (List Nat)) (fa : List Bool) :
    a.length < presupuesto ⟨a ++ b, sal, fa⟩ := by
  simp [presupuesto]; omega

/-- The client, answered `OK`, the chunks of a file and the sentinel, stores the file
under the name it asked for. -/
theorem cliente_recibe (e : Int) (b buffer : List Nat) (fuel : Nat)
    (resto sal : List (List Nat)) (he : 0 < e) (hmax : e.toNat ≤ INT_MAX)
    (hfuel : b.length < fuel) (hfiel : copia_fiel b) :
    escuchar_cancion_cliente [some e] [] true []
        ⟨ascii "OK" :: (trozos fuel b ++ FIN :: resto), sal, []⟩ buffer =
      .ok ⟨OK, ⟨resto, sal ++ [nombre_cancion e], []⟩, some (nombre_cancion e, b), true⟩ := by
  have h0 : ¬ e = 0 := by omega
  have hneg : ¬ e < 0 := by omega
  have hnom := nombre_cancion_sin_nul e hmax
  have hnn : nombre_cancion e ≠ [] := by
    intro k
    have := (nombre_cancion_length e hmax).1
    rw [k] at this
    simp at this
  have hc1 := cadena_escribir buffer (nombre_cancion e) hnom
  have hs := send_simple (ascii "OK" :: (trozos fuel b ++ FIN :: resto)) sal (nombre_cancion e) hnn
  have hr := recv_uno (ascii "OK") (trozos fuel b ++ FIN :: resto) (sal ++ [nombre_cancion e]) []
    (by decide)
  have hc2 := cadena_escribir (escribir buffer (nombre_cancion e ++ [0])) (ascii "OK") OK_bytes
  have hk1 : (ascii "OK").length ≠ 0 := by decide
  have hk2 : (ascii "OK").length < BUFFER_SIZE := by decide
  have hk3 : ascii "OK" ≠ FIN := by decide
  have hk4 : ascii "OK" ≠ ascii "ERROR" := by decide
  have hrb := recibir_bloques_ok fuel b
    (presupuesto ⟨trozos fuel b ++ FIN :: resto, sal ++ [nombre_cancion e], []⟩) resto
    (sal ++ [nombre_cancion e]) [] (escribir (escribir buffer (nombre_cancion e ++ [0]))
      (ascii "OK" ++ [0])) [] hfuel hfiel (presupuesto_basta _ _ _ _)
  unfold escuchar_cancion_cliente
  simp only [h0, hneg, if_false, List.not_mem_nil, hc1, hs, if_true, hr, hk1, hk2, hc2, hk3, hk4,
    hrb, List.nil_append]

/-- A download of a file whose last chunk is not the sentinel. -/
theorem descarga_ok (fs : List Nat → Archivo) (e : Int) (b buffer : List Nat) (he : 0 < e)
    (hmax : e.toNat ≤ INT_MAX) (hf : fs (nombre_cancion e) = .contenido b)
    (hfiel : copia_fiel b) :
    descarga fs e buffer =
      .ok ⟨OK, ⟨[], [nombre_cancion e], []⟩, some (nombre_cancion e, b), true⟩ := by
  have hnn : nombre_cancion e ≠ [] := by
    intro k
    have := (nombre_cancion_length e hmax).1
    rw [k] at this
    simp at this
  have hl : (nombre_cancion e).length < BUFFER_SIZE := by
    have := (nombre_cancion_length e hmax).2
    unfold BUFFER_SIZE; omega
  obtain ⟨s1, e1, e2, _⟩ := servidor_envia fs (nombre_cancion e) b [] []
    (nombre_cancion_sin_nul e hmax) hnn hl (nombre_cancion_ne_FIN e hmax) hf
  have hc := cliente_recibe e b buffer (b.length + 1) [] [] he hmax (Nat.lt_succ_self _) hfiel
  unfold descarga
  rw [e1]
  simp only [e2, List.nil_append]
  exact hc

/-! ## The server routines on a well-formed catalog -/

theorem length_catalogo (cs : List Cancion) (ult : Option Cancion) :
    (cs ++ ult.toList).length ≤ (archivo_csv cs ++ linea_abierta ult).length := by
  have h1 := length_archivo_csv cs
  cases ult with
  | none => simpa [linea_abierta] using h1
  | some c =>
    have h2 := length_linea_csv c
    simp [linea_abierta]
    omega

theorem listar_servidor_ok (media : List Nat) (cs : List Cancion) (en sal : List (List Nat))
    (fa : List Bool) (hm : es_catalogo media cs) (hv : ∀ c ∈ cs, cancion_valida c)
    (hn : cs.length < INT_MAX) (hfa : ∀ b ∈ fa, b = false) :
    ∃ s1, listar_servidor (some media) ⟨en, sal, fa⟩ = .ok (OK, s1) ∧
      s1.salida = sal ++ lineas_desde 1 cs ++ [FIN] ∧ s1.entrada = en := by
  obtain ⟨cs1, ult, rfl, rfl⟩ := hm
  have hl := length_catalogo cs1 ult
  exact listar_bucle_ok ult cs1 ((archivo_csv cs1 ++ linea_abierta ult).length + 1)
    (List.replicate LINEA_MAX 0) 1 ⟨en, sal, fa⟩ hv (by omega) (by omega) hfa

theorem filtrar_servidor_ok (media : List Nat) (cs : List Cancion) (filtro : List Nat)
    (sector : Nat) (r sal : List (List Nat)) (fa : List Bool) (hsec : sector ≤ 4)
    (hm : es_catalogo media cs) (hv : ∀ c ∈ cs, cancion_valida c) (hn : cs.length < INT_MAX)
    (hf0 : filtro ≠ []) (hfl : filtro.length < FILTRO_MAX) (hfz : ∀ b ∈ filtro, b ≠ 0)
    (hfa : ∀ b ∈ fa, b = false) :
    ∃ s1, filtrar_servidor (some media) ⟨filtro :: r, sal, fa⟩ sector = .ok (OK, s1) ∧
      s1.salida = sal ++ filtradas_desde filtro sector 1 cs ++ [FIN] ∧ s1.entrada = r := by
  obtain ⟨cs1, ult, rfl, rfl⟩ := hm
  have hl := length_catalogo cs1 ult
  have hlb : filtro.length < BUFFER_SIZE := by unfold FILTRO_MAX at hfl; unfold BUFFER_SIZE; omega
  have hr := recv_uno filtro r sal fa (Nat.le_of_lt hlb)
  have hlen : filtro.length ≠ 0 := fun k => hf0 (List.eq_nil_of_length_eq_zero k)
  obtain ⟨s1, e1, e2, e3⟩ := filtrar_bucle_ok filtro sector hsec ult cs1
    ((archivo_csv cs1 ++ linea_abierta ult).length + 1)
    (List.replicate LINEA_MAX 0) (List.replicate 5 none) 1 ⟨r, sal, fa⟩ hv (by omega) (by omega)
    (by simp) hfa
  refine ⟨s1, ?_, e2, e3⟩
  unfold filtrar_servidor
  simp only [hr, hlen, if_false, terminar_ok filtro hfz hlb, hfl, if_true]
  exact e1

/-- A file in which every line ends in a newline is a catalog file. -/
theorem es_catalogo_cerrado (cs : List Cancion) : es_catalogo (archivo_csv cs) cs :=
  ⟨cs, none, by simp, by simp [linea_abierta]⟩

theorem atoi_uno : atoi (decimal 1) = 1 := by decide

theorem atoi_dos : atoi (decimal 2) = 2 := by decide

theorem menu_filtrar_servidor_artista (media : Option (List Nat)) (r sal : List (List Nat))
    (fa : List Bool) :
    menu_filtrar_servidor media ⟨decimal 1 :: r, sal, fa⟩ =
      filtrar_servidor media ⟨r, sal, fa⟩ ARTISTA := by
  have hr := recv_uno (decimal 1) r sal fa (by decide)
  have ht : terminar (decimal 1) = .ok (decimal 1) := by decide
  have hl : (decimal 1).length ≠ 0 := by decide
  unfold menu_filtrar_servidor
  simp only [hr, hl, if_false, ht, atoi_uno, if_true]

theorem menu_filtrar_servidor_genero (media : Option (List Nat)) (r sal : List (List Nat))
    (fa : List Bool) :
    menu_filtrar_servidor media ⟨decimal 2 :: r, sal, fa⟩ =
      filtrar_servidor media ⟨r, sal, fa⟩ GENERO := by
  have hr := recv_uno (decimal 2) r sal fa (by decide)
  have ht : terminar (decimal 2) = .ok (decimal 2) := by decide
  have hl : (decimal 2).length ≠ 0 := by decide
  have h21 : ¬ atoi (decimal 2) = 1 := by decide
  unfold menu_filtrar_servidor
  simp only [hr, hl, if_false, ht]
  rw [if_neg h21, if_pos atoi_dos]

/-! ## Ordinals of a filtered listing -/

theorem length_lineas_desde (k : Nat) (cs : List Cancion) :
    (lineas_desde k cs).length = cs.length := by
  induction cs generalizing k with
  | nil => rfl
  | cons c cs ih => simp [lineas_desde, ih]

theorem lineas_desde_get (cs : List Cancion) :
    ∀ (k i : Nat) (c : Cancion), cs.get? i = some c →
      (lineas_desde k cs).get? i = some (linea_listado (k + i) c) := by
  induction cs with
  | nil => intro k i c h; simp at h
  | cons d ds ih =>
    intro k i c h
    cases i with
    | zero =>
      simp at h
      simp [lineas_desde, h]
    | succ j =>
      have h1 : ds.get? j = some c := by simpa using h
      have := ih (k + 1) j c h1
      simp only [lineas_desde, List.get?_cons_succ]
      rw [this]
      congr 2
      omega

/-- The ordinals of the matching records increase, stay within the catalog, and each
designates a matching record. -/
theorem ordinales_props (filtro : List Nat) (sector : Nat) (cs : List Cancion) :
    ∀ k : Nat, (ordinales filtro sector k cs).Pairwise (fun a b => a < b) ∧
      ∀ j ∈ ordinales filtro sector k cs, k ≤ j ∧ j < k + cs.length ∧
        ∃ c, cs.get? (j - k) = some c ∧ (campo c sector).map tolower = filtro.map tolower := by
  induction cs with
  | nil => intro k; simp [ordinales]
  | cons d ds ih =>
    intro k
    obtain ⟨h1, h2⟩ := ih (k + 1)
    have hrest : ∀ j ∈ ordinales filtro sector (k + 1) ds, k ≤ j ∧ j < k + (d :: ds).length ∧
        ∃ c, (d :: ds).get? (j - k) = some c ∧
          (campo c sector).map tolower = filtro.map tolower := by
      intro j hj
      obtain ⟨a, b, c, hc, hm⟩ := h2 j hj
      refine ⟨by omega, by simp; omega, c, ?_, hm⟩
      have e : j - k = (j - (k + 1)) + 1 := by omega
      rw [e]
      simpa using hc
    by_cases hm : (campo d sector).map tolower = filtro.map tolower
    · simp only [ordinales, hm, if_true]
      constructor
      · refine List.Pairwise.cons ?_ h1
        intro j hj
        have := (h2 j hj).1
        omega
      · intro j hj
        rcases List.mem_cons.1 hj with rfl | hj
        · exact ⟨Nat.le_refl _, by simp, d, by simp, hm⟩
        · exact hrest j hj
    · simp only [ordinales, hm, if_false]
      exact ⟨h1, hrest⟩

/-- The filtered listing consists of the lines of the full listing at the ordinals of
the matching records. -/
theorem filtradas_desde_eq (filtro : List Nat) (sector : Nat) (cs : List Cancion) :
    ∀ k : Nat, filtradas_desde filtro sector k cs =
      (ordinales filtro sector k cs).map (fun j => (lineas_desde k cs).getD (j - k) []) := by
  induction cs with
  | nil => intro k; simp [filtradas_desde, ordinales]
  | cons d ds ih =>
    intro k
    have hrest : (ordinales filtro sector (k + 1) ds).map
          (fun j => (lineas_desde (k + 1) ds).getD (j - (k + 1)) []) =
        (ordinales filtro sector (k + 1) ds).map
          (fun j => (lineas_desde k (d :: ds)).getD (j - k) []) := by
      apply List.map_congr_left
      intro j hj
      have hk := ((ordinales_props filtro sector ds (k + 1)).2 j hj).1
      have e : j - k = (j - (k + 1)) + 1 := by omega
      rw [e]
      simp [lineas_desde]
    by_cases hm : (campo d sector).map tolower = filtro.map tolower
    · simp only [filtradas_desde, ordinales, hm, if_true, List.map_cons]
      rw [ih (k + 1), hrest]
      simp [lineas_desde]
    · simp only [filtradas_desde, ordinales, hm, if_false]
      rw [ih (k + 1), hrest]

/-! ## Lemmas on the credential store and the session -/

theorem validar_inicio_bucle_valores (es : FalloES) (u p : List Nat) (regs : List Cuenta) :
    ∀ k : Nat, validar_inicio_bucle es u p k regs = EXITO ∨
      validar_inicio_bucle es u p k regs = ERROR_MEMORIA_USUARIOS ∨
      validar_inicio_bucle es u p k regs = ERROR_USUARIO_USUARIOS := by
  induction regs with
  | nil => intro k; unfold validar_inicio_bucle; split <;> simp
  | cons c r ih =>
    intro k
    unfold validar_inicio_bucle
    split
    · simp
    · split
      · simp
      · exact ih (k + 1)

/-- The tokens `validar_inicio` can return. -/
theorem validar_inicio_valores (es : FalloES) (db : Option (List Cuenta)) (u p : List Nat) :
    validar_inicio es db u p = EXITO ∨ validar_inicio es db u p = ERROR_MEMORIA_USUARIOS ∨
      validar_inicio es db u p = ERROR_USUARIO_USUARIOS ∨
      validar_inicio es db u p = ERROR_VACIO_USUARIOS := by
  unfold validar_inicio
  cases db with
  | none => simp
  | some regs =>
    simp only []
    split
    · simp
    · split
      · simp
      · cases regs with
        | nil => simp
        | cons c r =>
          rcases validar_inicio_bucle_valores es u p (c :: r) 1 with h | h | h
          · exact Or.inl h
          · exact Or.inr (Or.inl h)
          · exact Or.inr (Or.inr (Or.inl h))

theorem validar_registro_bucle_valores (es : FalloES) (u : List Nat) (regs : List Cuenta) :
    ∀ k : Nat, validar_registro_bucle es u k regs = EXITO ∨
      validar_registro_bucle es u k regs = ERROR_MEMORIA_USUARIOS ∨
      validar_registro_bucle es u k regs = ERROR_REGISTRO_USUARIOS := by
  induction regs with
  | nil => intro k; unfold validar_registro_bucle; split <;> simp
  | cons c r ih =>
    intro k
    unfold validar_registro_bucle
    split
    · simp
    · split
      · simp
      · exact ih (k + 1)

/-- The tokens `validar_registro` can return. -/
theorem validar_registro_valores (es : FalloES) (db : Option (List Cuenta)) (u : List Nat) :
    (validar_registro es db u).1 = EXITO ∨
      (validar_registro es db u).1 = ERROR_MEMORIA_USUARIOS ∨
      (validar_registro es db u).1 = ERROR_REGISTRO_USUARIOS := by
  unfold validar_registro
  cases db with
  | none => simp only []; split <;> simp
  | some regs =>
    simp only []
    split
    · simp
    · exact validar_registro_bucle_valores es u regs 0

theorem snprintf_EXITO : snprintf BUFFER_SIZE EXITO = EXITO := by decide

theorem snprintf_MEMORIA :
    snprintf BUFFER_SIZE ERROR_MEMORIA_USUARIOS = ERROR_MEMORIA_USUARIOS := by decide

theorem snprintf_USUARIO :
    snprintf BUFFER_SIZE ERROR_USUARIO_USUARIOS = ERROR_USUARIO_USUARIOS := by decide

theorem snprintf_VACIO :
    snprintf BUFFER_SIZE ERROR_VACIO_USUARIOS = ERROR_VACIO_USUARIOS := by decide

theorem snprintf_REGISTRO :
    snprintf BUFFER_SIZE ERROR_REGISTRO_USUARIOS = ERROR_REGISTRO_USUARIOS := by decide

/-- The reply to a login fits the buffer. -/
theorem snprintf_inicio (es : FalloES) (db : Option (List Cuenta)) (u p : List Nat) :
    snprintf BUFFER_SIZE (validar_inicio es db u p) = validar_inicio es db u p := by
  rcases validar_inicio_valores es db u p with h | h | h | h <;> rw [h]
  · exact snprintf_EXITO
  · exact snprintf_MEMORIA
  · exact snprintf_USUARIO
  · exact snprintf_VACIO

/-- The reply to a registration fits the buffer. -/
theorem snprintf_registro (es : FalloES) (db : Option (List Cuenta)) (u : List Nat) :
    snprintf BUFFER_SIZE (validar_registro es db u).1 = (validar_registro es db u).1 := by
  rcases validar_registro_valores es db u with h | h | h <;> rw [h]
  · exact snprintf_EXITO
  · exact snprintf_MEMORIA
  · exact snprintf_REGISTRO

/-- The function `validar_registro` does not change the records of the store. -/
theorem registros_validar_registro (es : FalloES) (db : Option (List Cuenta)) (u : List Nat) :
    registros (validar_registro es db u).2 = registros db := by
  unfold validar_registro
  cases db with
  | none => simp only []; split <;> simp [registros]
  | some regs => simp only []; split <;> rfl

/-- A registration that is not accepted leaves the store as it was. -/
theorem validar_registro_rechaza (es : FalloES) (db : Option (List Cuenta)) (u : List Nat)
    (h : (validar_registro es db u).1 ≠ EXITO) : (validar_registro es db u).2 = db := by
  unfold validar_registro at h ⊢
  cases db with
  | none =>
    simp only [] at h ⊢
    split
    · rfl
    · rename_i hne
      simp [hne] at h
  | some regs => simp only []; split <;> rfl

/-- The function `guardar_cuenta` returns OK or ERROR. With OK the account is the new
last record, unless the write error came up at `fclose`: then, as with ERROR, the
records are as before. -/
theorem guardar_cuenta_efecto (es : FalloES) (db : Option (List Cuenta)) (c : Cuenta) :
    ((guardar_cuenta es db c).1 = OK ∧ es ≠ .cierre ∧
        (guardar_cuenta es db c).2 = some (registros db ++ [c])) ∨
      ((guardar_cuenta es db c).1 = OK ∧ es = .cierre ∧
        registros (guardar_cuenta es db c).2 = registros db) ∨
      ((guardar_cuenta es db c).1 = ERROR ∧
        registros (guardar_cuenta es db c).2 = registros db) := by
  unfold guardar_cuenta
  by_cases h1 : es = .apertura
  · rw [if_pos h1]
    exact Or.inr (Or.inr ⟨rfl, rfl⟩)
  · rw [if_neg h1]
    by_cases h2 : es = .escritura
    · rw [if_pos h2]
      exact Or.inr (Or.inr ⟨rfl, rfl⟩)
    · rw [if_neg h2]
      by_cases h3 : es = .cierre
      · rw [if_pos h3]
        exact Or.inr (Or.inl ⟨rfl, h3, rfl⟩)
      · rw [if_neg h3]
        exact Or.inl ⟨rfl, h3, rfl⟩

theorem OK_ne_ERROR : OK ≠ ERROR := by decide

theorem validar_registro_bucle_EXITO (es : FalloES) (u : List Nat) (regs : List Cuenta) :
    ∀ k : Nat, validar_registro_bucle es u k regs = EXITO → ∀ c ∈ regs, c.usuario ≠ u := by
  have h1 : ERROR_MEMORIA_USUARIOS ≠ EXITO := by decide
  have h2 : ERROR_REGISTRO_USUARIOS ≠ EXITO := by decide
  induction regs with
  | nil => intro k _ c hc; simp at hc
  | cons d r ih =>
    intro k h c hc
    unfold validar_registro_bucle at h
    split at h
    · exact absurd h h1
    · split at h
      · exact absurd h h2
      · rename_i hd
        rcases List.mem_cons.1 hc with rfl | hc
        · exact hd
        · exact ih (k + 1) h c hc

/-- An accepted registration means that no record of the store has the user name. -/
theorem validar_registro_EXITO (es : FalloES) (db : Option (List Cuenta)) (u : List Nat)
    (h : (validar_registro es db u).1 = EXITO) : ∀ c ∈ registros db, c.usuario ≠ u := by
  cases db with
  | none => intro c hc; simp [registros] at hc
  | some regs =>
    unfold validar_registro at h
    simp only [] at h
    have hm : ERROR_MEMORIA_USUARIOS ≠ EXITO := by decide
    split at h
    · exact absurd h hm
    · exact validar_registro_bucle_EXITO es u regs 0 h

theorem validar_registro_bucle_repetido (u : List Nat) (regs : List Cuenta) :
    ∀ k : Nat, (∃ c ∈ regs, c.usuario = u) →
      validar_registro_bucle .ninguno u k regs = ERROR_REGISTRO_USUARIOS := by
  induction regs with
  | nil => intro k h; simp at h
  | cons d r ih =>
    intro k h
    by_cases hd : d.usuario = u
    · simp [validar_registro_bucle, hd]
    · have : ∃ c ∈ r, c.usuario = u := by
        obtain ⟨c, hc, hm⟩ := h
        rcases List.mem_cons.1 hc with rfl | hc
        · exact absurd hm hd
        · exact ⟨c, hc, hm⟩
      simp [validar_registro_bucle, hd, ih (k + 1) this]

/-- The store after a call of `procesar_opcion`. -/
theorem procesar_opcion_db (media : Option (List Nat)) (fs : List Nat → Archivo)
    (es1 es2 : FalloES) (db : Option (List Cuenta)) (s : Socket) (opcion : Int)
    (usuario : Cuenta) :
    (procesar_opcion media fs es1 es2 db s opcion usuario).db =
      if opcion = 2 then
        if (validar_registro es1 db usuario.usuario).1 = EXITO then
          (guardar_cuenta es2 (validar_registro es1 db usuario.usuario).2 usuario).2
        else (validar_registro es1 db usuario.usuario).2
      else db := by
  unfold procesar_opcion
  by_cases h1 : opcion = 1
  · have h2 : ¬ opcion = 2 := by omega
    simp only [h1, if_true]
    split
    · split <;> simp
    · simp
  · by_cases h2 : opcion = 2
    · subst h2
      have h21 : ¬ ((2 : Int) = 1) := by decide
      simp only [h21, if_false, if_true, snprintf_registro]
      split
      · split
        · rfl
        · split <;> rfl
      · split <;> rfl
    · simp only [h1, h2, if_false]

theorem validar_inicio_bucle_falla (u p : List Nat) (regs : List Cuenta) :
    ∀ j k : Nat, k ≤ regs.length →
      (∀ c ∈ regs.take k, ¬ (c.usuario = u ∧ c.contrasenia = p)) →
      validar_inicio_bucle (.lectura (j + k)) u p j regs = ERROR_MEMORIA_USUARIOS := by
  induction regs with
  | nil =>
    intro j k hk _
    have : k = 0 := by simpa using hk
    subst this
    simp [validar_inicio_bucle]
  | cons d r ih =>
    intro j k hk hno
    cases k with
    | zero => simp [validar_inicio_bucle]
    | succ m =>
      have hd : ¬ (d.usuario = u ∧ d.contrasenia = p) := hno d (by simp)
      have hr : ∀ c ∈ r.take m, ¬ (c.usuario = u ∧ c.contrasenia = p) :=
        fun c hc => hno c (by simp [hc])
      have hne : ¬ (j + (m + 1) = j) := by omega
      have e : j + (m + 1) = (j + 1) + m := by omega
      have := ih (j + 1) m (by simpa using hk) hr
      unfold validar_inicio_bucle
      simp only [FalloES.lectura.injEq, hne, if_false, hd]
      rw [e]
      exact this

theorem validar_registro_bucle_falla (u : List Nat) (regs : List Cuenta) :
    ∀ j k : Nat, k ≤ regs.length → (∀ c ∈ regs.take k, c.usuario ≠ u) →
      validar_registro_bucle (.lectura (j + k)) u j regs = ERROR_MEMORIA_USUARIOS := by
  induction regs with
  | nil =>
    intro j k hk _
    have : k = 0 := by simpa using hk
    subst this
    simp [validar_registro_bucle]
  | cons d r ih =>
    intro j k hk hno
    cases k with
    | zero => simp [validar_registro_bucle]
    | succ m =>
      have hd : d.usuario ≠ u := hno d (by simp)
      have hr : ∀ c ∈ r.take m, c.usuario ≠ u := fun c hc => hno c (by simp [hc])
      have hne : ¬ (j + (m + 1) = j) := by omega
      have e : j + (m + 1) = (j + 1) + m := by omega
      have := ih (j + 1) m (by simpa using hk) hr
      unfold validar_registro_bucle
      simp only [FalloES.lectura.injEq, hne, if_false, hd]
      rw [e]
      exact this

/-- A call of `procesar_opcion` keeps the user names of the store distinct. -/
theorem procesar_opcion_nombres_unicos (media : Option (List Nat)) (fs : List Nat → Archivo)
    (es1 es2 : FalloES) (db : Option (List Cuenta)) (s : Socket) (opcion : Int)
    (usuario : Cuenta) (h : nombres_unicos db) :
    nombres_unicos (procesar_opcion media fs es1 es2 db s opcion usuario).db := by
  rw [procesar_opcion_db]
  by_cases h2 : opcion = 2
  · simp only [h2, if_true]
    have hr := registros_validar_registro es1 db usuario.usuario
    by_cases he : (validar_registro es1 db usuario.usuario).1 = EXITO
    · simp only [he, if_true]
      have hno := validar_registro_EXITO es1 db usuario.usuario he
      rcases guardar_cuenta_efecto es2 (validar_registro es1 db usuario.usuario).2 usuario
        with ⟨_, _, g⟩ | ⟨_, _, g⟩ | ⟨_, g⟩
      · unfold nombres_unicos
        rw [g, hr]
        unfold nombres_unicos at h
        simp only [registros, Option.getD_some, List.map_append, List.map_cons, List.map_nil]
        refine List.Nodup.append h (List.nodup_singleton _) ?_
        intro x hx hx2
        obtain ⟨c, hc, rfl⟩ := List.mem_map.1 hx
        have : c.usuario = usuario.usuario := by simpa using hx2
        exact hno c hc this
      · unfold nombres_unicos at h ⊢
        rw [g, hr]
        exact h
      · unfold nombres_unicos at h ⊢
        rw [g, hr]
        exact h
    · simp only [he, if_false]
      unfold nombres_unicos at h ⊢
      rw [hr]
      exact h
  · simp only [h2, if_false]
    exact h

theorem almacen_tras_nombres_unicos (qs : List Solicitud) :
    ∀ db : Option (List Cuenta), nombres_unicos db → nombres_unicos (almacen_tras db qs) := by
  induction qs with
  | nil => intro db h; exact h
  | cons q r ih =>
    intro db h
    exact ih _ (procesar_opcion_nombres_unicos q.media q.fs q.es1 q.es2 db q.sock q.opcion
      q.usuario h)

/-! ## Lemmas on the session loops -/

theorem leer_solicitud_length (m : List Nat) (x : Int × Cuenta)
    (h : leer_solicitud m = .ok x) : m.length < BUFFER_SIZE := by
  by_contra hc
  unfold leer_solicitud at h
  simp [hc] at h

/-- When `procesar_opcion` enters the catalog menu, what it leaves behind is what the
menu leaves behind after the reply `EXITO` was sent. -/
theorem procesar_opcion_fin_menu (media : Option (List Nat)) (fs : List Nat → Archivo)
    (es1 es2 : FalloES) (db : Option (List Cuenta)) (s : Socket) (opcion : Int)
    (usuario : Cuenta)
    (hm : (procesar_opcion media fs es1 es2 db s opcion usuario).menu = true) :
    (procesar_opcion media fs es1 es2 db s opcion usuario).fin =
      entrar_menu media fs (send s EXITO).2 := by
  have h21 : ¬ ((2 : Int) = 1) := by decide
  unfold procesar_opcion at hm ⊢
  by_cases h1 : opcion = 1
  · subst h1
    simp only [if_true, snprintf_inicio] at hm ⊢
    by_cases he : validar_inicio es1 db usuario.usuario usuario.contrasenia = EXITO
    · rw [he] at hm ⊢
      by_cases hs : (send s EXITO).1 = true
      · simp [hs]
      · simp [hs] at hm
    · by_cases hs : (send s (validar_inicio es1 db usuario.usuario usuario.contrasenia)).1 = true
      · simp [hs, he] at hm
      · simp [hs, he] at hm
  · by_cases h2 : opcion = 2
    · subst h2
      simp only [h21, if_false, if_true, snprintf_registro] at hm ⊢
      by_cases he : (validar_registro es1 db usuario.usuario).1 = EXITO
      · simp only [he, if_true] at hm ⊢
        by_cases hg : (guardar_cuenta es2 (validar_registro es1 db usuario.usuario).2 usuario).1
            = ERROR
        · simp [hg] at hm
        · by_cases hs : (send s EXITO).1 = true
          · simp [hg, hs]
          · simp [hg, hs] at hm
      · by_cases hs : (send s (validar_registro es1 db usuario.usuario).1).1 = true
        · simp [he, hs] at hm
        · simp [he, hs] at hm
    · simp [h1, h2] at hm

/-- When `procesar_opcion` has entered the catalog menu it returns SALIR. -/
theorem procesar_opcion_menu_SALIR (media : Option (List Nat)) (fs : List Nat → Archivo)
    (es1 es2 : FalloES) (db : Option (List Cuenta)) (s : Socket) (opcion : Int)
    (usuario : Cuenta) (valor : Int) (s1 : Socket) (t : List (Manejador × Int))
    (hm : (procesar_opcion media fs es1 es2 db s opcion usuario).menu = true)
    (hf : (procesar_opcion media fs es1 es2 db s opcion usuario).fin = .ok (valor, s1, t)) :
    valor = SALIR := by
  rw [procesar_opcion_fin_menu media fs es1 es2 db s opcion usuario hm] at hf
  unfold entrar_menu at hf
  split at hf
  · simp at hf
  · simp only [Except.ok.injEq, Prod.mk.injEq] at hf
    exact hf.1.symm

/-- The catalog menu is entered exactly after a successful login or a successful
registration whose reply could be sent. -/
theorem procesar_opcion_menu_iff (media : Option (List Nat)) (fs : List Nat → Archivo)
    (es1 es2 : FalloES) (db : Option (List Cuenta)) (s : Socket) (opcion : Int)
    (usuario : Cuenta) :
    (procesar_opcion media fs es1 es2 db s opcion usuario).menu = true ↔
      (opcion = 1 ∧ validar_inicio es1 db usuario.usuario usuario.contrasenia = EXITO ∧
        (send s EXITO).1 = true) ∨
      (opcion = 2 ∧ (validar_registro es1 db usuario.usuario).1 = EXITO ∧
        (guardar_cuenta es2 (validar_registro es1 db usuario.usuario).2 usuario).1 = OK ∧
        (send s EXITO).1 = true) := by
  have h21 : ¬ ((2 : Int) = 1) := by decide
  unfold procesar_opcion
  by_cases h1 : opcion = 1
  · subst h1
    simp only [if_true, snprintf_inicio]
    by_cases he : validar_inicio es1 db usuario.usuario usuario.contrasenia = EXITO
    · rw [he]
      by_cases hs : (send s EXITO).1 = true
      · simp [hs]
      · simp [hs]
    · by_cases hs : (send s (validar_inicio es1 db usuario.usuario usuario.contrasenia)).1 = true
      · simp [hs, he]
      · simp [hs, he]
  · by_cases h2 : opcion = 2
    · subst h2
      simp only [h21, if_false, if_true, snprintf_registro, false_and, false_or, true_and]
      by_cases he : (validar_registro es1 db usuario.usuario).1 = EXITO
      · simp only [he, if_true, true_and]
        rcases guardar_cuenta_efecto es2 (validar_registro es1 db usuario.usuario).2 usuario
          with ⟨g, _⟩ | ⟨g, _⟩ | ⟨g, _⟩
        · have hne : ¬ (OK = ERROR) := OK_ne_ERROR
          by_cases hs : (send s EXITO).1 = true
          · simp [g, hne, hs]
          · simp [g, hne, hs]
        · have hne : ¬ (OK = ERROR) := OK_ne_ERROR
          by_cases hs : (send s EXITO).1 = true
          · simp [g, hne, hs]
          · simp [g, hne, hs]
        · have hne : ¬ (ERROR = OK) := fun k => OK_ne_ERROR k.symm
          simp [g, hne]
      · by_cases hs : (send s (validar_registro es1 db usuario.usuario).1).1 = true
        · simp [he, hs]
        · simp [he, hs]
    · simp [h1, h2]

/-- A connection whose first handshake message is answered with a value other than
SALIR goes on with the next message. -/
theorem menu_bucle_servidor_sigue (fuel : Nat) (media : Option (List Nat))
    (fs : List Nat → Archivo) (fallos : List (FalloES × FalloES)) (db : Option (List Cuenta))
    (m : List Nat) (r sal : List (List Nat)) (fa : List Bool) (opcion : Int) (usuario : Cuenta)
    (valor : Int) (s1 : Socket) (t : List (Manejador × Int))
    (hm : m ≠ []) (hl : leer_solicitud m = .ok (opcion, usuario))
    (hf : (procesar_opcion media fs (fallos.headD (.ninguno, .ninguno)).1
      (fallos.headD (.ninguno, .ninguno)).2 db ⟨r, sal, fa⟩ opcion usuario).fin =
        .ok (valor, s1, t))
    (hv : valor ≠ SALIR) :
    menu_bucle_servidor (fuel + 1) media fs fallos db ⟨m :: r, sal, fa⟩ =
      ⟨procesar_opcion media fs (fallos.headD (.ninguno, .ninguno)).1
          (fallos.headD (.ninguno, .ninguno)).2 db ⟨r, sal, fa⟩ opcion usuario ::
        (menu_bucle_servidor fuel media fs fallos.tail
          (procesar_opcion media fs (fallos.headD (.ninguno, .ninguno)).1
            (fallos.headD (.ninguno, .ninguno)).2 db ⟨r, sal, fa⟩ opcion usuario).db s1).turnos,
       (menu_bucle_servidor fuel media fs fallos.tail
          (procesar_opcion media fs (fallos.headD (.ninguno, .ninguno)).1
            (fallos.headD (.ninguno, .ninguno)).2 db ⟨r, sal, fa⟩ opcion usuario).db s1).db,
       (menu_bucle_servidor fuel media fs fallos.tail
          (procesar_opcion media fs (fallos.headD (.ninguno, .ninguno)).1
            (fallos.headD (.ninguno, .ninguno)).2 db ⟨r, sal, fa⟩ opcion usuario).db s1).fin⟩ := by
  have hlen := leer_solicitud_length m _ hl
  have hr := recv_uno m r sal fa (Nat.le_of_lt hlen)
  have hl0 : m.length ≠ 0 := fun k => hm (List.eq_nil_of_length_eq_zero k)
  conv => lhs; unfold menu_bucle_servidor
  simp only [hr, hl0, if_false, hl, hf, hv]

/-- A connection whose first handshake message is answered with SALIR ends there. -/
theorem menu_bucle_servidor_sale (fuel : Nat) (media : Option (List Nat))
    (fs : List Nat → Archivo) (fallos : List (FalloES × FalloES)) (db : Option (List Cuenta))
    (m : List Nat) (r sal : List (List Nat)) (fa : List Bool) (opcion : Int) (usuario : Cuenta)
    (s1 : Socket) (t : List (Manejador × Int))
    (hm : m ≠ []) (hl : leer_solicitud m = .ok (opcion, usuario))
    (hf : (procesar_opcion media fs (fallos.headD (.ninguno, .ninguno)).1
      (fallos.headD (.ninguno, .ninguno)).2 db ⟨r, sal, fa⟩ opcion usuario).fin =
        .ok (SALIR, s1, t)) :
    menu_bucle_servidor (fuel + 1) media fs fallos db ⟨m :: r, sal, fa⟩ =
      ⟨[procesar_opcion media fs (fallos.headD (.ninguno, .ninguno)).1
          (fallos.headD (.ninguno, .ninguno)).2 db ⟨r, sal, fa⟩ opcion usuario],
       (procesar_opcion media fs (fallos.headD (.ninguno, .ninguno)).1
          (fallos.headD (.ninguno, .ninguno)).2 db ⟨r, sal, fa⟩ opcion usuario).db,
       .ok s1⟩ := by
  have hlen := leer_solicitud_length m _ hl
  have hr := recv_uno m r sal fa (Nat.le_of_lt hlen)
  have hl0 : m.length ≠ 0 := fun k => hm (List.eq_nil_of_length_eq_zero k)
  conv => lhs; unfold menu_bucle_servidor
  simp only [hr, hl0, if_false, hl, hf, if_true]

/-- Every turn of a connection is a call of `procesar_opcion`, and every turn but the
last did not enter the catalog menu. -/
theorem menu_bucle_servidor_turnos (fuel : Nat) (media : Option (List Nat))
    (fs : List Nat → Archivo) :
    ∀ (fallos : List (FalloES × FalloES)) (db : Option (List Cuenta)) (s : Socket),
      (∀ a ∈ (menu_bucle_servidor fuel media fs fallos db s).turnos,
        ∃ es1 es2 db1 s1 opcion usuario,
          a = procesar_opcion media fs es1 es2 db1 s1 opcion usuario) ∧
      ∀ i, i + 1 < (menu_bucle_servidor fuel media fs fallos db s).turnos.length →
        ∀ a, (menu_bucle_servidor fuel media fs fallos db s).turnos.get? i = some a →
          a.menu = false := by
  induction fuel with
  | zero => intro fallos db s; simp [menu_bucle_servidor]
  | succ n ih =>
    intro fallos db s
    unfold menu_bucle_servidor
    split
    · simp
    · split
      · simp
      · rename_i opcion usuario _
        simp only []
        split
        · refine ⟨?_, ?_⟩
          · intro a ha
            simp only [List.mem_singleton] at ha
            exact ⟨_, _, _, _, _, _, ha⟩
          · intro i hi; simp at hi
        · rename_i valor s1 t hfin
          split
          · refine ⟨?_, ?_⟩
            · intro a ha
              simp only [List.mem_singleton] at ha
              exact ⟨_, _, _, _, _, _, ha⟩
            · intro i hi; simp at hi
          · rename_i hv
            obtain ⟨ih1, ih2⟩ := ih fallos.tail
              (procesar_opcion media fs (fallos.headD (.ninguno, .ninguno)).1
                (fallos.headD (.ninguno, .ninguno)).2 db (recv s BUFFER_SIZE).2 opcion usuario).db
              s1
            refine ⟨?_, ?_⟩
            · intro a ha
              rcases List.mem_cons.1 ha with rfl | ha
              · exact ⟨_, _, _, _, _, _, rfl⟩
              · exact ih1 a ha
            · intro i hi a ha
              cases i with
              | zero =>
                simp only [List.get?_cons_zero, Option.some.injEq] at ha
                subst ha
                by_contra hmenu
                have hmt : (procesar_opcion media fs (fallos.headD (.ninguno, .ninguno)).1
                    (fallos.headD (.ninguno, .ninguno)).2 db (recv s BUFFER_SIZE).2 opcion
                    usuario).menu = true := by simpa using hmenu
                exact hv (procesar_opcion_menu_SALIR _ _ _ _ _ _ _ _ _ _ _ hmt hfin)
              | succ j =>
                simp only [List.get?_cons_succ] at ha
                exact ih2 j (by simpa using hi) a ha

theorem terminar_corto (m : List Nat) (h : m.length < BUFFER_SIZE) :
    terminar m = .ok (cadena (m ++ [0]) 0) := by
  simp [terminar, h]

theorem manejador_de_none (opcion : Int) :
    manejador_de opcion = none ↔ opcion ≠ 1 ∧ opcion ≠ 2 ∧ opcion ≠ 3 := by
  unfold manejador_de
  by_cases h1 : opcion = 1
  · simp [h1]
  · by_cases h2 : opcion = 2
    · simp [h2]
    · by_cases h3 : opcion = 3
      · simp [h3]
      · simp [h1, h2, h3]

/-- A zero-length read ends the loop of the catalog menu. -/
theorem menu_canciones_bucle_cierre (fuel : Nat) (media : Option (List Nat))
    (fs : List Nat → Archivo) (s : Socket) (h : (recv s BUFFER_SIZE).1.length = 0) :
    menu_canciones_bucle (fuel + 1) media fs s = .ok ((recv s BUFFER_SIZE).2, []) := by
  unfold menu_canciones_bucle
  simp [h]

/-- A message that resolves to no case of the `switch` ends the loop of the catalog
menu without a handler call. -/
theorem menu_canciones_bucle_desconocida (fuel : Nat) (media : Option (List Nat))
    (fs : List Nat → Archivo) (m : List Nat) (r sal : List (List Nat)) (fa : List Bool)
    (hm : m ≠ []) (hl : m.length < BUFFER_SIZE)
    (hd : manejador_de (atoi (cadena (m ++ [0]) 0)) = none) :
    menu_canciones_bucle (fuel + 1) media fs ⟨m :: r, sal, fa⟩ = .ok (⟨r, sal, fa⟩, []) := by
  have hr := recv_uno m r sal fa (Nat.le_of_lt hl)
  have hl0 : m.length ≠ 0 := fun k => hm (List.eq_nil_of_length_eq_zero k)
  unfold menu_canciones_bucle
  simp only [hr, hl0, if_false, terminar_corto m hl, hd]

/-- A turn of the catalog menu: the handler named by the message is called on the
rest of the input; when it returns OK the loop goes on from the socket it left,
otherwise the loop ends. -/
theorem menu_canciones_bucle_paso (fuel : Nat) (media : Option (List Nat))
    (fs : List Nat → Archivo) (m : List Nat) (r sal : List (List Nat)) (fa : List Bool)
    (h : Manejador) (estado : Int) (s1 : Socket)
    (hm : m ≠ []) (hl : m.length < BUFFER_SIZE)
    (hd : manejador_de (atoi (cadena (m ++ [0]) 0)) = some h)
    (hh : despachar h media fs ⟨r, sal, fa⟩ = .ok (estado, s1)) :
    menu_canciones_bucle (fuel + 1) media fs ⟨m :: r, sal, fa⟩ =
      if estado = OK then anotar (h, estado) (menu_canciones_bucle fuel media fs s1)
      else .ok (s1, [(h, estado)]) := by
  have hr := recv_uno m r sal fa (Nat.le_of_lt hl)
  have hl0 : m.length ≠ 0 := fun k => hm (List.eq_nil_of_length_eq_zero k)
  conv => lhs; unfold menu_canciones_bucle
  simp only [hr, hl0, if_false, terminar_corto m hl, hd, hh]

/-- In a run of the catalog menu every handler call but the last returned OK. -/
theorem menu_canciones_bucle_traza (fuel : Nat) (media : Option (List Nat))
    (fs : List Nat → Archivo) :
    ∀ (s s1 : Socket) (t : List (Manejador × Int)),
      menu_canciones_bucle fuel media fs s = .ok (s1, t) →
      ∀ i, i + 1 < t.length → ∀ p, t.get? i = some p → p.2 = OK := by
  induction fuel with
  | zero => intro s s1 t h; simp [menu_canciones_bucle] at h
  | succ n ih =>
    intro s s1 t h
    unfold menu_canciones_bucle at h
    split at h
    · simp only [Except.ok.injEq, Prod.mk.injEq] at h
      intro i hi; rw [← h.2] at hi; simp at hi
    · split at h
      · simp at h
      · split at h
        · simp only [Except.ok.injEq, Prod.mk.injEq] at h
          intro i hi; rw [← h.2] at hi; simp at hi
        · split at h
          · simp at h
          · rename_i hman _ estado s2 _
            split at h
            · rename_i hok
              unfold anotar at h
              split at h
              · simp at h
              · rename_i s3 t3 hrec
                simp only [Except.ok.injEq, Prod.mk.injEq] at h
                obtain ⟨_, rfl⟩ := h
                intro i hi p hp
                cases i with
                | zero =>
                  simp only [List.get?_cons_zero, Option.some.injEq] at hp
                  rw [← hp]; exact hok
                | succ j =>
                  simp only [List.get?_cons_succ] at hp
                  exact ih s2 s3 t3 hrec j (by simpa using hi) p hp
            · simp only [Except.ok.injEq, Prod.mk.injEq] at h
              intro i hi; rw [← h.2] at hi; simp at hi

/-! ## The step budgets of the server loops are never exhausted -/

theorem send_entrada (s : Socket) (m : List Nat) : (send s m).2.entrada = s.entrada := by
  unfold send
  split <;> rfl

theorem fgets_toma_pos (n : Nat) (c : Nat) (f : List Nat) :
    0 < (fgets_toma (n + 1) (c :: f)).length := by
  unfold fgets_toma
  split <;> simp

/-- A successful `fgets` shortens the unread rest of the file. -/
theorem fgets_consume (f l resto : List Nat) (h : fgets LINEA_MAX f = some (l, resto)) :
    resto.length < f.length := by
  unfold fgets at h
  cases f with
  | nil => simp at h
  | cons c r =>
    simp only [reduceCtorEq, if_false, Option.some.injEq, Prod.mk.injEq] at h
    obtain ⟨_, rfl⟩ := h
    have hp : 0 < (fgets_toma (LINEA_MAX - 1) (c :: r)).length := fgets_toma_pos 254 c r
    rw [List.length_drop]
    simp only [List.length_cons] at hp ⊢
    omega

theorem strcat_no_agota (tam : Nat) (a b : List Nat) : strcat tam a b ≠ .error .agotado := by
  unfold strcat
  split <;> simp

theorem listar_campos_no_agota (n : Nat) :
    ∀ (mem : List Nat) (g : Nat) (buffer : List Nat),
      listar_campos n mem g buffer ≠ .error .agotado := by
  induction n with
  | zero => intro mem g buffer; simp [listar_campos]
  | succ k ih =>
    intro mem g buffer h
    unfold listar_campos at h
    split at h
    · simp at h
    · split at h
      · rename_i e he
        simp only [Except.error.injEq] at h
        subst h
        exact strcat_no_agota _ _ _ he
      · split at h
        · rename_i e he
          simp only [Except.error.injEq] at h
          subst h
          exact strcat_no_agota _ _ _ he
        · exact ih _ _ _ h

theorem listar_linea_no_agota (cont : Nat) (linea : List Nat) :
    listar_linea cont linea ≠ .error .agotado := by
  intro h
  unfold listar_linea at h
  split at h
  · simp at h
  · split at h
    · rename_i e he
      simp only [Except.error.injEq] at h
      subst h
      exact listar_campos_no_agota _ _ _ _ he
    · split at h
      · simp at h
      · split at h
        · rename_i e he
          simp only [Except.error.injEq] at h
          subst h
          exact strcat_no_agota _ _ _ he
        · split at h
          · rename_i e he
            simp only [Except.error.injEq] at h
            subst h
            exact strcat_no_agota _ _ _ he
          · simp at h

/-- The loop of `listar_servidor` ends within a budget above the length of the file,
and it leaves the pending input untouched. -/
theorem listar_bucle_total (fuel : Nat) :
    ∀ (f linea : List Nat) (cont : Nat) (s : Socket), f.length < fuel →
      listar_bucle fuel f linea cont s ≠ .error .agotado ∧
      ∀ e s1, listar_bucle fuel f linea cont s = .ok (e, s1) → s1.entrada = s.entrada := by
  induction fuel with
  | zero => intro f linea cont s h; simp at h
  | succ n ih =>
    intro f linea cont s hlen
    unfold listar_bucle
    split
    · constructor
      · split <;> simp
      · intro e s1 h
        split at h <;>
          (simp only [Except.ok.injEq, Prod.mk.injEq] at h; rw [← h.2]; exact send_entrada _ _)
    · rename_i l resto hf
      have hr := fgets_consume f l resto hf
      split
      · rename_i e he
        constructor
        · intro h
          simp only [Except.error.injEq] at h
          subst h
          exact listar_linea_no_agota _ _ he
        · intro e1 s1 h; simp at h
      · rename_i msg linea1 _
        split
        · split
          · obtain ⟨h1, h2⟩ := ih resto linea1 (cont + 1) (send s msg).2 (by omega)
            refine ⟨h1, ?_⟩
            intro e s1 h
            rw [h2 e s1 h]
            exact send_entrada _ _
          · constructor
            · simp
            · intro e s1 h; simp at h
        · constructor
          · simp
          · intro e s1 h
            simp only [Except.ok.injEq, Prod.mk.injEq] at h
            rw [← h.2]; exact send_entrada _ _

theorem segmento_no_agota (mem : List Nat) (segs : List (Option Nat)) (i : Nat) :
    segmento mem segs i ≠ .error .agotado := by
  unfold segmento
  split <;> simp

theorem filtrar_formato_no_agota (cont : Nat) (mem : List Nat) (segs : List (Option Nat)) :
    filtrar_formato cont mem segs ≠ .error .agotado := by
  unfold filtrar_formato
  split <;> simp

/-- The loop of `filtrar_servidor` ends within a budget above the length of the file,
and it leaves the pending input untouched. -/
theorem filtrar_bucle_total (fuel : Nat) :
    ∀ (f linea : List Nat) (segs : List (Option Nat)) (filtro : List Nat) (sector cont : Nat)
      (s : Socket), f.length < fuel →
      filtrar_bucle fuel f linea segs filtro sector cont s ≠ .error .agotado ∧
      ∀ e s1, filtrar_bucle fuel f linea segs filtro sector cont s = .ok (e, s1) →
        s1.entrada = s.entrada := by
  induction fuel with
  | zero => intro f linea segs filtro sector cont s h; simp at h
  | succ n ih =>
    intro f linea segs filtro sector cont s hlen
    unfold filtrar_bucle
    split
    · constructor
      · split <;> simp
      · intro e s1 h
        split at h <;>
          (simp only [Except.ok.injEq, Prod.mk.injEq] at h; rw [← h.2]; exact send_entrada _ _)
    · rename_i l resto hf
      have hr := fgets_consume f l resto hf
      split
      rename_i mem segs1 _
      split
      · rename_i e he
        constructor
        · intro h
          simp only [Except.error.injEq] at h
          subst h
          exact segmento_no_agota _ _ _ he
        · intro e1 s1 h; simp at h
      · split
        · split
          · rename_i e he
            constructor
            · intro h
              simp only [Except.error.injEq] at h
              subst h
              exact filtrar_formato_no_agota _ _ _ he
            · intro e1 s1 h; simp at h
          · rename_i msg _
            split
            · split
              · obtain ⟨h1, h2⟩ := ih resto mem segs1 filtro sector (cont + 1) (send s msg).2
                  (by omega)
                refine ⟨h1, ?_⟩
                intro e s1 h
                rw [h2 e s1 h]
                exact send_entrada _ _
              · constructor
                · simp
                · intro e s1 h; simp at h
            · constructor
              · simp
              · intro e s1 h
                simp only [Except.ok.injEq, Prod.mk.injEq] at h
                rw [← h.2]; exact send_entrada _ _
        · split
          · exact ih resto mem segs1 filtro sector (cont + 1) s (by omega)
          · constructor
            · simp
            · intro e s1 h; simp at h

/-- The read loop of `escuchar_cancion_servidor` ends within a budget above the length
of the file, and it leaves the pending input untouched. -/
theorem enviar_bloques_total (fuel : Nat) :
    ∀ (f : List Nat) (s : Socket), f.length < fuel →
      enviar_bloques fuel f s ≠ .error .agotado ∧
      ∀ e s1, enviar_bloques fuel f s = .ok (e, s1) → s1.entrada = s.entrada := by
  induction fuel with
  | zero => intro f s h; simp at h
  | succ n ih =>
    intro f s hlen
    unfold enviar_bloques
    split
    · rename_i hpos
      have hd : (f.drop BUFFER_SIZE).length < n := by
        rw [List.length_take] at hpos
        rw [List.length_drop]
        unfold BUFFER_SIZE at hpos ⊢
        omega
      split
      · obtain ⟨h1, h2⟩ := ih (f.drop BUFFER_SIZE) (send s (f.take BUFFER_SIZE)).2 hd
        refine ⟨h1, ?_⟩
        intro e s1 h
        rw [h2 e s1 h]
        exact send_entrada _ _
      · constructor
        · simp
        · intro e s1 h
          simp only [Except.ok.injEq, Prod.mk.injEq] at h
          rw [← h.2]; exact send_entrada _ _
    · constructor
      · split <;> simp
      · intro e s1 h
        split at h <;>
          (simp only [Except.ok.injEq, Prod.mk.injEq] at h; rw [← h.2]; exact send_entrada _ _)

theorem presupuesto_entrada (s1 s2 : Socket) (h : s1.entrada = s2.entrada) :
    presupuesto s1 = presupuesto s2 := by
  unfold presupuesto
  rw [h]

theorem presupuesto_send (s : Socket) (m : List Nat) :
    presupuesto (send s m).2 = presupuesto s :=
  presupuesto_entrada _ _ (send_entrada s m)

/-- A `recv` does not add to the pending input, and one that delivers bytes takes from
it. -/
theorem presupuesto_recv (s : Socket) :
    presupuesto (recv s BUFFER_SIZE).2 ≤ presupuesto s ∧
    ((recv s BUFFER_SIZE).1.length ≠ 0 →
      presupuesto (recv s BUFFER_SIZE).2 < presupuesto s) := by
  unfold recv presupuesto
  cases he : s.entrada with
  | nil => simp [he]
  | cons m r =>
    simp only []
    split
    · simp only [List.map_cons, List.sum_cons, List.length_cons]
      constructor
      · omega
      · intro _; omega
    · rename_i hlen
      simp only [List.map_cons, List.sum_cons, List.length_cons, List.length_drop]
      unfold BUFFER_SIZE at hlen ⊢
      constructor
      · omega
      · intro _; omega

theorem terminar_no_agota (m : List Nat) : terminar m ≠ .error .agotado := by
  unfold terminar
  split <;> simp

theorem listar_servidor_total (media : Option (List Nat)) (s : Socket) :
    listar_servidor media s ≠ .error .agotado ∧
    ∀ e s1, listar_servidor media s = .ok (e, s1) → presupuesto s1 ≤ presupuesto s := by
  unfold listar_servidor
  cases media with
  | none =>
    constructor
    · simp
    · intro e s1 h
      simp only [Except.ok.injEq, Prod.mk.injEq] at h
      rw [← h.2]
  | some f =>
    obtain ⟨h1, h2⟩ := listar_bucle_total (f.length + 1) f (List.replicate LINEA_MAX 0) 1 s
      (Nat.lt_succ_self _)
    exact ⟨h1, fun e s1 h => Nat.le_of_eq (presupuesto_entrada _ _ (h2 e s1 h))⟩

theorem filtrar_servidor_total (media : Option (List Nat)) (s : Socket) (sector : Nat) :
    filtrar_servidor media s sector ≠ .error .agotado ∧
    ∀ e s1, filtrar_servidor media s sector = .ok (e, s1) →
      presupuesto s1 ≤ presupuesto s := by
  have hrecv := (presupuesto_recv s).1
  unfold filtrar_servidor
  cases media with
  | none =>
    constructor
    · simp
    · intro e s1 h
      simp only [Except.ok.injEq, Prod.mk.injEq] at h
      rw [← h.2]
  | some f =>
    simp only []
    split
    · constructor
      · simp
      · intro e s1 h
        simp only [Except.ok.injEq, Prod.mk.injEq] at h
        rw [← h.2]; exact hrecv
    · split
      · rename_i e he
        constructor
        · intro h
          simp only [Except.error.injEq] at h
          subst h
          exact terminar_no_agota _ he
        · intro e1 s1 h; simp at h
      · split
        · rename_i filtro _ _
          obtain ⟨h1, h2⟩ := filtrar_bucle_total (f.length + 1) f (List.replicate LINEA_MAX 0)
            (List.replicate 5 none) filtro sector 1 (recv s BUFFER_SIZE).2 (Nat.lt_succ_self _)
          refine ⟨h1, ?_⟩
          intro e s1 h
          rw [presupuesto_entrada _ _ (h2 e s1 h)]
          exact hrecv
        · constructor
          · simp
          · intro e s1 h; simp at h

theorem menu_filtrar_servidor_total (media : Option (List Nat)) (s : Socket) :
    menu_filtrar_servidor media s ≠ .error .agotado ∧
    ∀ e s1, menu_filtrar_servidor media s = .ok (e, s1) →
      presupuesto s1 ≤ presupuesto s := by
  have hrecv := (presupuesto_recv s).1
  unfold menu_filtrar_servidor
  split
  · constructor
    · simp
    · intro e s1 h
      simp only [Except.ok.injEq, Prod.mk.injEq] at h
      rw [← h.2]; exact hrecv
  · split
    · rename_i e he
      constructor
      · intro h
        simp only [Except.error.injEq] at h
        subst h
        exact terminar_no_agota _ he
      · intro e1 s1 h; simp at h
    · split
      · obtain ⟨h1, h2⟩ := filtrar_servidor_total media (recv s BUFFER_SIZE).2 ARTISTA
        exact ⟨h1, fun e s1 h => Nat.le_trans (h2 e s1 h) hrecv⟩
      · split
        · obtain ⟨h1, h2⟩ := filtrar_servidor_total media (recv s BUFFER_SIZE).2 GENERO
          exact ⟨h1, fun e s1 h => Nat.le_trans (h2 e s1 h) hrecv⟩
        · constructor
          · simp
          · intro e s1 h
            simp only [Except.ok.injEq, Prod.mk.injEq] at h
            rw [← h.2]; exact hrecv

theorem escuchar_cancion_servidor_total (fs : List Nat → Archivo) (s : Socket) :
    escuchar_cancion_servidor fs s ≠ .error .agotado ∧
    ∀ e s1, escuchar_cancion_servidor fs s = .ok (e, s1) →
      presupuesto s1 ≤ presupuesto s := by
  have hrecv := (presupuesto_recv s).1
  unfold escuchar_cancion_servidor
  split
  · constructor
    · simp
    · intro e s1 h
      simp only [Except.ok.injEq, Prod.mk.injEq] at h
      rw [← h.2]; exact hrecv
  · split
    · rename_i e he
      constructor
      · intro h
        simp only [Except.error.injEq] at h
        subst h
        exact terminar_no_agota _ he
      · intro e1 s1 h; simp at h
    · split
      · constructor
        · simp
        · intro e s1 h
          simp only [Except.ok.injEq, Prod.mk.injEq] at h
          rw [← h.2]; exact hrecv
      · split
        · constructor
          · simp
          · intro e s1 h
            simp only [Except.ok.injEq, Prod.mk.injEq] at h
            rw [← h.2, presupuesto_send]; exact hrecv
        · constructor
          · simp
          · intro e s1 h
            simp only [Except.ok.injEq, Prod.mk.injEq] at h
            rw [← h.2, presupuesto_send]; exact hrecv
        · rename_i b _
          split
          · obtain ⟨h1, h2⟩ := enviar_bloques_total (b.length + 1) b
              (send (recv s BUFFER_SIZE).2 (ascii "OK")).2 (Nat.lt_succ_self _)
            refine ⟨h1, ?_⟩
            intro e s1 h
            rw [presupuesto_entrada _ _ (h2 e s1 h), presupuesto_send]
            exact hrecv
          · constructor
            · simp
            · intro e s1 h
              simp only [Except.ok.injEq, Prod.mk.injEq] at h
              rw [← h.2, presupuesto_send]; exact hrecv

theorem despachar_total (h : Manejador) (media : Option (List Nat))
    (fs : List Nat → Archivo) (s : Socket) :
    despachar h media fs s ≠ .error .agotado ∧
    ∀ e s1, despachar h media fs s = .ok (e, s1) → presupuesto s1 ≤ presupuesto s := by
  cases h with
  | listar => exact listar_servidor_total media s
  | filtrar => exact menu_filtrar_servidor_total media s
  | escuchar => exact escuchar_cancion_servidor_total fs s

/-- The loop of the catalog menu ends within a budget that covers the pending input,
and it does not add to the pending input. -/
theorem menu_canciones_bucle_total (fuel : Nat) (media : Option (List Nat))
    (fs : List Nat → Archivo) :
    ∀ s : Socket, presupuesto s ≤ fuel →
      menu_canciones_bucle fuel media fs s ≠ .error .agotado ∧
      ∀ s1 t, menu_canciones_bucle fuel media fs s = .ok (s1, t) →
        presupuesto s1 ≤ presupuesto s := by
  induction fuel with
  | zero => intro s h; simp [presupuesto] at h
  | succ n ih =>
    intro s hfuel
    obtain ⟨hle, hlt⟩ := presupuesto_recv s
    unfold menu_canciones_bucle
    split
    · constructor
      · simp
      · intro s1 t h
        simp only [Except.ok.injEq, Prod.mk.injEq] at h
        rw [← h.1]; exact hle
    · rename_i hne
      have hlt1 := hlt hne
      split
      · rename_i e he
        constructor
        · intro h
          simp only [Except.error.injEq] at h
          subst h
          exact terminar_no_agota _ he
        · intro s1 t h; simp at h
      · split
        · constructor
          · simp
          · intro s1 t h
            simp only [Except.ok.injEq, Prod.mk.injEq] at h
            rw [← h.1]; exact hle
        · rename_i hman _
          obtain ⟨d1, d2⟩ := despachar_total hman media fs (recv s BUFFER_SIZE).2
          split
          · rename_i e he
            constructor
            · intro h
              simp only [Except.error.injEq] at h
              subst h
              exact d1 he
            · intro s1 t h; simp at h
          · rename_i estado s2 hd
            have hs2 := d2 estado s2 hd
            split
            · obtain ⟨i1, i2⟩ := ih s2 (by omega)
              unfold anotar
              constructor
              · split
                · rename_i e he
                  intro h
                  simp only [Except.error.injEq] at h
                  subst h
                  exact i1 he
                · simp
              · intro s1 t h
                split at h
                · simp at h
                · rename_i s3 t3 hrec
                  simp only [Except.ok.injEq, Prod.mk.injEq] at h
                  rw [← h.1]
                  have := i2 s3 t3 hrec
                  omega
            · constructor
              · simp
              · intro s1 t h
                simp only [Except.ok.injEq, Prod.mk.injEq] at h
                rw [← h.1]; omega

/-- The function `menu_canciones_servidor` never exhausts its budget: it returns, or
the C code has undefined behaviour. -/
theorem menu_canciones_servidor_total (media : Option (List Nat)) (fs : List Nat → Archivo)
    (s : Socket) :
    menu_canciones_servidor media fs s ≠ .error .agotado ∧
    ∀ s1 t, menu_canciones_servidor media fs s = .ok (s1, t) →
      presupuesto s1 ≤ presupuesto s :=
  menu_canciones_bucle_total (presupuesto s) media fs s (Nat.le_refl _)

theorem entrar_menu_total (media : Option (List Nat)) (fs : List Nat → Archivo) (s : Socket) :
    entrar_menu media fs s ≠ .error .agotado ∧
    ∀ v s1 t, entrar_menu media fs s = .ok (v, s1, t) → presupuesto s1 ≤ presupuesto s := by
  obtain ⟨h1, h2⟩ := menu_canciones_servidor_total media fs s
  unfold entrar_menu
  constructor
  · split
    · rename_i e he
      intro h
      simp only [Except.error.injEq] at h
      subst h
      exact h1 he
    · simp
  · intro v s1 t h
    split at h
    · simp at h
    · rename_i s2 t2 hm
      simp only [Except.ok.injEq, Prod.mk.injEq] at h
      rw [← h.2.1]
      exact h2 s2 t2 hm

/-- A call of `procesar_opcion` that does not enter the catalog menu returns with the
socket as it was or as a `send` left it, and no handler call. -/
theorem procesar_opcion_fin_sin_menu (media : Option (List Nat)) (fs : List Nat → Archivo)
    (es1 es2 : FalloES) (db : Option (List Cuenta)) (s : Socket) (opcion : Int)
    (usuario : Cuenta)
    (hm : (procesar_opcion media fs es1 es2 db s opcion usuario).menu = false) :
    ∃ v s1, (procesar_opcion media fs es1 es2 db s opcion usuario).fin = .ok (v, s1, []) ∧
      s1.entrada = s.entrada := by
  have h21 : ¬ ((2 : Int) = 1) := by decide
  unfold procesar_opcion at hm ⊢
  by_cases h1 : opcion = 1
  · subst h1
    simp only [if_true] at hm ⊢
    split
    · split
      · rename_i k1 k2; simp only [k2] at hm k1; simp [k1] at hm
      · exact ⟨_, _, rfl, send_entrada _ _⟩
    · exact ⟨_, _, rfl, send_entrada _ _⟩
  · by_cases h2 : opcion = 2
    · subst h2
      simp only [h21, if_false, if_true] at hm ⊢
      split
      · split
        · exact ⟨_, _, rfl, send_entrada _ _⟩
        · split
          · rename_i k1 k2 k3; simp only [k1] at hm k3; simp [k2, k3] at hm
          · exact ⟨_, _, rfl, send_entrada _ _⟩
      · split
        · exact ⟨_, _, rfl, send_entrada _ _⟩
        · exact ⟨_, _, rfl, send_entrada _ _⟩
    · simp only [h1, h2, if_false]
      exact ⟨_, _, rfl, rfl⟩

/-- A call of `procesar_opcion` never exhausts a budget and does not add to the pending
input. -/
theorem procesar_opcion_total (media : Option (List Nat)) (fs : List Nat → Archivo)
    (es1 es2 : FalloES) (db : Option (List Cuenta)) (s : Socket) (opcion : Int)
    (usuario : Cuenta) :
    (procesar_opcion media fs es1 es2 db s opcion usuario).fin ≠ .error .agotado ∧
    ∀ v s1 t, (procesar_opcion media fs es1 es2 db s opcion usuario).fin = .ok (v, s1, t) →
      presupuesto s1 ≤ presupuesto s := by
  cases hm : (procesar_opcion media fs es1 es2 db s opcion usuario).menu with
  | true =>
    rw [procesar_opcion_fin_menu media fs es1 es2 db s opcion usuario hm]
    obtain ⟨h1, h2⟩ := entrar_menu_total media fs (send s EXITO).2
    refine ⟨h1, ?_⟩
    intro v s1 t h
    have := h2 v s1 t h
    rw [presupuesto_send] at this
    exact this
  | false =>
    obtain ⟨v, s1, hf, he⟩ := procesar_opcion_fin_sin_menu media fs es1 es2 db s opcion usuario hm
    rw [hf]
    constructor
    · simp
    · intro v2 s2 t2 h
      simp only [Except.ok.injEq, Prod.mk.injEq] at h
      rw [← h.2.1]
      exact Nat.le_of_eq (presupuesto_entrada _ _ he)

theorem copiar_campo_no_agota (mem : List Nat) (token : Option Nat) :
    copiar_campo mem token ≠ .error .agotado := by
  unfold copiar_campo
  split
  · simp
  · split <;> simp

theorem leer_solicitud_no_agota (m : List Nat) : leer_solicitud m ≠ .error .agotado := by
  intro h
  unfold leer_solicitud at h
  split at h
  · split at h
    split at h
    split at h
    · rename_i e he
      simp only [Except.error.injEq] at h
      subst h
      exact copiar_campo_no_agota _ _ he
    · split at h
      split at h
      · rename_i e he
        simp only [Except.error.injEq] at h
        subst h
        exact copiar_campo_no_agota _ _ he
      · split at h <;> simp at h
  · simp at h

/-- A connection ends within a budget that covers the pending input: the loop of
`menu_bucle_servidor` is left, or the C code has undefined behaviour. -/
theorem menu_bucle_servidor_total (fuel : Nat) (media : Option (List Nat))
    (fs : List Nat → Archivo) :
    ∀ (fallos : List (FalloES × FalloES)) (db : Option (List Cuenta)) (s : Socket),
      presupuesto s ≤ fuel →
      (menu_bucle_servidor fuel media fs fallos db s).fin ≠ .error .agotado := by
  induction fuel with
  | zero => intro fallos db s h; simp [presupuesto] at h
  | succ n ih =>
    intro fallos db s hfuel
    obtain ⟨_, hlt⟩ := presupuesto_recv s
    unfold menu_bucle_servidor
    split
    · simp
    · rename_i hne
      have hlt1 := hlt hne
      split
      · rename_i e he
        intro h
        simp only [Except.error.injEq] at h
        subst h
        exact leer_solicitud_no_agota _ he
      · rename_i opcion usuario _
        obtain ⟨p1, p2⟩ := procesar_opcion_total media fs (fallos.headD (.ninguno, .ninguno)).1
          (fallos.headD (.ninguno, .ninguno)).2 db (recv s BUFFER_SIZE).2 opcion usuario
        simp only []
        split
        · rename_i e he
          intro h
          simp only [Except.error.injEq] at h
          subst h
          exact p1 he
        · rename_i valor s1 t hfin
          have hs1 := p2 valor s1 t hfin
          split
          · simp
          · exact ih fallos.tail _ s1 (by omega)

/-! ## Lemmas on the chunks of a file -/

theorem trozos_join (fuel : Nat) :
    ∀ f : List Nat, f.length < fuel → (trozos fuel f).flatten = f := by
  induction fuel with
  | zero => intro f h; simp at h
  | succ n ih =>
    intro f h
    unfold trozos
    by_cases hf : f = []
    · simp [hf]
    · have hd : (f.drop BUFFER_SIZE).length < n := by
        have : 0 < f.length := List.length_pos.2 hf
        simp [BUFFER_SIZE]; omega
      simp [hf, ih _ hd]

theorem trozos_bloques (fuel : Nat) :
    ∀ f : List Nat, ∀ c ∈ trozos fuel f, c ≠ [] ∧ c.length ≤ BUFFER_SIZE := by
  induction fuel with
  | zero => intro f c h; simp [trozos] at h
  | succ n ih =>
    intro f c h
    unfold trozos at h
    by_cases hf : f = []
    · simp [hf] at h
    · simp only [hf, if_false, List.mem_cons] at h
      rcases h with rfl | h
      · constructor
        · intro k
          have h1 : (f.take BUFFER_SIZE).length = 0 := by rw [k]; rfl
          have h2 : 0 < f.length := List.length_pos.2 hf
          rw [List.length_take] at h1
          unfold BUFFER_SIZE at h1
          omega
        · simp
      · exact ih _ c h

theorem trozos_nil (fuel : Nat) (f : List Nat) (h : trozos fuel f ≠ []) : f ≠ [] := by
  intro k
  subst k
  cases fuel <;> simp [trozos] at h

/-- Every chunk but the last fills the buffer. -/
theorem trozos_llenos (fuel : Nat) :
    ∀ (f : List Nat) (i : Nat) (c : List Nat), i + 1 < (trozos fuel f).length →
      (trozos fuel f).get? i = some c → c.length = BUFFER_SIZE := by
  induction fuel with
  | zero => intro f i c h; simp [trozos] at h
  | succ n ih =>
    intro f i c h hc
    unfold trozos at h hc
    by_cases hf : f = []
    · simp [hf] at h
    · simp only [hf, if_false] at h hc
      cases i with
      | zero =>
        simp only [List.get?_cons_zero, Option.some.injEq] at hc
        have hne : trozos n (f.drop BUFFER_SIZE) ≠ [] := by
          intro k
          rw [k] at h
          simp at h
        have hd := trozos_nil n _ hne
        have h2 : 0 < (f.drop BUFFER_SIZE).length := List.length_pos.2 hd
        rw [← hc]
        simp [BUFFER_SIZE] at h2 ⊢
        omega
      | succ j =>
        simp only [List.get?_cons_succ] at hc
        simp only [List.length_cons] at h
        exact ih _ j c (by omega) hc

/-- The number of chunks of a file. -/
theorem trozos_cuenta (fuel : Nat) :
    ∀ f : List Nat, f.length < fuel →
      (trozos fuel f).length = (f.length + (BUFFER_SIZE - 1)) / BUFFER_SIZE := by
  induction fuel with
  | zero => intro f h; simp at h
  | succ n ih =>
    intro f h
    unfold trozos
    by_cases hf : f = []
    · simp [hf, BUFFER_SIZE]
    · have h0 : 0 < f.length := List.length_pos.2 hf
      have hd : (f.drop BUFFER_SIZE).length < n := by
        simp [BUFFER_SIZE]; omega
      simp only [hf, if_false, List.length_cons, ih _ hd]
      simp only [List.length_drop, BUFFER_SIZE]
      omega

/-- The server, sent a message that names an existing readable file, answers `OK`, the
chunks of the file and the sentinel, whatever the form of the name. -/
theorem servidor_transmite (fs : List Nat → Archivo) (m b : List Nat)
    (r sal : List (List Nat)) (fa : List Bool) (hne : m ≠ [])
    (hl : m.length < BUFFER_SIZE) (hfin : cadena (m ++ [0]) 0 ≠ FIN)
    (hf : fs (cadena (m ++ [0]) 0) = .contenido b) (hfa : ∀ x ∈ fa, x = false) :
    ∃ s1, escuchar_cancion_servidor fs ⟨m :: r, sal, fa⟩ = .ok (OK, s1) ∧
      s1.salida = sal ++ ascii "OK" :: (trozos (b.length + 1) b ++ [FIN]) ∧ s1.entrada = r := by
  have hr := recv_uno m r sal fa (Nat.le_of_lt hl)
  have hlen : m.length ≠ 0 := fun k => hne (List.eq_nil_of_length_eq_zero k)
  have hok : ascii "OK" ≠ [] := by decide
  obtain ⟨k1, k2, k3, k4⟩ := send_ok ⟨r, sal, fa⟩ (ascii "OK") hfa hok
  obtain ⟨s1, e1, e2, e3⟩ := enviar_bloques_ok (b.length + 1) b (send ⟨r, sal, fa⟩ (ascii "OK")).2
    (Nat.lt_succ_self _) k4
  refine ⟨s1, ?_, ?_, ?_⟩
  · unfold escuchar_cancion_servidor
    simp only [hr, hlen, if_false, terminar_corto m hl, hfin, hf, k1, if_true]
    exact e1
  · rw [e2, k2]; simp
  · rw [e3, k3]

/-! ## Lemmas on the receive loop of the client -/

/-- One turn of the receive loop on a chunk: the sentinel ends the loop, any other chunk
is written whole. -/
theorem recibir_bloques_paso (fuel : Nat) (m : List Nat) (r sal : List (List Nat))
    (fa : List Bool) (buffer escrito : List Nat) (escrituras : List Bool) (hm : m ≠ [])
    (hl : m.length ≤ BUFFER_SIZE) :
    recibir_bloques (fuel + 1) ⟨m :: r, sal, fa⟩ buffer escrito escrituras =
      if m = FIN then .ok (OK, ⟨r, sal, fa⟩, escrito, true)
      else if escrituras.headD false then .ok (ERROR, ⟨r, sal, fa⟩, escrito, false)
      else recibir_bloques fuel ⟨r, sal, fa⟩ (escribir buffer m) (escrito ++ m)
        escrituras.tail := by
  have hr := recv_uno m r sal fa hl
  have hl0 : m.length ≠ 0 := fun k => hm (List.eq_nil_of_length_eq_zero k)
  conv => lhs; unfold recibir_bloques
  simp only [hr, hl0, if_false]
  by_cases hfin : m = FIN
  · have hs := (es_sentinela buffer m).2 hfin
    rw [if_pos hs, if_pos hfin]
  · have hs : ¬ (strncmp_igual FIN.length (escribir buffer m) FIN = true ∧
        m.length = FIN.length) := fun k => hfin ((es_sentinela buffer m).1 k)
    rw [if_neg hs, if_neg hfin]

/-- The receive loop writes, in arrival order, every chunk that comes before the first
chunk equal to the sentinel. -/
theorem recibir_bloques_lista (ms : List (List Nat)) :
    ∀ (pasos : Nat) (resto sal : List (List Nat)) (fa : List Bool) (buffer escrito : List Nat),
      (∀ m ∈ ms, m ≠ [] ∧ m.length ≤ BUFFER_SIZE ∧ m ≠ FIN) → ms.length < pasos →
      recibir_bloques pasos ⟨ms ++ FIN :: resto, sal, fa⟩ buffer escrito [] =
        .ok (OK, ⟨resto, sal, fa⟩, escrito ++ ms.flatten, true) := by
  induction ms with
  | nil =>
    intro pasos resto sal fa buffer escrito _ hp
    cases pasos with
    | zero => simp at hp
    | succ p =>
      have h := recibir_bloques_paso p FIN resto sal fa buffer escrito [] FIN_ne_nil
        (by decide)
      simpa using h
  | cons m t ih =>
    intro pasos resto sal fa buffer escrito hms hp
    cases pasos with
    | zero => simp at hp
    | succ p =>
      obtain ⟨h1, h2, h3⟩ := hms m (List.mem_cons_self m t)
      have h := recibir_bloques_paso p m (t ++ FIN :: resto) sal fa buffer escrito [] h1 h2
      have hi := ih p resto sal fa (escribir buffer m) (escrito ++ m)
        (fun x hx => hms x (List.mem_cons_of_mem m hx)) (by simpa using hp)
      rw [List.cons_append, h, if_neg h3]
      simp only [List.headD, Bool.false_eq_true, if_false, List.tail]
      rw [hi]
      simp [List.append_assoc]

/-- A file whose last chunk is the sentinel: what is left after the first chunk is
again such a file, unless the file is the sentinel itself. -/
theorem no_fiel_paso (f : List Nat) (h : ¬ copia_fiel f) :
    (f.length ≤ BUFFER_SIZE → f = FIN) ∧
    (BUFFER_SIZE < f.length → f.take BUFFER_SIZE ≠ FIN ∧ ¬ copia_fiel (f.drop BUFFER_SIZE)) := by
  unfold copia_fiel at h
  have h := Classical.not_not.1 h
  obtain ⟨h1, h2⟩ := h
  unfold BUFFER_SIZE at *
  constructor
  · intro hl
    have h3 : f.length = 3 := by
      have : f.length ≠ 1024 := by intro k; rw [k] at h1; simp at h1
      have h4 : f.length < 1024 := by omega
      rw [Nat.mod_eq_of_lt h4] at h1
      exact h1
    rw [h3] at h2
    simpa using h2
  · intro hl
    constructor
    · intro k
      have : (f.take 1024).length = 1024 := by simp; omega
      rw [k, length_FIN] at this
      omega
    · unfold copia_fiel BUFFER_SIZE
      intro k
      apply k
      have hlen : (f.drop 1024).length = f.length - 1024 := by simp
      rw [hlen]
      constructor
      · omega
      · rw [List.drop_drop]
        have e : 1024 + (f.length - 1024 - 3) = f.length - 3 := by omega
        rw [e]
        exact h2

/-- The receive loop of the client, fed the chunks of a file whose last chunk is the
sentinel, stops at that chunk: the last three bytes are not written and the sentinel
sent after the file stays unread. -/
theorem recibir_bloques_trunca (fuel : Nat) :
    ∀ (f : List Nat) (pasos : Nat) (resto sal : List (List Nat)) (fa : List Bool)
      (buffer escrito : List Nat),
      f.length < fuel → ¬ copia_fiel f → (trozos fuel f).length < pasos →
      recibir_bloques pasos ⟨trozos fuel f ++ FIN :: resto, sal, fa⟩ buffer escrito [] =
        .ok (OK, ⟨FIN :: resto, sal, fa⟩, escrito ++ f.take (f.length - 3), true) := by
  induction fuel with
  | zero => intro f _ _ _ _ _ _ h; simp at h
  | succ n ih =>
    intro f pasos resto sal fa buffer escrito hlen hfiel hpasos
    obtain ⟨hcorto, hlargo⟩ := no_fiel_paso f hfiel
    cases pasos with
    | zero => simp at hpasos
    | succ p =>
      by_cases hl : f.length ≤ BUFFER_SIZE
      · have hf := hcorto hl
        subst hf
        have hv : trozos n [] = [] := by cases n <;> simp [trozos]
        have h1 : FIN.take BUFFER_SIZE = FIN := by decide
        have h2 : FIN.drop BUFFER_SIZE = [] := by decide
        have ht : trozos (n + 1) FIN = [FIN] := by
          rw [trozos, if_neg FIN_ne_nil, h1, h2, hv]
        have h := recibir_bloques_paso p FIN (FIN :: resto) sal fa buffer escrito [] FIN_ne_nil
          (by decide)
        rw [ht]
        simpa [length_FIN] using h
      · have hl1 : BUFFER_SIZE < f.length := by omega
        obtain ⟨hne, hfiel1⟩ := hlargo hl1
        have hf : f ≠ [] := by
          intro k; rw [k] at hl1; simp at hl1
        have hc : (f.take BUFFER_SIZE).length ≤ BUFFER_SIZE := by simp
        have hc0 : f.take BUFFER_SIZE ≠ [] := by
          intro k
          have : (f.take BUFFER_SIZE).length = 0 := by rw [k]; rfl
          rw [List.length_take] at this
          unfold BUFFER_SIZE at this hl1
          omega
        have ht : trozos (n + 1) f = f.take BUFFER_SIZE :: trozos n (f.drop BUFFER_SIZE) := by
          simp [trozos, hf]
        have hdrop : (f.drop BUFFER_SIZE).length < n := by
          simp [BUFFER_SIZE] at hl1 ⊢; omega
        have hp : (trozos n (f.drop BUFFER_SIZE)).length < p := by
          rw [ht] at hpasos; simpa using hpasos
        have hi := ih (f.drop BUFFER_SIZE) p resto sal fa (escribir buffer (f.take BUFFER_SIZE))
          (escrito ++ f.take BUFFER_SIZE) hdrop hfiel1 hp
        have h := recibir_bloques_paso p (f.take BUFFER_SIZE)
          (trozos n (f.drop BUFFER_SIZE) ++ FIN :: resto) sal fa buffer escrito [] hc0 hc
        rw [ht, List.cons_append, h, if_neg hne]
        simp only [List.headD, Bool.false_eq_true, if_false, List.tail]
        rw [hi]
        have e : f.length - 3 = BUFFER_SIZE + ((f.drop BUFFER_SIZE).length - 3) := by
          simp [BUFFER_SIZE] at hl1 ⊢
          unfold copia_fiel BUFFER_SIZE at hfiel1
          simp at hfiel1
          omega
        rw [e, List.take_add]
        simp [List.append_assoc]

/-- The client, asked for track `e`, on the reply `OK`, the chunks of a file whose last
chunk is the sentinel, and the sentinel. -/
theorem cliente_trunca (e : Int) (b buffer : List Nat) (fuel : Nat)
    (resto sal : List (List Nat)) (he : 0 < e) (hmax : e.toNat ≤ INT_MAX)
    (hfuel : b.length < fuel) (hfiel : ¬ copia_fiel b) :
    escuchar_cancion_cliente [some e] [] true []
        ⟨ascii "OK" :: (trozos fuel b ++ FIN :: resto), sal, []⟩ buffer =
      .ok ⟨OK, ⟨FIN :: resto, sal ++ [nombre_cancion e], []⟩,
        some (nombre_cancion e, b.take (b.length - 3)), true⟩ := by
  have h0 : ¬ e = 0 := by omega
  have hneg : ¬ e < 0 := by omega
  have hnom := nombre_cancion_sin_nul e hmax
  have hnn : nombre_cancion e ≠ [] := by
    intro k
    have := (nombre_cancion_length e hmax).1
    rw [k] at this
    simp at this
  have hc1 := cadena_escribir buffer (nombre_cancion e) hnom
  have hs := send_simple (ascii "OK" :: (trozos fuel b ++ FIN :: resto)) sal (nombre_cancion e) hnn
  have hr := recv_uno (ascii "OK") (trozos fuel b ++ FIN :: resto) (sal ++ [nombre_cancion e]) []
    (by decide)
  have hc2 := cadena_escribir (escribir buffer (nombre_cancion e ++ [0])) (ascii "OK") OK_bytes
  have hk1 : (ascii "OK").length ≠ 0 := by decide
  have hk2 : (ascii "OK").length < BUFFER_SIZE := by decide
  have hk3 : ascii "OK" ≠ FIN := by decide
  have hk4 : ascii "OK" ≠ ascii "ERROR" := by decide
  have hrb := recibir_bloques_trunca fuel b
    (presupuesto ⟨trozos fuel b ++ FIN :: resto, sal ++ [nombre_cancion e], []⟩) resto
    (sal ++ [nombre_cancion e]) [] (escribir (escribir buffer (nombre_cancion e ++ [0]))
      (ascii "OK" ++ [0])) [] hfuel hfiel (presupuesto_basta _ _ _ _)
  unfold escuchar_cancion_cliente
  simp only [h0, hneg, if_false, List.not_mem_nil, hc1, hs, if_true, hr, hk1, hk2, hc2, hk3, hk4,
    hrb, List.nil_append]

/-- A download of a file whose last chunk is the sentinel. -/
theorem descarga_trunca (fs : List Nat → Archivo) (e : Int) (b buffer : List Nat) (he : 0 < e)
    (hmax : e.toNat ≤ INT_MAX) (hf : fs (nombre_cancion e) = .contenido b)
    (hfiel : ¬ copia_fiel b) :
    descarga fs e buffer =
      .ok ⟨OK, ⟨[FIN], [nombre_cancion e], []⟩,
        some (nombre_cancion e, b.take (b.length - 3)), true⟩ := by
  have hnn : nombre_cancion e ≠ [] := by
    intro k
    have := (nombre_cancion_length e hmax).1
    rw [k] at this
    simp at this
  have hl : (nombre_cancion e).length < BUFFER_SIZE := by
    have := (nombre_cancion_length e hmax).2
    unfold BUFFER_SIZE; omega
  obtain ⟨s1, e1, e2, _⟩ := servidor_envia fs (nombre_cancion e) b [] []
    (nombre_cancion_sin_nul e hmax) hnn hl (nombre_cancion_ne_FIN e hmax) hf
  have hc := cliente_trunca e b buffer (b.length + 1) [] [] he hmax (Nat.lt_succ_self _) hfiel
  unfold descarga
  rw [e1]
  simp only [e2, List.nil_append]
  exact hc

/-! ## Lemmas on the ordinal of a listing line -/

theorem digitChar_valor (m : Nat) (h : m < 10) : (Nat.digitChar m).toNat - 48 = m := by
  interval_cases m <;> decide

/-- The digits printed for `n` come before the accumulator, are not empty, and read
back as `n`. -/
theorem toDigitsCore_valor (fuel : Nat) :
    ∀ (n : Nat) (acc : List Char), n < fuel →
      ∃ pre : List Char, Nat.toDigitsCore 10 fuel n acc = pre ++ acc ∧ pre ≠ [] ∧
        (pre.map Char.toNat).foldl (fun a c => 10 * a + (c - 48)) 0 = n := by
  induction fuel with
  | zero => intro n acc h; simp at h
  | succ k ih =>
    intro n acc h
    have hd := digitChar_valor (n % 10) (Nat.mod_lt n (by decide))
    unfold Nat.toDigitsCore
    by_cases h0 : n / 10 = 0
    · refine ⟨[Nat.digitChar (n % 10)], by simp [h0], by simp, ?_⟩
      simp only [List.map_cons, List.map_nil, List.foldl_cons, List.foldl_nil, hd]
      omega
    · obtain ⟨pre, e1, _, e3⟩ := ih (n / 10) (Nat.digitChar (n % 10) :: acc) (by omega)
      refine ⟨pre ++ [Nat.digitChar (n % 10)], by simp [h0, e1], by simp, ?_⟩
      simp only [List.map_append, List.foldl_append, e3, List.map_cons, List.map_nil,
        List.foldl_cons, List.foldl_nil, hd]
      omega

theorem decimal_valor (n : Nat) :
    decimal n ≠ [] ∧ (decimal n).foldl (fun a c => 10 * a + (c - 48)) 0 = n := by
  have e : decimal n = (Nat.toDigits 10 n).map Char.toNat := by
    simp [decimal, Nat.repr, List.asString]
  obtain ⟨pre, e1, e2, e3⟩ := toDigitsCore_valor (n + 1) n [] (Nat.lt_succ_self n)
  have e4 : Nat.toDigits 10 n = pre := by
    simpa [Nat.toDigits] using e1
  rw [e, e4]
  exact ⟨by simpa using e2, e3⟩

/-- Different numbers print differently. -/
theorem decimal_inyectiva (j k : Nat) (h : decimal j = decimal k) : j = k := by
  have h1 := (decimal_valor j).2
  have h2 := (decimal_valor k).2
  rw [h] at h1
  omega

/-- A listing line is its ordinal in decimal, a blank and the rest. -/
theorem linea_listado_cabeza (k : Nat) (c : Cancion) :
    ∃ resto : List Nat, linea_listado k c = decimal k ++ 32 :: resto :=
  ⟨[45, 32] ++ c.titulo ++ SEP ++ c.artista ++ SEP ++ c.album ++ SEP ++ c.genero ++ SEP ++
    c.anio ++ [10], by simp [linea_listado, SEP, ascii]⟩

/-- The leading digits of a listing line are its ordinal. -/
theorem linea_listado_ordinal (k : Nat) (c : Cancion) :
    (linea_listado k c).takeWhile isdigit = decimal k := by
  obtain ⟨resto, e⟩ := linea_listado_cabeza k c
  rw [e]
  exact takeWhile_hasta isdigit (decimal k) 32 resto
    (fun b hb => by have := decimal_digitos k b hb; simp [isdigit, this]) (by decide)

theorem linea_listado_inyectiva (j k : Nat) (c1 c2 : Cancion)
    (h : linea_listado j c1 = linea_listado k c2) : j = k := by
  have h1 := linea_listado_ordinal j c1
  rw [h, linea_listado_ordinal k c2] at h1
  exact decimal_inyectiva j k h1.symm

/-- The form of a listing line: it begins with a decimal digit and ends with a newline,
so it differs from the sentinel. -/
theorem linea_listado_forma (k : Nat) (c : Cancion) :
    (∃ d r, linea_listado k c = d :: r ∧ isdigit d = true) ∧
    (linea_listado k c).getLast? = some 10 ∧ linea_listado k c ≠ FIN := by
  obtain ⟨resto, e⟩ := linea_listado_cabeza k c
  obtain ⟨d, ds, hd⟩ := List.exists_cons_of_ne_nil (decimal_valor k).1
  have hdig : isdigit d = true := by
    have := decimal_digitos k d (by rw [hd]; exact List.mem_cons_self d ds)
    simp [isdigit, this]
  have h1 : linea_listado k c = d :: (ds ++ 32 :: resto) := by rw [e, hd]; rfl
  refine ⟨⟨d, _, h1, hdig⟩, by simp [linea_listado], ?_⟩
  intro k1
  rw [h1, FIN_eq] at k1
  have : d = 70 := by injection k1
  rw [this] at hdig
  exact absurd hdig (by decide)

theorem lineas_desde_mem (cs : List Cancion) :
    ∀ (k : Nat) (l : List Nat), l ∈ lineas_desde k cs →
      ∃ j c, k ≤ j ∧ c ∈ cs ∧ l = linea_listado j c := by
  induction cs with
  | nil => intro k l h; simp [lineas_desde] at h
  | cons c cs ih =>
    intro k l h
    simp only [lineas_desde, List.mem_cons] at h
    rcases h with h | h
    · exact ⟨k, c, Nat.le_refl k, List.mem_cons_self c cs, h⟩
    · obtain ⟨j, c1, h1, h2, h3⟩ := ih (k + 1) l h
      exact ⟨j, c1, by omega, List.mem_cons_of_mem c h2, h3⟩

theorem filtradas_desde_mem (filtro : List Nat) (sector : Nat) (cs : List Cancion) :
    ∀ (k : Nat) (l : List Nat), l ∈ filtradas_desde filtro sector k cs →
      ∃ j c, k ≤ j ∧ c ∈ cs ∧ l = linea_listado j c := by
  induction cs with
  | nil => intro k l h; simp [filtradas_desde] at h
  | cons c cs ih =>
    intro k l h
    unfold filtradas_desde at h
    split at h
    · simp only [List.mem_cons] at h
      rcases h with h | h
      · exact ⟨k, c, Nat.le_refl k, List.mem_cons_self c cs, h⟩
      · obtain ⟨j, c1, h1, h2, h3⟩ := ih (k + 1) l h
        exact ⟨j, c1, by omega, List.mem_cons_of_mem c h2, h3⟩
    · obtain ⟨j, c1, h1, h2, h3⟩ := ih (k + 1) l h
      exact ⟨j, c1, by omega, List.mem_cons_of_mem c h2, h3⟩

/-- The lines of one listing are pairwise distinct. -/
theorem lineas_desde_nodup (cs : List Cancion) : ∀ k : Nat, (lineas_desde k cs).Nodup := by
  induction cs with
  | nil => intro k; simp [lineas_desde]
  | cons c cs ih =>
    intro k
    simp only [lineas_desde, List.nodup_cons]
    refine ⟨?_, ih (k + 1)⟩
    intro h
    obtain ⟨j, c1, h1, _, h3⟩ := lineas_desde_mem cs (k + 1) _ h
    have := linea_listado_inyectiva k j c c1 h3
    omega

/-- When every record matches the filter, the filtered listing is the full listing. -/
theorem filtradas_desde_todas (filtro : List Nat) (sector : Nat) (cs : List Cancion) :
    ∀ k : Nat, (∀ c ∈ cs, verificar (campo c sector) filtro = OK) →
      filtradas_desde filtro sector k cs = lineas_desde k cs := by
  induction cs with
  | nil => intro k _; rfl
  | cons c cs ih =>
    intro k h
    have hc := (verificar_OK_iff _ _).1 (h c (List.mem_cons_self c cs))
    simp only [filtradas_desde, lineas_desde, hc, if_true]
    rw [ih (k + 1) (fun x hx => h x (List.mem_cons_of_mem c hx))]

/-! ## Lemmas on the parsing of the handshake message -/

theorem strspn_repetido (d i c : Nat) (r : List Nat) (hd : d ≠ 0) (hc : c = 0 ∨ c ≠ d) :
    strspn (List.replicate i d ++ c :: r) [d] = i := by
  unfold strspn
  rw [takeWhile_hasta _ (List.replicate i d) c r]
  · simp
  · intro b hb
    have := List.eq_of_mem_replicate hb
    simp [this, hd]
  · rcases hc with hc | hc
    · simp [hc]
    · simp [hc]

/-- The call `strtok` skips the delimiters before a token; the token is followed by a
delimiter, which is overwritten. -/
theorem strtok_salta (d : Nat) (pre : List Nat) (i : Nat) (campo post : List Nat)
    (hd : d ≠ 0) (hne : campo ≠ []) (h : ∀ b ∈ campo, b ≠ 0 ∧ b ≠ d) :
    strtok (pre ++ (List.replicate i d ++ (campo ++ d :: post))) pre.length [d] =
      (some (pre.length + i), pre ++ (List.replicate i d ++ (campo ++ 0 :: post)),
        pre.length + i + campo.length + 1) := by
  obtain ⟨c, cs, rfl⟩ := List.exists_cons_of_ne_nil hne
  have hc := h c (List.mem_cons_self c cs)
  have h1 : strspn ((pre ++ (List.replicate i d ++ (c :: cs ++ d :: post))).drop pre.length) [d]
      = i := by
    rw [drop_medio]; exact strspn_repetido d i c _ hd (Or.inr hc.2)
  have e : pre ++ (List.replicate i d ++ (c :: cs ++ d :: post)) =
      (pre ++ List.replicate i d) ++ (c :: cs ++ d :: post) := by simp
  have hl : (pre ++ List.replicate i d).length = pre.length + i := by simp
  have h2 : strcspn ((pre ++ (List.replicate i d ++ (c :: cs ++ d :: post))).drop
      (pre.length + i)) [d] = (c :: cs).length := by
    rw [e, ← hl, drop_medio]
    exact strcspn_hasta (c :: cs) d post [d] (fun b hb => by simpa using h b hb)
      (Or.inr (by simp))
  have h3 : (pre ++ (List.replicate i d ++ (c :: cs ++ d :: post))).getD (pre.length + i) 0
      = c := by
    rw [e, ← hl]
    simpa using getD_medio (pre ++ List.replicate i d) c (cs ++ d :: post)
  have e2 : pre ++ (List.replicate i d ++ (c :: cs ++ d :: post)) =
      (pre ++ List.replicate i d ++ c :: cs) ++ d :: post := by simp
  have hl2 : (pre ++ List.replicate i d ++ c :: cs).length = pre.length + i + (c :: cs).length := by
    simp; omega
  have h4 : (pre ++ (List.replicate i d ++ (c :: cs ++ d :: post))).getD
      (pre.length + i + (c :: cs).length) 0 = d := by
    rw [e2, ← hl2]
    exact getD_medio _ d post
  have h5 : (pre ++ (List.replicate i d ++ (c :: cs ++ d :: post))).set
      (pre.length + i + (c :: cs).length) 0
      = pre ++ (List.replicate i d ++ (c :: cs ++ 0 :: post)) := by
    rw [e2, ← hl2, set_medio]
    simp
  unfold strtok
  simp only [h1, h3, h2, h4, h5]
  simp [hc.1, hd]

/-- The call `strtok` skips the delimiters before a token; the token is ended by the
NUL of the string. -/
theorem strtok_salta_final (d : Nat) (pre : List Nat) (i : Nat) (campo post : List Nat)
    (hd : d ≠ 0) (hne : campo ≠ []) (h : ∀ b ∈ campo, b ≠ 0 ∧ b ≠ d) :
    strtok (pre ++ (List.replicate i d ++ (campo ++ 0 :: post))) pre.length [d] =
      (some (pre.length + i), pre ++ (List.replicate i d ++ (campo ++ 0 :: post)),
        pre.length + i + campo.length) := by
  obtain ⟨c, cs, rfl⟩ := List.exists_cons_of_ne_nil hne
  have hc := h c (List.mem_cons_self c cs)
  have h1 : strspn ((pre ++ (List.replicate i d ++ (c :: cs ++ 0 :: post))).drop pre.length) [d]
      = i := by
    rw [drop_medio]; exact strspn_repetido d i c _ hd (Or.inr hc.2)
  have e : pre ++ (List.replicate i d ++ (c :: cs ++ 0 :: post)) =
      (pre ++ List.replicate i d) ++ (c :: cs ++ 0 :: post) := by simp
  have hl : (pre ++ List.replicate i d).length = pre.length + i := by simp
  have h2 : strcspn ((pre ++ (List.replicate i d ++ (c :: cs ++ 0 :: post))).drop
      (pre.length + i)) [d] = (c :: cs).length := by
    rw [e, ← hl, drop_medio]
    exact strcspn_hasta (c :: cs) 0 post [d] (fun b hb => by simpa using h b hb) (Or.inl rfl)
  have h3 : (pre ++ (List.replicate i d ++ (c :: cs ++ 0 :: post))).getD (pre.length + i) 0
      = c := by
    rw [e, ← hl]
    simpa using getD_medio (pre ++ List.replicate i d) c (cs ++ 0 :: post)
  have e2 : pre ++ (List.replicate i d ++ (c :: cs ++ 0 :: post)) =
      (pre ++ List.replicate i d ++ c :: cs) ++ 0 :: post := by simp
  have hl2 : (pre ++ List.replicate i d ++ c :: cs).length = pre.length + i + (c :: cs).length := by
    simp; omega
  have h4 : (pre ++ (List.replicate i d ++ (c :: cs ++ 0 :: post))).getD
      (pre.length + i + (c :: cs).length) 0 = 0 := by
    rw [e2, ← hl2]
    exact getD_medio _ 0 post
  unfold strtok
  simp only [h1, h3, h2, h4]
  simp [hc.1]

/-- After the skipped delimiters, the token read back from the array. -/
theorem cadena_salta (d : Nat) (pre : List Nat) (i : Nat) (campo post : List Nat)
    (h : ∀ b ∈ campo, b ≠ 0) :
    cadena (pre ++ (List.replicate i d ++ (campo ++ 0 :: post))) (pre.length + i) = campo := by
  have e : pre ++ (List.replicate i d ++ (campo ++ 0 :: post)) =
      (pre ++ List.replicate i d) ++ (campo ++ 0 :: post) := by simp
  have hl : (pre ++ List.replicate i d).length = pre.length + i := by simp
  rw [e, ← hl]
  exact cadena_medio _ campo post h

/-- The parsing of a handshake message: the opcode text, then, each after at least one
`:`, the first two non-empty segments, which become the user name and the password. -/
theorem leer_solicitud_campos (op a b cola : List Nat) (i j : Nat)
    (hop : op ≠ []) (hop0 : ∀ x ∈ op, x ≠ 0 ∧ x ≠ 58)
    (ha : a ≠ []) (ha0 : ∀ x ∈ a, x ≠ 0 ∧ x ≠ 58) (hal : a.length ≤ 25)
    (hb : b ≠ []) (hb0 : ∀ x ∈ b, x ≠ 0 ∧ x ≠ 58) (hbl : b.length ≤ 25)
    (hcola : cola = [] ∨ ∃ t, cola = 58 :: t)
    (hlen : (op ++ 58 :: (List.replicate i 58 ++ (a ++ 58 :: (List.replicate j 58 ++
      (b ++ cola))))).length < BUFFER_SIZE) :
    leer_solicitud (op ++ 58 :: (List.replicate i 58 ++ (a ++ 58 :: (List.replicate j 58 ++
      (b ++ cola))))) = .ok (atoi op, ⟨a, b⟩) := by
  have h58 : (58 : Nat) ≠ 0 := by decide
  have hop1 : ∀ x ∈ op, x ≠ 0 := fun x hx => (hop0 x hx).1
  have ha1 : ∀ x ∈ a, x ≠ 0 := fun x hx => (ha0 x hx).1
  have hb1 : ∀ x ∈ b, x ≠ 0 := fun x hx => (hb0 x hx).1
  -- the array after the NUL is stored behind the message
  have e0 : (op ++ 58 :: (List.replicate i 58 ++ (a ++ 58 :: (List.replicate j 58 ++
      (b ++ cola))))) ++ [0] =
      [] ++ (List.replicate 0 58 ++ (op ++ 58 :: (List.replicate i 58 ++ (a ++ 58 ::
        (List.replicate j 58 ++ (b ++ (cola ++ [0]))))))) := by simp
  have t0 := strtok_salta 58 [] 0 op (List.replicate i 58 ++ (a ++ 58 ::
    (List.replicate j 58 ++ (b ++ (cola ++ [0]))))) h58 hop hop0
  have e1 : [] ++ (List.replicate 0 58 ++ (op ++ 0 :: (List.replicate i 58 ++ (a ++ 58 ::
      (List.replicate j 58 ++ (b ++ (cola ++ [0]))))))) =
      (op ++ [0]) ++ (List.replicate i 58 ++ (a ++ 58 :: (List.replicate j 58 ++
        (b ++ (cola ++ [0]))))) := by simp
  have g0 : op.length + 1 = (op ++ [0]).length := by simp
  rw [e1] at t0
  simp only [List.length_nil, Nat.add_zero, Nat.zero_add] at t0
  rw [g0] at t0
  have t1 := strtok_salta 58 (op ++ [0]) i a (List.replicate j 58 ++ (b ++ (cola ++ [0])))
    h58 ha ha0
  have c1 := cadena_salta 58 (op ++ [0]) i a (List.replicate j 58 ++ (b ++ (cola ++ [0]))) ha1
  have e2 : (op ++ [0]) ++ (List.replicate i 58 ++ (a ++ 0 :: (List.replicate j 58 ++
      (b ++ (cola ++ [0]))))) =
      (op ++ 0 :: (List.replicate i 58 ++ (a ++ [0]))) ++ (List.replicate j 58 ++
        (b ++ (cola ++ [0]))) := by simp
  have g1 : (op ++ [0]).length + i + a.length + 1 =
      (op ++ 0 :: (List.replicate i 58 ++ (a ++ [0]))).length := by
    simp; omega
  have hmem2 : ∃ (mem2 : List Nat) (g2 : Nat),
      strtok ((op ++ 0 :: (List.replicate i 58 ++ (a ++ [0]))) ++ (List.replicate j 58 ++
        (b ++ (cola ++ [0])))) (op ++ 0 :: (List.replicate i 58 ++ (a ++ [0]))).length [58] =
        (some ((op ++ 0 :: (List.replicate i 58 ++ (a ++ [0]))).length + j), mem2, g2) ∧
      cadena mem2 ((op ++ 0 :: (List.replicate i 58 ++ (a ++ [0]))).length + j) = b ∧
      cadena mem2 0 = op := by
    rcases hcola with hc | ⟨t, hc⟩
    · subst hc
      have t2 := strtok_salta_final 58 (op ++ 0 :: (List.replicate i 58 ++ (a ++ [0]))) j b []
        h58 hb hb0
      have c2 := cadena_salta 58 (op ++ 0 :: (List.replicate i 58 ++ (a ++ [0]))) j b [] hb1
      refine ⟨_, _, by simpa using t2, by simpa using c2, ?_⟩
      have := cadena_medio [] op (List.replicate i 58 ++ (a ++ [0]) ++
        (List.replicate j 58 ++ (b ++ [0]))) hop1
      simpa using this
    · subst hc
      have t2 := strtok_salta 58 (op ++ 0 :: (List.replicate i 58 ++ (a ++ [0]))) j b
        (t ++ [0]) h58 hb hb0
      have c2 := cadena_salta 58 (op ++ 0 :: (List.replicate i 58 ++ (a ++ [0]))) j b
        (t ++ [0]) hb1
      refine ⟨_, _, by simpa using t2, c2, ?_⟩
      have := cadena_medio [] op (List.replicate i 58 ++ (a ++ [0]) ++
        (List.replicate j 58 ++ (b ++ 0 :: (t ++ [0])))) hop1
      simpa using this
  obtain ⟨mem2, g2, t2, c2, c0⟩ := hmem2
  have hal1 : a.length < 26 := by omega
  have hbl1 : b.length < 26 := by omega
  unfold leer_solicitud
  rw [if_pos hlen, e0, t0]
  simp only [t1, copiar_campo, c1, hal1, if_true]
  rw [e2, g1]
  simp only [t2, c2, c0, hbl1, if_true]

theorem dropWhile_dos_puntos (s : List Nat) :
    ∃ j : Nat, s = List.replicate j 58 ++ s.dropWhile (fun x => decide (x = 58)) ∧
      (s.dropWhile (fun x => decide (x = 58)) = [] ∨
        ∃ y r, s.dropWhile (fun x => decide (x = 58)) = y :: r ∧ y ≠ 58) := by
  induction s with
  | nil => exact ⟨0, rfl, Or.inl rfl⟩
  | cons x s ih =>
    by_cases hx : x = 58
    · obtain ⟨j, e, h⟩ := ih
      refine ⟨j + 1, ?_, ?_⟩
      · simp only [List.dropWhile, hx, decide_True, List.replicate_succ, List.cons_append]
        rw [← e]
      · simpa [List.dropWhile, hx] using h
    · refine ⟨0, ?_, Or.inr ⟨x, s, ?_, hx⟩⟩
      · simp [List.dropWhile, hx]
      · simp [List.dropWhile, hx]

theorem takeWhile_segmento (r : List Nat) :
    ∃ cola : List Nat, r = r.takeWhile (fun x => decide (x ≠ 58)) ++ cola ∧
      (∀ x ∈ r.takeWhile (fun x => decide (x ≠ 58)), x ≠ 58) ∧
      (cola = [] ∨ ∃ t, cola = 58 :: t) := by
  induction r with
  | nil => exact ⟨[], rfl, by simp, Or.inl rfl⟩
  | cons x r ih =>
    by_cases hx : x = 58
    · refine ⟨x :: r, by simp [List.takeWhile, hx], by simp [List.takeWhile, hx],
        Or.inr ⟨r, by rw [hx]⟩⟩
    · obtain ⟨cola, e, h1, h2⟩ := ih
      refine ⟨cola, ?_, ?_, h2⟩
      · simp only [List.takeWhile, hx, ne_eq, not_false_eq_true, decide_True, List.cons_append]
        rw [← e]
      · intro y hy
        simp only [List.takeWhile, hx, ne_eq, not_false_eq_true, decide_True,
          List.mem_cons] at hy
        rcases hy with hy | hy
        · rw [hy]; exact hx
        · exact h1 y hy

/-- A text that holds a byte other than `:` is a run of `:`, its first segment, and a
rest that is empty or begins with `:`. -/
theorem segmentar (s : List Nat) (h : ∃ x ∈ s, x ≠ 58) :
    ∃ (j : Nat) (cola : List Nat), s = List.replicate j 58 ++ (primer_segmento s ++ cola) ∧
      primer_segmento s ≠ [] ∧ (∀ x ∈ primer_segmento s, x ≠ 58) ∧
      (cola = [] ∨ ∃ t, cola = 58 :: t) := by
  obtain ⟨j, e, hr⟩ := dropWhile_dos_puntos s
  obtain ⟨cola, e2, h1, h2⟩ := takeWhile_segmento (s.dropWhile (fun x => decide (x = 58)))
  refine ⟨j, cola, ?_, ?_, h1, h2⟩
  · unfold primer_segmento
    rw [← e2]
    exact e
  · rcases hr with hr | ⟨y, r, hr, hy⟩
    · obtain ⟨x, hx, hx58⟩ := h
      rw [e, hr] at hx
      simp at hx
      exact absurd hx.2 hx58
    · unfold primer_segmento
      rw [hr]
      simp [List.takeWhile, hy]

theorem length_primer_segmento (s : List Nat) : (primer_segmento s).length ≤ s.length := by
  unfold primer_segmento
  have h1 := (List.takeWhile_sublist (fun x => decide (x ≠ 58))
    (l := s.dropWhile (fun x => decide (x = 58)))).length_le
  have h2 := (List.dropWhile_sublist (fun x => decide (x = 58)) (l := s)).length_le
  omega

theorem takeWhile_corta (l r : List Nat) :
    (l ++ 58 :: r).takeWhile (fun x => decide (x ≠ 58)) =
      l.takeWhile (fun x => decide (x ≠ 58)) := by
  induction l with
  | nil => simp [List.takeWhile]
  | cons x l ih =>
    by_cases hx : x = 58
    · simp [List.takeWhile, hx]
    · simpa [List.takeWhile, hx] using ih

/-- The first segment of `t:p` lies within `t` or within `p`. -/
theorem length_segmento_compuesto (t p : List Nat) :
    (primer_segmento (t ++ 58 :: p)).length ≤ max t.length p.length := by
  induction t with
  | nil =>
    have h := length_primer_segmento p
    have e : primer_segmento ([] ++ 58 :: p) = primer_segmento p := by
      simp [primer_segmento, List.dropWhile]
    rw [e]
    simp
    omega
  | cons x t ih =>
    by_cases hx : x = 58
    · have e : primer_segmento (x :: t ++ 58 :: p) = primer_segmento (t ++ 58 :: p) := by
        simp [primer_segmento, List.dropWhile, hx]
      rw [e]
      simp only [List.length_cons]
      omega
    · have e : primer_segmento (x :: t ++ 58 :: p) =
          (x :: t).takeWhile (fun x => decide (x ≠ 58)) := by
        have := takeWhile_corta (x :: t) p
        simpa [primer_segmento, List.dropWhile, hx] using this
      rw [e]
      have := (List.takeWhile_sublist (fun x => decide (x ≠ 58)) (l := x :: t)).length_le
      omega

theorem decimal_int_uno : decimal_int 1 = [49] := by decide

theorem decimal_int_dos : decimal_int 2 = [50] := by decide

/-- The handshake message of the client for the opcodes 1 and 2 is not truncated. -/
theorem mensaje_cliente_eq (opcion : Int) (u p : List Nat) (hop : opcion = 1 ∨ opcion = 2)
    (hu : u.length ≤ 25) (hp : p.length ≤ 25) :
    mensaje_cliente opcion ⟨u, p⟩ = decimal_int opcion ++ 58 :: (u ++ 58 :: p) ∧
    (decimal_int opcion ++ 58 :: (u ++ 58 :: p)).length < BUFFER_SIZE ∧
    decimal_int opcion ≠ [] ∧ (∀ x ∈ decimal_int opcion, x ≠ 0 ∧ x ≠ 58) ∧
    atoi (decimal_int opcion) = opcion := by
  have hl : (decimal_int opcion ++ 58 :: (u ++ 58 :: p)).length < BUFFER_SIZE := by
    rcases hop with rfl | rfl
    · rw [decimal_int_uno]; simp [BUFFER_SIZE]; omega
    · rw [decimal_int_dos]; simp [BUFFER_SIZE]; omega
  refine ⟨?_, hl, ?_, ?_, ?_⟩
  · unfold mensaje_cliente
    exact snprintf_ok BUFFER_SIZE _ hl
  · rcases hop with rfl | rfl <;> decide
  · rcases hop with rfl | rfl <;> decide
  · rcases hop with rfl | rfl <;> decide

/-! # The claims -/

set_option maxRecDepth 1000000 in
/-- C1, as stated, fails: a source file of 1027 bytes that ends in `FIN` is not the
sentinel, yet its last chunk is taken for the sentinel and the local copy holds only
the first 1024 bytes. -/
theorem descarga_trunca_ultimo_bloque :
    List.replicate 1024 0 ++ FIN ≠ FIN ∧
    descarga (un_archivo (ascii "7.mp3") (List.replicate 1024 0 ++ FIN)) 7
        (List.replicate 1024 0) =
      .ok ⟨OK, ⟨[FIN], [ascii "7.mp3"], []⟩, some (ascii "7.mp3", List.replicate 1024 0), true⟩ ∧
    List.replicate 1024 0 ≠ List.replicate 1024 0 ++ FIN := by
  decide

/-- C1 (amended): for every existing, openable source file whose last chunk is not the
sentinel (not both: length congruent to 3 modulo 1024 and last three bytes `FIN`), when
the server streams it and the client receives each sent message as one read, the bytes
the client writes to its local file are the bytes of the source file, the sentinel is
consumed and not written, and the client returns OK. -/
theorem descarga_copia_identica (fs : List Nat → Archivo) (eleccion : Int)
    (b buffer : List Nat) (he : 0 < eleccion) (hmax : eleccion.toNat ≤ INT_MAX)
    (hf : fs (nombre_cancion eleccion) = .contenido b) (hfiel : copia_fiel b) :
    descarga fs eleccion buffer =
      .ok ⟨OK, ⟨[], [nombre_cancion eleccion], []⟩, some (nombre_cancion eleccion, b), true⟩ :=
  descarga_ok fs eleccion b buffer he hmax hf hfiel

/-- Witness of C1 (amended): track 7 holding the five bytes `FINAL`. -/
theorem descarga_copia_identica_witness :
    descarga (un_archivo (ascii "7.mp3") (ascii "FINAL")) 7 [] =
      .ok ⟨OK, ⟨[], [nombre_cancion 7], []⟩, some (nombre_cancion 7, ascii "FINAL"), true⟩ :=
  descarga_copia_identica (un_archivo (ascii "7.mp3") (ascii "FINAL")) 7 (ascii "FINAL") []
    (by decide) (by decide) (by decide) (by decide)

/-- C2: for a source file whose content is exactly `FIN`, the server sends `OK`, the
chunk `FIN` and the sentinel `FIN`; the client takes the data chunk for the sentinel,
writes no byte to the local file, reports the download finished and returns OK, and the
real sentinel stays unread on the socket. -/
theorem descarga_de_FIN (fs : List Nat → Archivo) (eleccion : Int) (buffer : List Nat)
    (he : 0 < eleccion) (hmax : eleccion.toNat ≤ INT_MAX)
    (hf : fs (nombre_cancion eleccion) = .contenido FIN) :
    (∃ s1, escuchar_cancion_servidor fs ⟨[nombre_cancion eleccion], [], []⟩ = .ok (OK, s1) ∧
      s1.salida = [ascii "OK", FIN, FIN]) ∧
    descarga fs eleccion buffer =
      .ok ⟨OK, ⟨[FIN], [nombre_cancion eleccion], []⟩, some (nombre_cancion eleccion, []),
        true⟩ := by
  have hnn : nombre_cancion eleccion ≠ [] := by
    intro k
    have := (nombre_cancion_length eleccion hmax).1
    rw [k] at this
    simp at this
  have hl : (nombre_cancion eleccion).length < BUFFER_SIZE := by
    have := (nombre_cancion_length eleccion hmax).2
    unfold BUFFER_SIZE; omega
  obtain ⟨s1, e1, e2, _⟩ := servidor_envia fs (nombre_cancion eleccion) FIN [] []
    (nombre_cancion_sin_nul eleccion hmax) hnn hl (nombre_cancion_ne_FIN eleccion hmax) hf
  have ht : trozos (FIN.length + 1) FIN = [FIN] := by decide
  have e3 : s1.salida = [ascii "OK", FIN, FIN] := by rw [e2, ht]; rfl
  have hc := cliente_recibe eleccion [] buffer 1 [FIN] [] he hmax (by decide) (by decide)
  refine ⟨⟨s1, e1, e3⟩, ?_⟩
  unfold descarga
  rw [e1]
  simp only [e3]
  exact hc

/-- Witness of C2: track 7 holding exactly `FIN`. -/
theorem descarga_de_FIN_witness :
    (∃ s1, escuchar_cancion_servidor (un_archivo (ascii "7.mp3") FIN)
        ⟨[nombre_cancion 7], [], []⟩ = .ok (OK, s1) ∧ s1.salida = [ascii "OK", FIN, FIN]) ∧
    descarga (un_archivo (ascii "7.mp3") FIN) 7 [] =
      .ok ⟨OK, ⟨[FIN], [nombre_cancion 7], []⟩, some (nombre_cancion 7, []), true⟩ :=
  descarga_de_FIN (un_archivo (ascii "7.mp3") FIN) 7 [] (by decide) (by decide) (by decide)

theorem verificar_OK_iff_posiciones (dato : List Nat) :
    ∀ filtro : List Nat, verificar dato filtro = OK ↔
      dato.length = filtro.length ∧
        ∀ i, i < dato.length → tolower (dato.getD i 0) = tolower (filtro.getD i 0) := by
  induction dato with
  | nil =>
    intro filtro
    cases filtro with
    | nil => simp [verificar]
    | cons f fs => simp [verificar, OK, ERROR]
  | cons d ds ih =>
    intro filtro
    cases filtro with
    | nil => simp [verificar, OK, ERROR]
    | cons f fs =>
      by_cases h : tolower d = tolower f
      · simp only [verificar, h, ne_eq, not_true_eq_false, if_false, ih fs, List.length_cons,
          Nat.add_right_cancel_iff]
        constructor
        · rintro ⟨hl, hp⟩
          refine ⟨hl, ?_⟩
          intro i hi
          cases i with
          | zero => simpa using h
          | succ j => simpa using hp j (by omega)
        · rintro ⟨hl, hp⟩
          refine ⟨hl, ?_⟩
          intro i hi
          simpa using hp (i + 1) (by omega)
      · simp only [verificar, h, ne_eq, not_false_eq_true, if_true]
        constructor
        · intro k; simp [OK, ERROR] at k
        · rintro ⟨_, hp⟩
          exact absurd (by simpa using hp 0 (by simp)) h

/-- C3: `verificar(dato, filtro)` returns OK (0) if and only if the two strings have
the same length and agree at every position after lower-casing; otherwise it returns
ERROR (-1). When one string is a proper prefix of the other the result is ERROR. -/
theorem verificar_igualdad_completa (dato filtro : List Nat) :
    (verificar dato filtro = OK ↔
      dato.length = filtro.length ∧
        ∀ i, i < dato.length → tolower (dato.getD i 0) = tolower (filtro.getD i 0)) ∧
    (verificar dato filtro ≠ OK → verificar dato filtro = ERROR) ∧
    (∀ x xs, verificar dato (dato ++ x :: xs) = ERROR ∧
      verificar (dato ++ x :: xs) dato = ERROR) ∧
    OK = 0 ∧ ERROR = -1 := by
  refine ⟨verificar_OK_iff_posiciones dato filtro, ?_, ?_, rfl, rfl⟩
  · intro h
    rcases verificar_valores dato filtro with k | k
    · exact absurd k h
    · exact k
  · intro x xs
    constructor
    · rcases verificar_valores dato (dato ++ x :: xs) with k | k
      · have := ((verificar_OK_iff_posiciones dato _).1 k).1
        simp at this
      · exact k
    · rcases verificar_valores (dato ++ x :: xs) dato with k | k
      · have := ((verificar_OK_iff_posiciones _ dato).1 k).1
        simp at this
      · exact k

/-- C4: for every catalog of well-formed lines and every filter text (a non-empty C
string that fits the array `filtro`), the filter exchange emits, in catalog order, one
line for each record whose selected column equals the filter text up to case and no
other line, then the sentinel; the selected column is the artist (index 1) for filter
kind 1 and the genre (index 3) for filter kind 2. -/
theorem filtrar_emite_coincidencias (media : List Nat) (cs : List Cancion)
    (filtro : List Nat) (tipo : Nat) (r sal : List (List Nat)) (fa : List Bool)
    (ht : tipo = 1 ∨ tipo = 2) (hm : es_catalogo media cs) (hv : ∀ c ∈ cs, cancion_valida c) (hn : cs.length < INT_MAX)
    (hf0 : filtro ≠ []) (hfl : filtro.length < FILTRO_MAX) (hfz : ∀ b ∈ filtro, b ≠ 0)
    (hfa : ∀ b ∈ fa, b = false) :
    ∃ s1, menu_filtrar_servidor (some media) ⟨decimal tipo :: filtro :: r, sal, fa⟩ =
        .ok (OK, s1) ∧
      s1.salida = sal ++ filtradas_desde filtro (if tipo = 1 then 1 else 3) 1 cs ++ [FIN] ∧
      s1.entrada = r ∧
      (∀ c : Cancion, campo c 1 = c.artista ∧ campo c 3 = c.genero) := by
  rcases ht with rfl | rfl
  · obtain ⟨s1, e1, e2, e3⟩ := filtrar_servidor_ok media cs filtro ARTISTA r sal fa (by decide)
      hm hv hn hf0 hfl hfz hfa
    refine ⟨s1, ?_, ?_, e3, fun c => ⟨rfl, rfl⟩⟩
    · rw [menu_filtrar_servidor_artista]; exact e1
    · rw [e2]; rfl
  · obtain ⟨s1, e1, e2, e3⟩ := filtrar_servidor_ok media cs filtro GENERO r sal fa (by decide)
      hm hv hn hf0 hfl hfz hfa
    refine ⟨s1, ?_, ?_, e3, fun c => ⟨rfl, rfl⟩⟩
    · rw [menu_filtrar_servidor_genero]; exact e1
    · rw [e2]; rfl

/-- Witness of C4: filtering the example catalog by genre `Rock` emits the record with
genre `rock` and not the record with genre `Rock n Roll`. -/
theorem filtrar_emite_coincidencias_witness :
    (∃ s1, menu_filtrar_servidor (some (archivo_csv catalogo_ejemplo))
        ⟨decimal 2 :: ascii "Rock" :: [], [], []⟩ = .ok (OK, s1) ∧
      s1.salida = [] ++ filtradas_desde (ascii "Rock") (if 2 = 1 then 1 else 3) 1
        catalogo_ejemplo ++ [FIN] ∧
      s1.entrada = [] ∧
      (∀ c : Cancion, campo c 1 = c.artista ∧ campo c 3 = c.genero)) ∧
    filtradas_desde (ascii "Rock") 3 1 catalogo_ejemplo =
      [linea_listado 2 ⟨ascii "Dos", ascii "Beto", ascii "Beta", ascii "rock", ascii "2001"⟩] :=
  ⟨filtrar_emite_coincidencias (archivo_csv catalogo_ejemplo) catalogo_ejemplo (ascii "Rock") 2
    [] [] [] (by decide) (es_catalogo_cerrado catalogo_ejemplo) (by decide) (by decide)
    (by decide) (by decide) (by decide) (by decide), by decide⟩

/-- C5: for every catalog of well-formed lines, each line emitted by `filtrar_servidor`
is the line that `listar_servidor` sends for the same record, so it carries the 1-based
position of the record in the full catalog; the ordinals of the emitted lines are
strictly increasing. -/
theorem filtrar_numera_por_catalogo (media : List Nat) (cs : List Cancion)
    (filtro : List Nat) (sector : Nat) (r sal : List (List Nat)) (fa : List Bool)
    (hsec : sector = ARTISTA ∨ sector = GENERO) (hm : es_catalogo media cs)
    (hv : ∀ c ∈ cs, cancion_valida c) (hn : cs.length < INT_MAX)
    (hf0 : filtro ≠ []) (hfl : filtro.length < FILTRO_MAX) (hfz : ∀ b ∈ filtro, b ≠ 0)
    (hfa : ∀ b ∈ fa, b = false) :
    ∃ (sf sl : Socket) (ks : List Nat),
      filtrar_servidor (some media) ⟨filtro :: r, sal, fa⟩ sector = .ok (OK, sf) ∧
      listar_servidor (some media) ⟨[], [], []⟩ = .ok (OK, sl) ∧
      sf.salida = sal ++ ks.map (fun k => sl.salida.getD (k - 1) []) ++ [FIN] ∧
      ks.Pairwise (fun a b => a < b) ∧
      ∀ k ∈ ks, 1 ≤ k ∧ k ≤ cs.length ∧
        ∃ c, cs.get? (k - 1) = some c ∧ sl.salida.getD (k - 1) [] = linea_listado k c ∧
          (campo c sector).map tolower = filtro.map tolower := by
  have hs4 : sector ≤ 4 := by
    rcases hsec with h | h <;> rw [h] <;> decide
  obtain ⟨sf, f1, f2, _⟩ := filtrar_servidor_ok media cs filtro sector r sal fa hs4 hm hv hn hf0
    hfl hfz hfa
  obtain ⟨sl, l1, l2, _⟩ := listar_servidor_ok media cs [] [] [] hm hv hn (by simp)
  obtain ⟨hp, hk⟩ := ordinales_props filtro sector cs 1
  have hget : ∀ k ∈ ordinales filtro sector 1 cs,
      sl.salida.getD (k - 1) [] = (lineas_desde 1 cs).getD (k - 1) [] := by
    intro k hk1
    obtain ⟨a, b, _⟩ := hk k hk1
    have hlt : k - 1 < (lineas_desde 1 cs).length := by
      rw [length_lineas_desde]; omega
    rw [l2]
    simp [List.getD_eq_getElem?_getD, List.getElem?_append_left hlt]
  refine ⟨sf, sl, ordinales filtro sector 1 cs, f1, l1, ?_, hp, ?_⟩
  · rw [f2, filtradas_desde_eq]
    congr 2
    apply List.map_congr_left
    intro k hk1
    exact (hget k hk1).symm
  · intro k hk1
    obtain ⟨a, b, c, hc, hm⟩ := hk k hk1
    refine ⟨a, by omega, c, hc, ?_, hm⟩
    rw [hget k hk1]
    have := lineas_desde_get cs 1 (k - 1) c hc
    have e : 1 + (k - 1) = k := by omega
    rw [e] at this
    simp [List.getD_eq_getElem?_getD, ← List.get?_eq_getElem?, this]

/-- Witness of C5: the only record of the example catalog with genre `Rock` up to case
is the second one, and its line carries the ordinal 2. -/
theorem filtrar_numera_por_catalogo_witness :
    (∃ (sf sl : Socket) (ks : List Nat),
      filtrar_servidor (some (archivo_csv catalogo_ejemplo)) ⟨ascii "Rock" :: [], [], []⟩ GENERO =
        .ok (OK, sf) ∧
      listar_servidor (some (archivo_csv catalogo_ejemplo)) ⟨[], [], []⟩ = .ok (OK, sl) ∧
      sf.salida = [] ++ ks.map (fun k => sl.salida.getD (k - 1) []) ++ [FIN] ∧
      ks.Pairwise (fun a b => a < b) ∧
      ∀ k ∈ ks, 1 ≤ k ∧ k ≤ catalogo_ejemplo.length ∧
        ∃ c, catalogo_ejemplo.get? (k - 1) = some c ∧
          sl.salida.getD (k - 1) [] = linea_listado k c ∧
          (campo c GENERO).map tolower = (ascii "Rock").map tolower) ∧
    ordinales (ascii "Rock") GENERO 1 catalogo_ejemplo = [2] :=
  ⟨filtrar_numera_por_catalogo (archivo_csv catalogo_ejemplo) catalogo_ejemplo (ascii "Rock")
    GENERO [] [] [] (Or.inr rfl) (es_catalogo_cerrado catalogo_ejemplo) (by decide) (by decide)
    (by decide) (by decide) (by decide) (by decide), by decide⟩

/-- C6: for every catalog of N well-formed records, with every send succeeding,
`listar_servidor` returns OK after sending exactly N + 1 messages: N record lines and
then the sentinel `FIN`; the k-th line begins with the decimal ordinal k and the
separator. -/
theorem listar_envia_lineas_y_FIN (media : List Nat) (cs : List Cancion)
    (en sal : List (List Nat)) (fa : List Bool) (hm : es_catalogo media cs)
    (hv : ∀ c ∈ cs, cancion_valida c) (hn : cs.length < INT_MAX)
    (hfa : ∀ b ∈ fa, b = false) :
    ∃ s1 lineas, listar_servidor (some media) ⟨en, sal, fa⟩ = .ok (OK, s1) ∧
      s1.salida = sal ++ lineas ++ [FIN] ∧ lineas.length = cs.length ∧
      s1.salida.length = sal.length + cs.length + 1 ∧
      ∀ k, 1 ≤ k → k ≤ cs.length →
        List.IsPrefix (decimal k ++ SEP) (lineas.getD (k - 1) []) := by
  obtain ⟨s1, e1, e2, _⟩ := listar_servidor_ok media cs en sal fa hm hv hn hfa
  refine ⟨s1, lineas_desde 1 cs, e1, e2, length_lineas_desde 1 cs, ?_, ?_⟩
  · rw [e2]; simp [length_lineas_desde]; omega
  · intro k h1 h2
    have hlt : k - 1 < cs.length := by omega
    have hc : cs.get? (k - 1) = some (cs.get ⟨k - 1, hlt⟩) := List.get?_eq_get hlt
    have := lineas_desde_get cs 1 (k - 1) _ hc
    have e : 1 + (k - 1) = k := by omega
    rw [e] at this
    have hg : (lineas_desde 1 cs).getD (k - 1) [] = linea_listado k (cs.get ⟨k - 1, hlt⟩) := by
      simp [List.getD_eq_getElem?_getD, ← List.get?_eq_getElem?, this]
    rw [hg]
    generalize cs.get ⟨k - 1, hlt⟩ = c
    exact ⟨c.titulo ++ SEP ++ c.artista ++ SEP ++ c.album ++ SEP ++ c.genero ++ SEP ++ c.anio ++
      [10], by simp [linea_listado, List.append_assoc]⟩

/-- Witness of C6: the listing of the example catalog. -/
theorem listar_envia_lineas_y_FIN_witness :
    ∃ s1 lineas, listar_servidor (some (archivo_csv catalogo_ejemplo)) ⟨[], [], []⟩ =
        .ok (OK, s1) ∧
      s1.salida = [] ++ lineas ++ [FIN] ∧ lineas.length = catalogo_ejemplo.length ∧
      s1.salida.length = ([] : List (List Nat)).length + catalogo_ejemplo.length + 1 ∧
      ∀ k, 1 ≤ k → k ≤ catalogo_ejemplo.length →
        List.IsPrefix (decimal k ++ SEP) (lineas.getD (k - 1) []) :=
  listar_envia_lineas_y_FIN (archivo_csv catalogo_ejemplo) catalogo_ejemplo [] [] []
    (es_catalogo_cerrado catalogo_ejemplo) (by decide) (by decide) (by decide)

/-- C7: for every well-formed catalog line with columns title, artist, album, genre,
year at position k (counted from 1), the message `listar_servidor` sends for it is the
decimal rendering of k and the five columns in that order, joined by `" - "`, and one
newline. -/
theorem listar_formato_de_linea (media : List Nat) (cs : List Cancion)
    (en sal : List (List Nat)) (fa : List Bool) (hm : es_catalogo media cs)
    (hv : ∀ c ∈ cs, cancion_valida c) (hn : cs.length < INT_MAX)
    (hfa : ∀ b ∈ fa, b = false) :
    ∃ s1, listar_servidor (some media) ⟨en, sal, fa⟩ = .ok (OK, s1) ∧
      ∀ (i : Nat) (c : Cancion), cs.get? i = some c →
        s1.salida.get? (sal.length + i) =
          some (decimal (i + 1) ++ ascii " - " ++ c.titulo ++ ascii " - " ++ c.artista ++
            ascii " - " ++ c.album ++ ascii " - " ++ c.genero ++ ascii " - " ++ c.anio ++
            [10]) := by
  obtain ⟨s1, e1, e2, _⟩ := listar_servidor_ok media cs en sal fa hm hv hn hfa
  refine ⟨s1, e1, ?_⟩
  intro i c hc
  have h := lineas_desde_get cs 1 i c hc
  have e : 1 + i = i + 1 := by omega
  rw [e] at h
  have hlt : i < (lineas_desde 1 cs).length := by
    rw [length_lineas_desde]
    exact (List.get?_eq_some.1 hc).1
  rw [e2, List.append_assoc]
  simp only [List.get?_eq_getElem?] at h ⊢
  rw [List.getElem?_append_right (by omega)]
  simp only [Nat.add_sub_cancel_left]
  rw [List.getElem?_append_left hlt, h]
  rfl

/-- Witness of C7: the listing of the example catalog. -/
theorem listar_formato_de_linea_witness :
    ∃ s1, listar_servidor (some (archivo_csv catalogo_ejemplo)) ⟨[], [], []⟩ = .ok (OK, s1) ∧
      ∀ (i : Nat) (c : Cancion), catalogo_ejemplo.get? i = some c →
        s1.salida.get? (([] : List (List Nat)).length + i) =
          some (decimal (i + 1) ++ ascii " - " ++ c.titulo ++ ascii " - " ++ c.artista ++
            ascii " - " ++ c.album ++ ascii " - " ++ c.genero ++ ascii " - " ++ c.anio ++
            [10]) :=
  listar_formato_de_linea (archivo_csv catalogo_ejemplo) catalogo_ejemplo [] [] []
    (es_catalogo_cerrado catalogo_ejemplo) (by decide) (by decide) (by decide)

/-- C8 at failing inputs: a line with fewer than five columns does not make the scan
return ERROR. `listar_servidor` hands the NULL token to `strcat` (undefined behaviour);
`filtrar_servidor` returns OK and either emits a line built from the pointers left by
the previous line or skips the short line without a word. -/
theorem linea_corta_no_devuelve_ERROR :
    listar_servidor (some (ascii "a,b,c,d" ++ [10])) ⟨[], [], []⟩ = .error .indefinido ∧
    filtrar_servidor (some (ascii "T,A,B,G,Y" ++ [10] ++ ascii "x,y" ++ [10]))
        ⟨[ascii "G"], [], []⟩ GENERO =
      .ok (OK, ⟨[], [ascii "1 - T - A - B - G - Y" ++ [10],
        ascii "2 - x - y -  - G - Y" ++ [10], FIN], []⟩) ∧
    filtrar_servidor (some (ascii "x,y" ++ [10])) ⟨[ascii "q"], [], []⟩ ARTISTA =
      .ok (OK, ⟨[], [FIN], []⟩) := by
  decide

theorem validar_inicio_bucle_encuentra (u p : List Nat) (regs : List Cuenta) :
    ∀ k : Nat, (∃ c ∈ regs, c.usuario = u ∧ c.contrasenia = p) →
      validar_inicio_bucle .ninguno u p k regs = EXITO := by
  induction regs with
  | nil => intro k h; simp at h
  | cons d ds ih =>
    intro k h
    by_cases hd : d.usuario = u ∧ d.contrasenia = p
    · simp [validar_inicio_bucle, hd]
    · have : ∃ c ∈ ds, c.usuario = u ∧ c.contrasenia = p := by
        obtain ⟨c, hc, hm⟩ := h
        rcases List.mem_cons.1 hc with rfl | hc
        · exact absurd hm hd
        · exact ⟨c, hc, hm⟩
      simp [validar_inicio_bucle, hd, ih (k + 1) this]

theorem validar_inicio_bucle_no_encuentra (u p : List Nat) (regs : List Cuenta) :
    ∀ k : Nat, (∀ c ∈ regs, ¬ (c.usuario = u ∧ c.contrasenia = p)) →
      validar_inicio_bucle .ninguno u p k regs = ERROR_USUARIO_USUARIOS := by
  induction regs with
  | nil => intro k _; simp [validar_inicio_bucle]
  | cons d ds ih =>
    intro k h
    have hd := h d (List.mem_cons_self d ds)
    have hds : ∀ c ∈ ds, ¬ (c.usuario = u ∧ c.contrasenia = p) :=
      fun c hc => h c (List.mem_cons_of_mem d hc)
    simp [validar_inicio_bucle, hd, ih (k + 1) hds]

/-- A login on a store none of whose records has the user name does not succeed. -/
theorem validar_inicio_sin_nombre (db : Option (List Cuenta)) (u p : List Nat)
    (h : ∀ c ∈ registros db, c.usuario ≠ u) : validar_inicio .ninguno db u p ≠ EXITO := by
  have h1 : ERROR_MEMORIA_USUARIOS ≠ EXITO := by decide
  have h2 : ERROR_VACIO_USUARIOS ≠ EXITO := by decide
  have h3 : ERROR_USUARIO_USUARIOS ≠ EXITO := by decide
  cases db with
  | none => exact h1
  | some regs =>
    cases regs with
    | nil => exact h2
    | cons d ds =>
      have hb := validar_inicio_bucle_no_encuentra u p (d :: ds) 1
        (fun c hc k => h c hc k.1)
      unfold validar_inicio
      simp only [hb]
      exact h3

/-- C9, against the code: `guardar_cuenta` checks `fwrite` but not `fclose`. When the
write error comes up at `fclose`, a registration accepted by `validar_registro` is
answered with the success token (`guardar_cuenta` returns OK) although the record is
not in the store, and `validar_inicio(u, p)` on the resulting store does not return
EXITO: `ana` registers in a missing store and, on the next connection, her login gets
the empty-store token. When the record reaches the file, the login returns EXITO. -/
theorem registro_sin_guardar_luego_inicio :
    (∀ (es1 : FalloES) (db : Option (List Cuenta)) (u p : List Nat),
      (validar_registro es1 db u).1 = EXITO →
      (guardar_cuenta .cierre (validar_registro es1 db u).2 ⟨u, p⟩).1 = OK ∧
      registros (guardar_cuenta .cierre (validar_registro es1 db u).2 ⟨u, p⟩).2 =
        registros db ∧
      validar_inicio .ninguno (guardar_cuenta .cierre (validar_registro es1 db u).2 ⟨u, p⟩).2
        u p ≠ EXITO) ∧
    conexion none (fun _ => .inexistente) [(.ninguno, .cierre)] none
        ⟨[ascii "2:ana:clave"], [], []⟩ =
      ⟨[⟨some [], true, .ok (SALIR, ⟨[], [EXITO], []⟩, [])⟩], some [],
        .ok ⟨[], [EXITO], []⟩⟩ ∧
    conexion none (fun _ => .inexistente) [] (some []) ⟨[ascii "1:ana:clave"], [], []⟩ =
      ⟨[⟨some [], false, .ok (OK, ⟨[], [ERROR_VACIO_USUARIOS], []⟩, [])⟩], some [],
        .ok ⟨[], [ERROR_VACIO_USUARIOS], []⟩⟩ ∧
    ERROR_VACIO_USUARIOS ≠ EXITO ∧
    (∀ (db db1 db2 : Option (List Cuenta)) (es1 es2 : FalloES) (u p : List Nat),
      es2 ≠ .cierre → validar_registro es1 db u = (EXITO, db1) →
      guardar_cuenta es2 db1 ⟨u, p⟩ = (OK, db2) →
      validar_inicio .ninguno db2 u p = EXITO) := by
  refine ⟨?_, by decide, by decide, by decide, ?_⟩
  · intro es1 db u p h1
    have hr := registros_validar_registro es1 db u
    have hno := validar_registro_EXITO es1 db u h1
    have hg : guardar_cuenta .cierre (validar_registro es1 db u).2 ⟨u, p⟩ =
        (OK, some (registros (validar_registro es1 db u).2)) := by
      simp [guardar_cuenta, registros]
    rw [hg, hr]
    refine ⟨rfl, rfl, ?_⟩
    exact validar_inicio_sin_nombre (some (registros db)) u p hno
  · intro db db1 db2 es1 es2 u p hc _ h2
    have hne : ERROR ≠ OK := by decide
    unfold guardar_cuenta at h2
    by_cases ha : es2 = .apertura
    · simp [ha, hne] at h2
    · by_cases hw : es2 = .escritura
      · simp [hw, hne] at h2
      · simp only [ha, hw, hc, if_false, Prod.mk.injEq, true_and] at h2
        subst h2
        have hb := validar_inicio_bucle_encuentra u p (db1.getD [] ++ [⟨u, p⟩]) 1
          ⟨⟨u, p⟩, by simp, rfl, rfl⟩
        unfold validar_inicio
        cases hr : db1.getD [] ++ [⟨u, p⟩] with
        | nil => simp at hr
        | cons d ds =>
          rw [hr] at hb
          simp [hb]

/-- C10: for every readable credential store that holds a record with user name `u`,
and every password `p` such that no record matches both `u` and `p`,
`validar_inicio(u, p)` returns the bad-credentials token
`Error: Datos ingresados erroneos.` and not the empty-store token. -/
theorem inicio_con_contrasenia_erronea (regs : List Cuenta) (u p : List Nat)
    (hex : ∃ c ∈ regs, c.usuario = u)
    (hno : ∀ c ∈ regs, ¬ (c.usuario = u ∧ c.contrasenia = p)) :
    validar_inicio .ninguno (some regs) u p = ERROR_USUARIO_USUARIOS ∧
    validar_inicio .ninguno (some regs) u p ≠ ERROR_VACIO_USUARIOS ∧
    ERROR_USUARIO_USUARIOS = ascii "Error: Datos ingresados erroneos." := by
  have hb := validar_inicio_bucle_no_encuentra u p regs 1 hno
  have hne : ERROR_USUARIO_USUARIOS ≠ ERROR_VACIO_USUARIOS := by decide
  have hv : validar_inicio .ninguno (some regs) u p = ERROR_USUARIO_USUARIOS := by
    unfold validar_inicio
    cases regs with
    | nil => obtain ⟨c, hc, _⟩ := hex; simp at hc
    | cons d ds => simp [hb]
  exact ⟨hv, by rw [hv]; exact hne, rfl⟩

/-- Witness of C10: `ana` registered with `clave` logs in with `otra`. -/
theorem inicio_con_contrasenia_erronea_witness :
    validar_inicio .ninguno (some [⟨ascii "ana", ascii "clave"⟩]) (ascii "ana") (ascii "otra") =
      ERROR_USUARIO_USUARIOS ∧
    validar_inicio .ninguno (some [⟨ascii "ana", ascii "clave"⟩]) (ascii "ana") (ascii "otra") ≠
      ERROR_VACIO_USUARIOS ∧
    ERROR_USUARIO_USUARIOS = ascii "Error: Datos ingresados erroneos." :=
  inicio_con_contrasenia_erronea [⟨ascii "ana", ascii "clave"⟩] (ascii "ana") (ascii "otra")
    (by decide) (by decide)

/-! # The claims, continued -/

/-- C11, against the code: `guardar_cuenta` checks `fwrite` but not `fclose`. When the
write error comes up at `fclose`, the first registration of `ana` is answered with the
success token and stores nothing, and the second registration of `ana` is answered
with the success token again, not with `Error: Usuario ya registrado.`, and appends its
record. When the first record reaches the file, the second attempt gets the
duplicate-name token and appends nothing, so the store gains exactly one record. -/
theorem registro_repetido_sin_guardar :
    procesar_opcion none (fun _ => .inexistente) .ninguno .cierre none ⟨[], [], []⟩ 2
        ⟨ascii "ana", ascii "clave"⟩ =
      ⟨some [], true, .ok (SALIR, ⟨[], [EXITO], []⟩, [])⟩ ∧
    procesar_opcion none (fun _ => .inexistente) .ninguno .ninguno (some []) ⟨[], [], []⟩ 2
        ⟨ascii "ana", ascii "otra"⟩ =
      ⟨some [⟨ascii "ana", ascii "otra"⟩], true, .ok (SALIR, ⟨[], [EXITO], []⟩, [])⟩ ∧
    EXITO ≠ ERROR_REGISTRO_USUARIOS ∧
    (∀ (media media2 : Option (List Nat)) (fs fs2 : List Nat → Archivo)
      (es1 es2 es3 : FalloES) (db : Option (List Cuenta)) (s1 s2 : Socket) (u p p2 : List Nat),
      es2 ≠ .cierre → (validar_registro es1 db u).1 = EXITO →
      (guardar_cuenta es2 (validar_registro es1 db u).2 ⟨u, p⟩).1 = OK →
      (∀ b ∈ s2.fallos, b = false) →
      (∃ s3, (procesar_opcion media2 fs2 .ninguno es3
            (procesar_opcion media fs es1 es2 db s1 2 ⟨u, p⟩).db s2 2 ⟨u, p2⟩).fin =
          .ok (OK, s3, []) ∧
        s3.salida = s2.salida ++ [ERROR_REGISTRO_USUARIOS]) ∧
      (procesar_opcion media2 fs2 .ninguno es3
          (procesar_opcion media fs es1 es2 db s1 2 ⟨u, p⟩).db s2 2 ⟨u, p2⟩).db =
        (procesar_opcion media fs es1 es2 db s1 2 ⟨u, p⟩).db ∧
      registros (procesar_opcion media2 fs2 .ninguno es3
          (procesar_opcion media fs es1 es2 db s1 2 ⟨u, p⟩).db s2 2 ⟨u, p2⟩).db =
        registros db ++ [⟨u, p⟩]) ∧
    ERROR_REGISTRO_USUARIOS = ascii "Error: Usuario ya registrado." := by
  refine ⟨by decide, by decide, by decide, ?_, rfl⟩
  intro media media2 fs fs2 es1 es2 es3 db s1 s2 u p p2 hc h1 h2 hs
  have hr := registros_validar_registro es1 db u
  have hdb1 : (procesar_opcion media fs es1 es2 db s1 2 ⟨u, p⟩).db =
      some (registros db ++ [⟨u, p⟩]) := by
    rw [procesar_opcion_db]
    simp only [if_true, h1]
    rcases guardar_cuenta_efecto es2 (validar_registro es1 db u).2 ⟨u, p⟩
      with ⟨_, _, g⟩ | ⟨_, g, _⟩ | ⟨g, _⟩
    · rw [g, hr]
    · exact absurd g hc
    · rw [h2] at g; exact absurd g OK_ne_ERROR
  have hv : validar_registro .ninguno (some (registros db ++ [⟨u, p⟩])) u =
      (ERROR_REGISTRO_USUARIOS, some (registros db ++ [⟨u, p⟩])) := by
    have := validar_registro_bucle_repetido u (registros db ++ [⟨u, p⟩]) 0 ⟨⟨u, p⟩, by simp, rfl⟩
    simp [validar_registro, this]
  have hne : ERROR_REGISTRO_USUARIOS ≠ EXITO := by decide
  have hnn : ERROR_REGISTRO_USUARIOS ≠ [] := by decide
  obtain ⟨k1, k2, _, _⟩ := send_ok s2 ERROR_REGISTRO_USUARIOS hs hnn
  have h21 : ¬ ((2 : Int) = 1) := by decide
  have ha2 : procesar_opcion media2 fs2 .ninguno es3 (some (registros db ++ [⟨u, p⟩])) s2 2
      ⟨u, p2⟩ = ⟨some (registros db ++ [⟨u, p⟩]), false,
        .ok (OK, (send s2 ERROR_REGISTRO_USUARIOS).2, [])⟩ := by
    unfold procesar_opcion
    simp only [h21, if_false, if_true, hv, snprintf_REGISTRO, hne, k1]
  rw [hdb1, ha2]
  exact ⟨⟨_, rfl, k2⟩, rfl, rfl⟩

/-- C12: starting from a missing or empty credential store, after any finite sequence
of handshake requests processed one at a time by `procesar_opcion`, no two records of
the store have the same user name. -/
theorem nombres_unicos_siempre (db : Option (List Cuenta)) (qs : List Solicitud)
    (h : db = none ∨ db = some []) : nombres_unicos (almacen_tras db qs) := by
  apply almacen_tras_nombres_unicos
  rcases h with rfl | rfl <;> simp [nombres_unicos, registros]

/-- Witness of C12: `ana` registers twice and `eva` once, starting without a store. -/
theorem nombres_unicos_siempre_witness :
    nombres_unicos (almacen_tras none
      [⟨none, fun _ => .inexistente, .ninguno, .ninguno, ⟨[], [], []⟩, 2,
          ⟨ascii "ana", ascii "clave"⟩⟩,
       ⟨none, fun _ => .inexistente, .ninguno, .ninguno, ⟨[], [], []⟩, 2,
          ⟨ascii "ana", ascii "otra"⟩⟩,
       ⟨none, fun _ => .inexistente, .ninguno, .ninguno, ⟨[], [], []⟩, 2,
          ⟨ascii "eva", ascii "clave"⟩⟩]) :=
  nombres_unicos_siempre none _ (Or.inl rfl)

/-- C13, against the code: `guardar_cuenta` checks `fwrite` but not `fclose`. When the
write error comes up at `fclose`, a registration is answered with the success token
(`validar_registro` returns EXITO, `guardar_cuenta` returns OK) and the store is not
extended: `ana` registers in a missing store and the store holds no record afterwards.
The rest of the claim holds: for every request processed by `procesar_opcion` the
records before are a prefix of the records after; a login, a rejected registration and
an unknown opcode leave the store as it was; a registration whose record reaches the
file adds exactly that record at the end; one whose write fails adds none. -/
theorem registro_exitoso_sin_anexar :
    procesar_opcion none (fun _ => .inexistente) .ninguno .cierre none ⟨[], [], []⟩ 2
        ⟨ascii "ana", ascii "clave"⟩ =
      ⟨some [], true, .ok (SALIR, ⟨[], [EXITO], []⟩, [])⟩ ∧
    (validar_registro .ninguno none (ascii "ana")).1 = EXITO ∧
    (guardar_cuenta .cierre (validar_registro .ninguno none (ascii "ana")).2
      ⟨ascii "ana", ascii "clave"⟩).1 = OK ∧
    (∀ (media : Option (List Nat)) (fs : List Nat → Archivo) (es1 es2 : FalloES)
      (db : Option (List Cuenta)) (s : Socket) (opcion : Int) (usuario : Cuenta),
      List.IsPrefix (registros db)
        (registros (procesar_opcion media fs es1 es2 db s opcion usuario).db) ∧
      (opcion ≠ 2 → (procesar_opcion media fs es1 es2 db s opcion usuario).db = db) ∧
      (opcion = 2 → (validar_registro es1 db usuario.usuario).1 ≠ EXITO →
        (procesar_opcion media fs es1 es2 db s opcion usuario).db = db) ∧
      (opcion = 2 → (validar_registro es1 db usuario.usuario).1 = EXITO → es2 ≠ .cierre →
        (guardar_cuenta es2 (validar_registro es1 db usuario.usuario).2 usuario).1 = OK →
        registros (procesar_opcion media fs es1 es2 db s opcion usuario).db =
          registros db ++ [usuario]) ∧
      (opcion = 2 → (validar_registro es1 db usuario.usuario).1 = EXITO → es2 = .cierre →
        (guardar_cuenta es2 (validar_registro es1 db usuario.usuario).2 usuario).1 = OK ∧
        registros (procesar_opcion media fs es1 es2 db s opcion usuario).db =
          registros db) ∧
      (opcion = 2 → (validar_registro es1 db usuario.usuario).1 = EXITO →
        (guardar_cuenta es2 (validar_registro es1 db usuario.usuario).2 usuario).1 = ERROR →
        registros (procesar_opcion media fs es1 es2 db s opcion usuario).db =
          registros db)) := by
  refine ⟨by decide, by decide, by decide, ?_⟩
  intro media fs es1 es2 db s opcion usuario
  have hr := registros_validar_registro es1 db usuario.usuario
  have hg := guardar_cuenta_efecto es2 (validar_registro es1 db usuario.usuario).2 usuario
  rw [procesar_opcion_db]
  refine ⟨?_, ?_, ?_, ?_, ?_, ?_⟩
  · by_cases h2 : opcion = 2
    · simp only [h2, if_true]
      by_cases he : (validar_registro es1 db usuario.usuario).1 = EXITO
      · simp only [he, if_true]
        rcases hg with ⟨_, _, g⟩ | ⟨_, _, g⟩ | ⟨_, g⟩
        · rw [g, hr]; exact List.prefix_append _ _
        · rw [g, hr]
        · rw [g, hr]
      · simp only [he, if_false]; rw [hr]
    · simp only [h2, if_false]; exact List.prefix_refl _
  · intro h2; simp only [h2, if_false]
  · intro h2 he
    simp only [h2, if_true, he, if_false]
    exact validar_registro_rechaza es1 db usuario.usuario he
  · intro h2 he hc hok
    simp only [h2, if_true, he]
    rcases hg with ⟨_, _, g⟩ | ⟨_, g, _⟩ | ⟨g, _⟩
    · rw [g, hr]; rfl
    · exact absurd g hc
    · rw [hok] at g; exact absurd g OK_ne_ERROR
  · intro h2 he hc
    simp only [h2, if_true, he]
    rcases hg with ⟨_, g, _⟩ | ⟨g1, _, g⟩ | ⟨g, _⟩
    · exact absurd hc g
    · exact ⟨g1, by rw [g, hr]⟩
    · subst hc
      have : (guardar_cuenta .cierre (validar_registro es1 db usuario.usuario).2 usuario).1
          = OK := by simp [guardar_cuenta]
      rw [this] at g
      exact absurd g OK_ne_ERROR
  · intro h2 he herr
    simp only [h2, if_true, he]
    rcases hg with ⟨g, _⟩ | ⟨g, _⟩ | ⟨_, g⟩
    · rw [herr] at g; exact absurd g.symm OK_ne_ERROR
    · rw [herr] at g; exact absurd g.symm OK_ne_ERROR
    · rw [g, hr]

/-- C15: when the credential store cannot be opened (the file is missing for a login, or
`fopen` fails) or a read of it fails (the probe read of `validar_inicio`, or a read of
the comparison loop that is reached because no earlier record ended the loop),
`validar_inicio` and `validar_registro` return `No se pudo abrir archivo de datos.`, a
token different from the bad-credentials, empty-store, duplicate-name and success
tokens. -/
theorem fallo_de_almacen :
    (∀ db u p, validar_inicio .apertura db u p = ERROR_MEMORIA_USUARIOS) ∧
    (∀ es u p, validar_inicio es none u p = ERROR_MEMORIA_USUARIOS) ∧
    (∀ regs u p, validar_inicio (.lectura 0) (some regs) u p = ERROR_MEMORIA_USUARIOS) ∧
    (∀ regs u p k, regs ≠ [] → k ≤ regs.length →
      (∀ c ∈ regs.take k, ¬ (c.usuario = u ∧ c.contrasenia = p)) →
      validar_inicio (.lectura (k + 1)) (some regs) u p = ERROR_MEMORIA_USUARIOS) ∧
    (∀ db u, (validar_registro .apertura db u).1 = ERROR_MEMORIA_USUARIOS) ∧
    (∀ regs u k, k ≤ regs.length → (∀ c ∈ regs.take k, c.usuario ≠ u) →
      (validar_registro (.lectura k) (some regs) u).1 = ERROR_MEMORIA_USUARIOS) ∧
    ERROR_MEMORIA_USUARIOS = ascii "No se pudo abrir archivo de datos." ∧
    ERROR_MEMORIA_USUARIOS ≠ ERROR_USUARIO_USUARIOS ∧
    ERROR_MEMORIA_USUARIOS ≠ ERROR_VACIO_USUARIOS ∧
    ERROR_MEMORIA_USUARIOS ≠ ERROR_REGISTRO_USUARIOS ∧
    ERROR_MEMORIA_USUARIOS ≠ EXITO := by
  refine ⟨?_, ?_, ?_, ?_, ?_, ?_, rfl, by decide, by decide, by decide, by decide⟩
  · intro db u p
    cases db <;> simp [validar_inicio]
  · intro es u p
    simp [validar_inicio]
  · intro regs u p
    simp [validar_inicio]
  · intro regs u p k hne hk hno
    have h := validar_inicio_bucle_falla u p regs 1 k hk hno
    have e : 1 + k = k + 1 := by omega
    rw [e] at h
    cases regs with
    | nil => exact absurd rfl hne
    | cons c r => simp [validar_inicio, h]
  · intro db u
    cases db <;> simp [validar_registro]
  · intro regs u k hk hno
    have h := validar_registro_bucle_falla u regs 0 k hk hno
    simp only [Nat.zero_add] at h
    simp [validar_registro, h]

/-- C16: for every user name and password, `validar_inicio` on a readable store without
records returns `Base de datos sin usuario alguno. Registre alguno primero.`, and on a
store with at least one record it never returns that token. -/
theorem token_de_almacen_vacio :
    (∀ u p, validar_inicio .ninguno (some []) u p = ERROR_VACIO_USUARIOS) ∧
    (∀ es c r u p, validar_inicio es (some (c :: r)) u p ≠ ERROR_VACIO_USUARIOS) ∧
    ERROR_VACIO_USUARIOS =
      ascii "Base de datos sin usuario alguno. Registre alguno primero." := by
  have h1 : EXITO ≠ ERROR_VACIO_USUARIOS := by decide
  have h2 : ERROR_MEMORIA_USUARIOS ≠ ERROR_VACIO_USUARIOS := by decide
  have h3 : ERROR_USUARIO_USUARIOS ≠ ERROR_VACIO_USUARIOS := by decide
  refine ⟨?_, ?_, rfl⟩
  · intro u p
    simp [validar_inicio]
  · intro es c r u p
    unfold validar_inicio
    simp only []
    split
    · exact h2
    · split
      · exact h2
      · rcases validar_inicio_bucle_valores es u p (c :: r) 1 with h | h | h <;> rw [h]
        · exact h1
        · exact h2
        · exact h3

/-- C14, as stated, fails: after a login with a wrong password the server replies with
the bad-credentials token, `procesar_opcion` returns OK and not SALIR, and the second
handshake message of the same connection is processed: it logs in and enters the
catalog menu. -/
theorem login_fallido_no_cierra :
    conexion none (fun _ => .inexistente) [] (some [⟨ascii "ana", ascii "clave"⟩])
        ⟨[ascii "1:ana:mala", ascii "1:ana:clave"], [], []⟩ =
      ⟨[⟨some [⟨ascii "ana", ascii "clave"⟩], false,
          .ok (OK, ⟨[ascii "1:ana:clave"], [ERROR_USUARIO_USUARIOS], []⟩, [])⟩,
        ⟨some [⟨ascii "ana", ascii "clave"⟩], true,
          .ok (SALIR, ⟨[], [ERROR_USUARIO_USUARIOS, EXITO], []⟩, [])⟩],
       some [⟨ascii "ana", ascii "clave"⟩],
       .ok ⟨[], [ERROR_USUARIO_USUARIOS, EXITO], []⟩⟩ ∧
    OK ≠ SALIR := by
  decide

/-- C14 (amended): when a login request fails (bad credentials, empty store or storage
failure) and the reply can be sent, the server replies with the corresponding failure
token, `procesar_opcion` returns OK without entering the catalog menu, and
`menu_bucle_servidor` stays in the per-connection loop: it goes on with the next
handshake message of the same connection. -/
theorem login_fallido_continua (fuel : Nat) (media : Option (List Nat))
    (fs : List Nat → Archivo) (fallos : List (FalloES × FalloES)) (db : Option (List Cuenta))
    (m : List Nat) (r sal : List (List Nat)) (fa : List Bool) (usuario : Cuenta)
    (hm : m ≠ []) (hl : leer_solicitud m = .ok (1, usuario))
    (hf : validar_inicio (fallos.headD (.ninguno, .ninguno)).1 db usuario.usuario
      usuario.contrasenia ≠ EXITO)
    (hfa : ∀ b ∈ fa, b = false) :
    (validar_inicio (fallos.headD (.ninguno, .ninguno)).1 db usuario.usuario
        usuario.contrasenia = ERROR_MEMORIA_USUARIOS ∨
      validar_inicio (fallos.headD (.ninguno, .ninguno)).1 db usuario.usuario
        usuario.contrasenia = ERROR_USUARIO_USUARIOS ∨
      validar_inicio (fallos.headD (.ninguno, .ninguno)).1 db usuario.usuario
        usuario.contrasenia = ERROR_VACIO_USUARIOS) ∧
    ∃ s1, s1.salida = sal ++ [validar_inicio (fallos.headD (.ninguno, .ninguno)).1 db
        usuario.usuario usuario.contrasenia] ∧ s1.entrada = r ∧
      procesar_opcion media fs (fallos.headD (.ninguno, .ninguno)).1
        (fallos.headD (.ninguno, .ninguno)).2 db ⟨r, sal, fa⟩ 1 usuario =
          ⟨db, false, .ok (OK, s1, [])⟩ ∧
      menu_bucle_servidor (fuel + 1) media fs fallos db ⟨m :: r, sal, fa⟩ =
        ⟨⟨db, false, .ok (OK, s1, [])⟩ ::
            (menu_bucle_servidor fuel media fs fallos.tail db s1).turnos,
          (menu_bucle_servidor fuel media fs fallos.tail db s1).db,
          (menu_bucle_servidor fuel media fs fallos.tail db s1).fin⟩ := by
  have hvals := validar_inicio_valores (fallos.headD (.ninguno, .ninguno)).1 db usuario.usuario
    usuario.contrasenia
  have htok : validar_inicio (fallos.headD (.ninguno, .ninguno)).1 db usuario.usuario
      usuario.contrasenia ≠ [] := by
    rcases hvals with h | h | h | h <;> rw [h] <;> decide
  obtain ⟨k1, k2, k3, _⟩ := send_ok ⟨r, sal, fa⟩ _ hfa htok
  have hp : procesar_opcion media fs (fallos.headD (.ninguno, .ninguno)).1
      (fallos.headD (.ninguno, .ninguno)).2 db ⟨r, sal, fa⟩ 1 usuario =
      ⟨db, false, .ok (OK, (send ⟨r, sal, fa⟩ (validar_inicio
        (fallos.headD (.ninguno, .ninguno)).1 db usuario.usuario usuario.contrasenia)).2, [])⟩ := by
    unfold procesar_opcion
    simp only [if_true, snprintf_inicio, k1, hf, if_false]
  refine ⟨?_, _, k2, k3, hp, ?_⟩
  · rcases hvals with h | h | h | h
    · exact absurd h hf
    · exact Or.inl h
    · exact Or.inr (Or.inl h)
    · exact Or.inr (Or.inr h)
  · have hne : OK ≠ SALIR := by decide
    have hstep := menu_bucle_servidor_sigue fuel media fs fallos db m r sal fa 1 usuario OK _ []
      hm hl (by rw [hp]) hne
    rw [hp] at hstep
    exact hstep

/-- Witness of C14 (amended): `ana`, registered with `clave`, logs in with `mala`. -/
theorem login_fallido_continua_witness :
    (validar_inicio .ninguno (some [⟨ascii "ana", ascii "clave"⟩]) (ascii "ana") (ascii "mala") =
        ERROR_MEMORIA_USUARIOS ∨
      validar_inicio .ninguno (some [⟨ascii "ana", ascii "clave"⟩]) (ascii "ana")
        (ascii "mala") = ERROR_USUARIO_USUARIOS ∨
      validar_inicio .ninguno (some [⟨ascii "ana", ascii "clave"⟩]) (ascii "ana")
        (ascii "mala") = ERROR_VACIO_USUARIOS) ∧
    ∃ s1, s1.salida = [] ++ [validar_inicio .ninguno (some [⟨ascii "ana", ascii "clave"⟩])
        (ascii "ana") (ascii "mala")] ∧ s1.entrada = [ascii "1:ana:clave"] ∧
      procesar_opcion none (fun _ => .inexistente) .ninguno .ninguno
        (some [⟨ascii "ana", ascii "clave"⟩]) ⟨[ascii "1:ana:clave"], [], []⟩ 1
        ⟨ascii "ana", ascii "mala"⟩ =
          ⟨some [⟨ascii "ana", ascii "clave"⟩], false, .ok (OK, s1, [])⟩ ∧
      menu_bucle_servidor (5 + 1) none (fun _ => .inexistente) []
          (some [⟨ascii "ana", ascii "clave"⟩])
          ⟨ascii "1:ana:mala" :: [ascii "1:ana:clave"], [], []⟩ =
        ⟨⟨some [⟨ascii "ana", ascii "clave"⟩], false, .ok (OK, s1, [])⟩ ::
            (menu_bucle_servidor 5 none (fun _ => .inexistente) ([] : List _).tail
              (some [⟨ascii "ana", ascii "clave"⟩]) s1).turnos,
          (menu_bucle_servidor 5 none (fun _ => .inexistente) ([] : List _).tail
              (some [⟨ascii "ana", ascii "clave"⟩]) s1).db,
          (menu_bucle_servidor 5 none (fun _ => .inexistente) ([] : List _).tail
              (some [⟨ascii "ana", ascii "clave"⟩]) s1).fin⟩ :=
  login_fallido_continua 5 none (fun _ => .inexistente) [] (some [⟨ascii "ana", ascii "clave"⟩])
    (ascii "1:ana:mala") [ascii "1:ana:clave"] [] [] ⟨ascii "ana", ascii "mala"⟩
    (by decide) (by decide) (by decide) (by decide)

/-- C17: `procesar_opcion` runs `menu_canciones_servidor` exactly after a login for
which `validar_inicio` returned EXITO, or a registration for which `validar_registro`
returned EXITO and `guardar_cuenta` returned OK, the reply having been sent: in that
case what the call leaves behind is the run of the menu on the socket after the reply
and the value SALIR. In every other case (a failed login, a rejected or failed
registration, an unknown opcode, a reply that cannot be sent) the call returns without
a handler call and without taking a message from the socket. In a connection every
turn is such a call, and every turn before the last is of the second kind. -/
theorem menu_solo_tras_autenticar (media : Option (List Nat)) (fs : List Nat → Archivo) :
    (∀ (es1 es2 : FalloES) (db : Option (List Cuenta)) (s : Socket) (opcion : Int)
      (usuario : Cuenta),
      ((procesar_opcion media fs es1 es2 db s opcion usuario).menu = true ↔
        (opcion = 1 ∧ validar_inicio es1 db usuario.usuario usuario.contrasenia = EXITO ∧
          (send s EXITO).1 = true) ∨
        (opcion = 2 ∧ (validar_registro es1 db usuario.usuario).1 = EXITO ∧
          (guardar_cuenta es2 (validar_registro es1 db usuario.usuario).2 usuario).1 = OK ∧
          (send s EXITO).1 = true)) ∧
      (((opcion = 1 ∧ validar_inicio es1 db usuario.usuario usuario.contrasenia = EXITO ∧
          (send s EXITO).1 = true) ∨
        (opcion = 2 ∧ (validar_registro es1 db usuario.usuario).1 = EXITO ∧
          (guardar_cuenta es2 (validar_registro es1 db usuario.usuario).2 usuario).1 = OK ∧
          (send s EXITO).1 = true)) →
        (procesar_opcion media fs es1 es2 db s opcion usuario).fin =
          match menu_canciones_servidor media fs (send s EXITO).2 with
          | .error e => .error e
          | .ok (s1, t) => .ok (SALIR, s1, t)) ∧
      (¬ ((opcion = 1 ∧ validar_inicio es1 db usuario.usuario usuario.contrasenia = EXITO ∧
          (send s EXITO).1 = true) ∨
        (opcion = 2 ∧ (validar_registro es1 db usuario.usuario).1 = EXITO ∧
          (guardar_cuenta es2 (validar_registro es1 db usuario.usuario).2 usuario).1 = OK ∧
          (send s EXITO).1 = true)) →
        ∃ v s1, (procesar_opcion media fs es1 es2 db s opcion usuario).fin = .ok (v, s1, []) ∧
          s1.entrada = s.entrada)) ∧
    (∀ (fuel : Nat) (fallos : List (FalloES × FalloES)) (db : Option (List Cuenta))
      (s : Socket),
      (∀ a ∈ (menu_bucle_servidor fuel media fs fallos db s).turnos,
        ∃ es1 es2 db1 s1 opcion usuario,
          a = procesar_opcion media fs es1 es2 db1 s1 opcion usuario) ∧
      ∀ i, i + 1 < (menu_bucle_servidor fuel media fs fallos db s).turnos.length →
        ∀ a, (menu_bucle_servidor fuel media fs fallos db s).turnos.get? i = some a →
          a.menu = false ∧ ∃ v s1, a.fin = .ok (v, s1, [])) := by
  constructor
  · intro es1 es2 db s opcion usuario
    have hiff := procesar_opcion_menu_iff media fs es1 es2 db s opcion usuario
    refine ⟨hiff, ?_, ?_⟩
    · intro h
      have hm := hiff.2 h
      rw [procesar_opcion_fin_menu media fs es1 es2 db s opcion usuario hm]
      rfl
    · intro h
      have hm : (procesar_opcion media fs es1 es2 db s opcion usuario).menu = false := by
        cases hk : (procesar_opcion media fs es1 es2 db s opcion usuario).menu with
        | false => rfl
        | true => exact absurd (hiff.1 hk) h
      exact procesar_opcion_fin_sin_menu media fs es1 es2 db s opcion usuario hm
  · intro fuel fallos db s
    obtain ⟨h1, h2⟩ := menu_bucle_servidor_turnos fuel media fs fallos db s
    refine ⟨h1, ?_⟩
    intro i hi a ha
    have hm := h2 i hi a ha
    refine ⟨hm, ?_⟩
    have hmem : a ∈ (menu_bucle_servidor fuel media fs fallos db s).turnos :=
      List.get?_mem ha
    obtain ⟨es1, es2, db1, s1, opcion, usuario, rfl⟩ := h1 a hmem
    obtain ⟨v, s2, hf, _⟩ := procesar_opcion_fin_sin_menu media fs es1 es2 db1 s1 opcion usuario hm
    exact ⟨v, s2, hf⟩

/-- C18: a catalog-menu message that resolves to none of the opcodes 1, 2, 3 ends the
loop of `menu_canciones_servidor` without a handler call and without a reply; a call of
`procesar_opcion` that entered the menu then returns SALIR; and `menu_bucle_servidor`
leaves the loop of the connection on SALIR, so the socket is closed with the later
messages unread. -/
theorem opcion_desconocida_cierra (media : Option (List Nat)) (fs : List Nat → Archivo) :
    (∀ (fuel : Nat) (m : List Nat) (r sal : List (List Nat)) (fa : List Bool),
      m ≠ [] → m.length < BUFFER_SIZE → atoi (cadena (m ++ [0]) 0) ≠ 1 →
      atoi (cadena (m ++ [0]) 0) ≠ 2 → atoi (cadena (m ++ [0]) 0) ≠ 3 →
      menu_canciones_bucle (fuel + 1) media fs ⟨m :: r, sal, fa⟩ = .ok (⟨r, sal, fa⟩, [])) ∧
    (∀ (es1 es2 : FalloES) (db : Option (List Cuenta)) (s : Socket) (opcion : Int)
      (usuario : Cuenta) (valor : Int) (s1 : Socket) (t : List (Manejador × Int)),
      (procesar_opcion media fs es1 es2 db s opcion usuario).menu = true →
      (procesar_opcion media fs es1 es2 db s opcion usuario).fin = .ok (valor, s1, t) →
      valor = SALIR) ∧
    (∀ (fuel : Nat) (fallos : List (FalloES × FalloES)) (db : Option (List Cuenta))
      (m : List Nat) (r sal : List (List Nat)) (fa : List Bool) (opcion : Int)
      (usuario : Cuenta) (s1 : Socket) (t : List (Manejador × Int)),
      m ≠ [] → leer_solicitud m = .ok (opcion, usuario) →
      (procesar_opcion media fs (fallos.headD (.ninguno, .ninguno)).1
        (fallos.headD (.ninguno, .ninguno)).2 db ⟨r, sal, fa⟩ opcion usuario).fin =
          .ok (SALIR, s1, t) →
      (menu_bucle_servidor (fuel + 1) media fs fallos db ⟨m :: r, sal, fa⟩).turnos.length = 1 ∧
      (menu_bucle_servidor (fuel + 1) media fs fallos db ⟨m :: r, sal, fa⟩).fin = .ok s1) ∧
    conexion media fs [] (some [⟨ascii "ana", ascii "clave"⟩])
        ⟨[ascii "1:ana:clave", ascii "9", ascii "1"], [], []⟩ =
      ⟨[⟨some [⟨ascii "ana", ascii "clave"⟩], true,
          .ok (SALIR, ⟨[ascii "1"], [EXITO], []⟩, [])⟩],
       some [⟨ascii "ana", ascii "clave"⟩], .ok ⟨[ascii "1"], [EXITO], []⟩⟩ := by
  refine ⟨?_, ?_, ?_, ?_⟩
  · intro fuel m r sal fa hm hl h1 h2 h3
    exact menu_canciones_bucle_desconocida fuel media fs m r sal fa hm hl
      ((manejador_de_none _).2 ⟨h1, h2, h3⟩)
  · intro es1 es2 db s opcion usuario valor s1 t hm hf
    exact procesar_opcion_menu_SALIR media fs es1 es2 db s opcion usuario valor s1 t hm hf
  · intro fuel fallos db m r sal fa opcion usuario s1 t hm hl hf
    rw [menu_bucle_servidor_sale fuel media fs fallos db m r sal fa opcion usuario s1 t hm hl hf]
    exact ⟨rfl, rfl⟩
  · have h9 : manejador_de (atoi (cadena (ascii "9" ++ [0]) 0)) = none := by decide
    have hb := menu_canciones_bucle_desconocida 3 media fs (ascii "9") [ascii "1"] [EXITO] []
      (by decide) (by decide) h9
    have hmenu : menu_canciones_servidor media fs ⟨[ascii "9", ascii "1"], [EXITO], []⟩ =
        .ok (⟨[ascii "1"], [EXITO], []⟩, []) := hb
    have hs : send ⟨[ascii "9", ascii "1"], [], []⟩ EXITO =
        (true, ⟨[ascii "9", ascii "1"], [EXITO], []⟩) := by decide
    have hv : validar_inicio .ninguno (some [⟨ascii "ana", ascii "clave"⟩]) (ascii "ana")
        (ascii "clave") = EXITO := by decide
    have hp : procesar_opcion media fs .ninguno .ninguno (some [⟨ascii "ana", ascii "clave"⟩])
        ⟨[ascii "9", ascii "1"], [], []⟩ 1 ⟨ascii "ana", ascii "clave"⟩ =
        ⟨some [⟨ascii "ana", ascii "clave"⟩], true,
          .ok (SALIR, ⟨[ascii "1"], [EXITO], []⟩, [])⟩ := by
      unfold procesar_opcion
      simp only [if_true, hv, snprintf_EXITO, hs, entrar_menu, hmenu]
    have hl : leer_solicitud (ascii "1:ana:clave") = .ok (1, ⟨ascii "ana", ascii "clave"⟩) := by
      decide
    have := menu_bucle_servidor_sale 16 media fs [] (some [⟨ascii "ana", ascii "clave"⟩])
      (ascii "1:ana:clave") [ascii "9", ascii "1"] [] [] 1 ⟨ascii "ana", ascii "clave"⟩
      ⟨[ascii "1"], [EXITO], []⟩ [] (by decide) hl (by rw [show
        ([] : List (FalloES × FalloES)).headD (.ninguno, .ninguno) = (.ninguno, .ninguno) from rfl,
        hp])
    have hpre : presupuesto ⟨[ascii "1:ana:clave", ascii "9", ascii "1"], [], []⟩ = 16 + 1 := by
      decide
    unfold conexion
    rw [hpre, this]
    simp only [List.headD_nil, hp]

set_option maxRecDepth 1000000 in
/-- C19: in `menu_canciones_servidor` a zero-length read ends the loop without a handler
call; a message that names a handler runs it on the rest of the input, and the loop
goes on from the socket the handler left (its next message is read as an opcode)
exactly when the handler returned OK, otherwise it ends there; so every handler call of
a run but the last returned OK, and the loop always ends. After a listing of a
well-formed catalog that returned OK the loop goes on with the input that follows. -/
theorem menu_canciones_continua (media : Option (List Nat)) (fs : List Nat → Archivo) :
    (∀ (fuel : Nat) (s : Socket), (recv s BUFFER_SIZE).1.length = 0 →
      menu_canciones_bucle (fuel + 1) media fs s = .ok ((recv s BUFFER_SIZE).2, [])) ∧
    (∀ (fuel : Nat) (m : List Nat) (r sal : List (List Nat)) (fa : List Bool) (h : Manejador)
      (estado : Int) (s1 : Socket),
      m ≠ [] → m.length < BUFFER_SIZE → manejador_de (atoi (cadena (m ++ [0]) 0)) = some h →
      despachar h media fs ⟨r, sal, fa⟩ = .ok (estado, s1) →
      (estado = OK → menu_canciones_bucle (fuel + 1) media fs ⟨m :: r, sal, fa⟩ =
        anotar (h, OK) (menu_canciones_bucle fuel media fs s1)) ∧
      (estado ≠ OK → menu_canciones_bucle (fuel + 1) media fs ⟨m :: r, sal, fa⟩ =
        .ok (s1, [(h, estado)]))) ∧
    (∀ (s s1 : Socket) (t : List (Manejador × Int)),
      menu_canciones_servidor media fs s = .ok (s1, t) →
      ∀ i, i + 1 < t.length → ∀ p, t.get? i = some p → p.2 = OK) ∧
    (∀ s : Socket, menu_canciones_servidor media fs s ≠ .error .agotado) ∧
    (∀ (fuel : Nat) (med : List Nat) (cs : List Cancion) (r sal : List (List Nat))
      (fa : List Bool),
      media = some med → es_catalogo med cs → (∀ c ∈ cs, cancion_valida c) →
      cs.length < INT_MAX → (∀ b ∈ fa, b = false) →
      ∃ s1, s1.entrada = r ∧ s1.salida = sal ++ lineas_desde 1 cs ++ [FIN] ∧
        menu_canciones_bucle (fuel + 1) media fs ⟨ascii "1" :: r, sal, fa⟩ =
          anotar (.listar, OK) (menu_canciones_bucle fuel media fs s1)) ∧
    menu_canciones_servidor (some (ascii "a,b,c,d,1\n")) (fun _ => Archivo.inexistente)
        ⟨[ascii "1", ascii "1"], [], []⟩ =
      .ok (⟨[], [ascii "1 - a - b - c - d - 1\n", FIN, ascii "1 - a - b - c - d - 1\n", FIN], []⟩,
        [(.listar, OK), (.listar, OK)]) := by
  refine ⟨?_, ?_, ?_, ?_, ?_, by decide⟩
  · intro fuel s h
    exact menu_canciones_bucle_cierre fuel media fs s h
  · intro fuel m r sal fa h estado s1 hm hl hd hh
    have hp := menu_canciones_bucle_paso fuel media fs m r sal fa h estado s1 hm hl hd hh
    constructor
    · intro he
      rw [hp, if_pos he, he]
    · intro he
      rw [hp, if_neg he]
  · intro s s1 t h
    exact menu_canciones_bucle_traza (presupuesto s) media fs s s1 t h
  · intro s
    exact (menu_canciones_servidor_total media fs s).1
  · intro fuel med cs r sal fa hmed hcat hv hn hfa
    subst hmed
    obtain ⟨s1, e1, e2, e3⟩ := listar_servidor_ok med cs r sal fa hcat hv hn hfa
    refine ⟨s1, e3, e2, ?_⟩
    have hd : manejador_de (atoi (cadena (ascii "1" ++ [0]) 0)) = some .listar := by decide
    have hp := menu_canciones_bucle_paso fuel (some med) fs (ascii "1") r sal fa .listar OK s1
      (by decide) (by decide) hd e1
    rw [hp, if_pos rfl]

/-- C20: when the file asked for does not exist, `escuchar_cancion_servidor` replies
with the single message `FIN` (no `OK` token, no data) and returns OK; the client,
receiving that reply, returns OK with no local file created or written; so does the
whole exchange. -/
theorem pista_inexistente (fs : List Nat → Archivo) (e : Int) (buffer : List Nat)
    (he : 0 < e) (hmax : e.toNat ≤ INT_MAX) (hf : fs (nombre_cancion e) = .inexistente) :
    (∀ (r sal : List (List Nat)),
      escuchar_cancion_servidor fs ⟨nombre_cancion e :: r, sal, []⟩ =
        .ok (OK, ⟨r, sal ++ [FIN], []⟩)) ∧
    (∀ (locales : List (List Nat)) (abre : Bool) (escrituras : List Bool)
      (resto sal : List (List Nat)), nombre_cancion e ∉ locales →
      escuchar_cancion_cliente [some e] locales abre escrituras ⟨FIN :: resto, sal, []⟩ buffer =
        .ok ⟨OK, ⟨resto, sal ++ [nombre_cancion e], []⟩, none, false⟩) ∧
    descarga fs e buffer = .ok ⟨OK, ⟨[], [nombre_cancion e], []⟩, none, false⟩ := by
  have hnom := nombre_cancion_sin_nul e hmax
  have hnn : nombre_cancion e ≠ [] := by
    intro k
    have := (nombre_cancion_length e hmax).1
    rw [k] at this
    simp at this
  have hl : (nombre_cancion e).length < BUFFER_SIZE := by
    have := (nombre_cancion_length e hmax).2
    unfold BUFFER_SIZE; omega
  have hlen : (nombre_cancion e).length ≠ 0 := fun k => hnn (List.eq_nil_of_length_eq_zero k)
  have hserv : ∀ (r sal : List (List Nat)),
      escuchar_cancion_servidor fs ⟨nombre_cancion e :: r, sal, []⟩ =
        .ok (OK, ⟨r, sal ++ [FIN], []⟩) := by
    intro r sal
    have hr := recv_uno (nombre_cancion e) r sal [] (Nat.le_of_lt hl)
    have hs := send_simple r sal FIN FIN_ne_nil
    unfold escuchar_cancion_servidor
    simp only [hr, hlen, if_false, terminar_ok (nombre_cancion e) hnom hl,
      nombre_cancion_ne_FIN e hmax, hf, hs]
  have hcli : ∀ (locales : List (List Nat)) (abre : Bool) (escrituras : List Bool)
      (resto sal : List (List Nat)), nombre_cancion e ∉ locales →
      escuchar_cancion_cliente [some e] locales abre escrituras ⟨FIN :: resto, sal, []⟩ buffer =
        .ok ⟨OK, ⟨resto, sal ++ [nombre_cancion e], []⟩, none, false⟩ := by
    intro locales abre escrituras resto sal hloc
    have h0 : ¬ e = 0 := by omega
    have hneg : ¬ e < 0 := by omega
    have hc1 := cadena_escribir buffer (nombre_cancion e) hnom
    have hs := send_simple (FIN :: resto) sal (nombre_cancion e) hnn
    have hr := recv_uno FIN resto (sal ++ [nombre_cancion e]) [] (by decide)
    have hfb : ∀ b ∈ FIN, b ≠ 0 := by decide
    have hc2 := cadena_escribir (escribir buffer (nombre_cancion e ++ [0])) FIN hfb
    have hk1 : FIN.length ≠ 0 := by decide
    have hk2 : FIN.length < BUFFER_SIZE := by decide
    unfold escuchar_cancion_cliente
    simp only [h0, hneg, if_false, hloc, hc1, hs, if_true, hr, hk1, hk2, hc2]
  refine ⟨hserv, hcli, ?_⟩
  unfold descarga
  rw [hserv [] []]
  simp only [List.nil_append]
  exact hcli [] true [] [] [] (List.not_mem_nil _)

/-- Witness of C20: track 7 is asked of a server that holds no file. -/
theorem pista_inexistente_witness :
    (∀ (r sal : List (List Nat)),
      escuchar_cancion_servidor (fun _ => Archivo.inexistente) ⟨nombre_cancion 7 :: r, sal, []⟩ =
        .ok (OK, ⟨r, sal ++ [FIN], []⟩)) ∧
    (∀ (locales : List (List Nat)) (abre : Bool) (escrituras : List Bool)
      (resto sal : List (List Nat)), nombre_cancion 7 ∉ locales →
      escuchar_cancion_cliente [some 7] locales abre escrituras ⟨FIN :: resto, sal, []⟩ [] =
        .ok ⟨OK, ⟨resto, sal ++ [nombre_cancion 7], []⟩, none, false⟩) ∧
    descarga (fun _ => Archivo.inexistente) 7 [] =
      .ok ⟨OK, ⟨[], [nombre_cancion 7], []⟩, none, false⟩ :=
  pista_inexistente (fun _ => Archivo.inexistente) 7 [] (by decide) (by decide) rfl

/-! # The claims, concluded -/

/-- C21: for every existing, openable file with content `b`, every send succeeding,
`escuchar_cancion_servidor` sends `OK`, then data chunks, then `FIN` as a last separate
message; the chunks joined in order are `b`, every chunk is non-empty and of at most
`BUFFER_SIZE` bytes, every chunk but the last has exactly `BUFFER_SIZE` bytes, and there
are `ceil(|b| / BUFFER_SIZE)` chunks. -/
theorem envio_en_bloques (fs : List Nat → Archivo) (m b : List Nat)
    (r sal : List (List Nat)) (fa : List Bool) (hne : m ≠ [])
    (hl : m.length < BUFFER_SIZE) (hfin : cadena (m ++ [0]) 0 ≠ FIN)
    (hf : fs (cadena (m ++ [0]) 0) = .contenido b) (hfa : ∀ x ∈ fa, x = false) :
    ∃ (s1 : Socket) (bloques : List (List Nat)),
      escuchar_cancion_servidor fs ⟨m :: r, sal, fa⟩ = .ok (OK, s1) ∧
      s1.salida = sal ++ ascii "OK" :: (bloques ++ [FIN]) ∧
      bloques.flatten = b ∧
      (∀ c ∈ bloques, c ≠ [] ∧ c.length ≤ BUFFER_SIZE) ∧
      (∀ i c, i + 1 < bloques.length → bloques.get? i = some c → c.length = BUFFER_SIZE) ∧
      bloques.length = (b.length + (BUFFER_SIZE - 1)) / BUFFER_SIZE ∧
      BUFFER_SIZE = 1024 := by
  obtain ⟨s1, e1, e2, _⟩ := servidor_transmite fs m b r sal fa hne hl hfin hf hfa
  exact ⟨s1, trozos (b.length + 1) b, e1, e2, trozos_join _ b (Nat.lt_succ_self _),
    trozos_bloques _ b, trozos_llenos _ b, trozos_cuenta _ b (Nat.lt_succ_self _), rfl⟩

/-- Witness of C21: a file of 2050 bytes, sent in three chunks. -/
theorem envio_en_bloques_witness :
    ∃ (s1 : Socket) (bloques : List (List Nat)),
      escuchar_cancion_servidor (un_archivo (ascii "7.mp3") (List.replicate 2050 7))
        ⟨ascii "7.mp3" :: [], [], []⟩ = .ok (OK, s1) ∧
      s1.salida = [] ++ ascii "OK" :: (bloques ++ [FIN]) ∧
      bloques.flatten = List.replicate 2050 7 ∧
      (∀ c ∈ bloques, c ≠ [] ∧ c.length ≤ BUFFER_SIZE) ∧
      (∀ i c, i + 1 < bloques.length → bloques.get? i = some c → c.length = BUFFER_SIZE) ∧
      bloques.length = ((List.replicate 2050 7).length + (BUFFER_SIZE - 1)) / BUFFER_SIZE ∧
      BUFFER_SIZE = 1024 :=
  envio_en_bloques (un_archivo (ascii "7.mp3") (List.replicate 2050 7)) (ascii "7.mp3")
    (List.replicate 2050 7) [] [] [] (by decide) (by decide) (by decide)
    (if_pos (by decide)) (by decide)

/-- C22: when the message received in place of a file name is the sentinel `FIN`,
`escuchar_cancion_servidor` sends nothing, consults no file (the outcome is the same for
every file system) and returns OK, so the loop of `menu_canciones_servidor` goes on and
reads the next message as an opcode; the client sends that sentinel when 0 is typed. -/
theorem cancelacion_con_FIN (media : Option (List Nat)) (fs : List Nat → Archivo)
    (r sal : List (List Nat)) (fa : List Bool) :
    escuchar_cancion_servidor fs ⟨FIN :: r, sal, fa⟩ = .ok (OK, ⟨r, sal, fa⟩) ∧
    (∀ fuel : Nat, menu_canciones_bucle (fuel + 1) media fs ⟨ascii "3" :: FIN :: r, sal, fa⟩ =
      anotar (.escuchar, OK) (menu_canciones_bucle fuel media fs ⟨r, sal, fa⟩)) ∧
    (∀ (t : List (Option Int)) (locales : List (List Nat)) (abre : Bool)
      (escrituras : List Bool) (buffer : List Nat),
      escuchar_cancion_cliente (some 0 :: t) locales abre escrituras ⟨r, sal, []⟩ buffer =
        .ok ⟨OK, ⟨r, sal ++ [FIN], []⟩, none, false⟩) := by
  have hfb : ∀ b ∈ FIN, b ≠ 0 := by decide
  have hl : FIN.length < BUFFER_SIZE := by decide
  have hs : escuchar_cancion_servidor fs ⟨FIN :: r, sal, fa⟩ = .ok (OK, ⟨r, sal, fa⟩) := by
    have hr := recv_uno FIN r sal fa (Nat.le_of_lt hl)
    have hlen : FIN.length ≠ 0 := by decide
    unfold escuchar_cancion_servidor
    simp only [hr, hlen, if_false, terminar_ok FIN hfb hl, if_true]
  refine ⟨hs, ?_, ?_⟩
  · intro fuel
    have hd : manejador_de (atoi (cadena (ascii "3" ++ [0]) 0)) = some .escuchar := by decide
    have hp := menu_canciones_bucle_paso fuel media fs (ascii "3") (FIN :: r) sal fa .escuchar
      OK ⟨r, sal, fa⟩ (by decide) (by decide) hd hs
    rw [hp, if_pos rfl]
  · intro t locales abre escrituras buffer
    have hsend := send_simple r sal FIN FIN_ne_nil
    unfold escuchar_cancion_cliente
    simp only [if_true, hsend]

/-- C29: the server does not check the form of the name asked for: for every received
name other than `FIN` that designates an existing, openable file,
`escuchar_cancion_servidor` replies `OK` and streams the whole content of that file. -/
theorem nombre_sin_comprobar (fs : List Nat → Archivo) (m b : List Nat)
    (r sal : List (List Nat)) (fa : List Bool) (hne : m ≠ [])
    (hl : m.length < BUFFER_SIZE) (hfin : cadena (m ++ [0]) 0 ≠ FIN)
    (hf : fs (cadena (m ++ [0]) 0) = .contenido b) (hfa : ∀ x ∈ fa, x = false) :
    ∃ (s1 : Socket) (bloques : List (List Nat)),
      escuchar_cancion_servidor fs ⟨m :: r, sal, fa⟩ = .ok (OK, s1) ∧
      s1.salida = sal ++ ascii "OK" :: (bloques ++ [FIN]) ∧ bloques.flatten = b := by
  obtain ⟨s1, e1, e2, _⟩ := servidor_transmite fs m b r sal fa hne hl hfin hf hfa
  exact ⟨s1, trozos (b.length + 1) b, e1, e2, trozos_join _ b (Nat.lt_succ_self _)⟩

/-- Witness of C29: the credential store is asked for by its name. -/
theorem nombre_sin_comprobar_witness :
    ∃ (s1 : Socket) (bloques : List (List Nat)),
      escuchar_cancion_servidor (un_archivo (ascii "usuarios.db") (ascii "ana clave"))
        ⟨ascii "usuarios.db" :: [], [], []⟩ = .ok (OK, s1) ∧
      s1.salida = [] ++ ascii "OK" :: (bloques ++ [FIN]) ∧ bloques.flatten = ascii "ana clave" :=
  nombre_sin_comprobar (un_archivo (ascii "usuarios.db") (ascii "ana clave"))
    (ascii "usuarios.db") (ascii "ana clave") [] [] [] (by decide) (by decide) (by decide)
    (by decide) (by decide)

/-- C25: in the receive loop of the client a chunk ends the download exactly when it
is the three bytes `FIN`; any other chunk, a longer one that begins with `FIN` and a
shorter one included, is written whole (the write succeeding), and the chunks that come
before the first sentinel are written in arrival order. -/
theorem sentinela_exacta (buffer escrito : List Nat) (r sal : List (List Nat))
    (fa : List Bool) :
    (∀ (fuel : Nat) (m : List Nat) (escrituras : List Bool), m ≠ [] →
      m.length ≤ BUFFER_SIZE →
      (m = FIN → recibir_bloques (fuel + 1) ⟨m :: r, sal, fa⟩ buffer escrito escrituras =
        .ok (OK, ⟨r, sal, fa⟩, escrito, true)) ∧
      (m ≠ FIN → escrituras.headD false = false →
        recibir_bloques (fuel + 1) ⟨m :: r, sal, fa⟩ buffer escrito escrituras =
          recibir_bloques fuel ⟨r, sal, fa⟩ (escribir buffer m) (escrito ++ m)
            escrituras.tail)) ∧
    (∀ m : List Nat, m = FIN ↔ m.length = 3 ∧ m = ascii "FIN") ∧
    (∀ (ms : List (List Nat)) (pasos : Nat),
      (∀ m ∈ ms, m ≠ [] ∧ m.length ≤ BUFFER_SIZE ∧ m ≠ FIN) → ms.length < pasos →
      recibir_bloques pasos ⟨ms ++ FIN :: r, sal, fa⟩ buffer escrito [] =
        .ok (OK, ⟨r, sal, fa⟩, escrito ++ ms.flatten, true)) ∧
    recibir_bloques 4 ⟨[ascii "FINAL", ascii "FI", FIN, ascii "x"], [], []⟩ [] [] [] =
      .ok (OK, ⟨[ascii "x"], [], []⟩, ascii "FINALFI", true) := by
  refine ⟨?_, ?_, ?_, by decide⟩
  · intro fuel m escrituras hm hl
    have h := recibir_bloques_paso fuel m r sal fa buffer escrito escrituras hm hl
    constructor
    · intro hfin
      rw [h, if_pos hfin]
    · intro hfin hw
      rw [h, if_neg hfin, hw]
      simp
  · intro m
    constructor
    · intro h; subst h; exact ⟨by decide, rfl⟩
    · intro h; exact h.2
  · intro ms pasos hms hp
    exact recibir_bloques_lista ms pasos r sal fa buffer escrito hms hp

/-- C27: for a download with chunks of 1024 bytes, one chunk per read of the client,
the local copy is the source file if and only if it is not the case that the length of
the source leaves remainder 3 modulo 1024 and its last three bytes are `FIN`; in that
case the client stops at the last data chunk (the sentinel sent after the file stays
unread) and the copy is the source without its last three bytes. -/
theorem descarga_exacta (fs : List Nat → Archivo) (e : Int) (b buffer : List Nat)
    (he : 0 < e) (hmax : e.toNat ≤ INT_MAX) (hf : fs (nombre_cancion e) = .contenido b) :
    ∃ (d : Descarga) (copia : List Nat),
      descarga fs e buffer = .ok d ∧ d.estado = OK ∧
      d.archivo = some (nombre_cancion e, copia) ∧
      (copia = b ↔ ¬ (b.length % 1024 = 3 ∧ b.drop (b.length - 3) = ascii "FIN")) ∧
      ((b.length % 1024 = 3 ∧ b.drop (b.length - 3) = ascii "FIN") →
        copia = b.take (b.length - 3) ∧ d.sock.entrada = [FIN]) := by
  by_cases hfiel : copia_fiel b
  · have h := descarga_ok fs e b buffer he hmax hf hfiel
    refine ⟨_, b, h, rfl, rfl, ?_, ?_⟩
    · exact ⟨fun _ => hfiel, fun _ => rfl⟩
    · intro k
      exact absurd k hfiel
  · have h := descarga_trunca fs e b buffer he hmax hf hfiel
    have hk : b.length % 1024 = 3 ∧ b.drop (b.length - 3) = ascii "FIN" :=
      Classical.not_not.1 hfiel
    refine ⟨_, b.take (b.length - 3), h, rfl, rfl, ?_, ?_⟩
    · constructor
      · intro k
        have hl : (b.take (b.length - 3)).length = b.length := by rw [k]
        rw [List.length_take] at hl
        have := hk.1
        omega
      · intro k
        exact absurd hk k
    · intro _
      exact ⟨rfl, rfl⟩

set_option maxRecDepth 1000000 in
/-- Witness of C27: a file of 1027 bytes that ends in `FIN`. -/
theorem descarga_exacta_witness :
    ∃ (d : Descarga) (copia : List Nat),
      descarga (un_archivo (nombre_cancion 7) (List.replicate 1024 0 ++ FIN)) 7 [] = .ok d ∧
      d.estado = OK ∧
      d.archivo = some (nombre_cancion 7, copia) ∧
      (copia = List.replicate 1024 0 ++ FIN ↔
        ¬ ((List.replicate 1024 0 ++ FIN).length % 1024 = 3 ∧
          (List.replicate 1024 0 ++ FIN).drop ((List.replicate 1024 0 ++ FIN).length - 3) =
            ascii "FIN")) ∧
      (((List.replicate 1024 0 ++ FIN).length % 1024 = 3 ∧
          (List.replicate 1024 0 ++ FIN).drop ((List.replicate 1024 0 ++ FIN).length - 3) =
            ascii "FIN") →
        copia = (List.replicate 1024 0 ++ FIN).take ((List.replicate 1024 0 ++ FIN).length - 3) ∧
          d.sock.entrada = [FIN]) :=
  descarga_exacta (un_archivo (nombre_cancion 7) (List.replicate 1024 0 ++ FIN)) 7
    (List.replicate 1024 0 ++ FIN) [] (by decide) (by decide) (if_pos rfl)

/-- C24: for every catalog of well-formed lines and every filter text, every record
line sent by `listar_servidor` or `filtrar_servidor` begins with a decimal digit and
ends with a newline, so none of them equals the sentinel `FIN`: in a response the only
message equal to the sentinel is the last one. -/
theorem listados_sin_sentinela (media : List Nat) (cs : List Cancion) (filtro : List Nat)
    (sector : Nat) (r sal : List (List Nat)) (fa : List Bool) (hsec : sector ≤ 4)
    (hm : es_catalogo media cs) (hv : ∀ c ∈ cs, cancion_valida c) (hn : cs.length < INT_MAX)
    (hf0 : filtro ≠ []) (hfl : filtro.length < FILTRO_MAX) (hfz : ∀ b ∈ filtro, b ≠ 0)
    (hfa : ∀ b ∈ fa, b = false) :
    (∃ s1 lineas, listar_servidor (some media) ⟨r, sal, fa⟩ = .ok (OK, s1) ∧
      s1.salida = sal ++ lineas ++ [FIN] ∧ FIN ∉ lineas ∧
      ∀ l ∈ lineas, (∃ d t, l = d :: t ∧ isdigit d = true) ∧ l.getLast? = some 10) ∧
    (∃ s2 lineas, filtrar_servidor (some media) ⟨filtro :: r, sal, fa⟩ sector = .ok (OK, s2) ∧
      s2.salida = sal ++ lineas ++ [FIN] ∧ FIN ∉ lineas ∧
      ∀ l ∈ lineas, (∃ d t, l = d :: t ∧ isdigit d = true) ∧ l.getLast? = some 10) := by
  obtain ⟨s1, e1, e2, _⟩ := listar_servidor_ok media cs r sal fa hm hv hn hfa
  obtain ⟨s2, f1, f2, _⟩ := filtrar_servidor_ok media cs filtro sector r sal fa hsec hm hv hn
    hf0 hfl hfz hfa
  refine ⟨⟨s1, _, e1, e2, ?_, ?_⟩, ⟨s2, _, f1, f2, ?_, ?_⟩⟩
  · intro h
    obtain ⟨j, c, _, _, h3⟩ := lineas_desde_mem cs 1 FIN h
    exact (linea_listado_forma j c).2.2 h3.symm
  · intro l h
    obtain ⟨j, c, _, _, h3⟩ := lineas_desde_mem cs 1 l h
    rw [h3]
    exact ⟨(linea_listado_forma j c).1, (linea_listado_forma j c).2.1⟩
  · intro h
    obtain ⟨j, c, _, _, h3⟩ := filtradas_desde_mem filtro sector cs 1 FIN h
    exact (linea_listado_forma j c).2.2 h3.symm
  · intro l h
    obtain ⟨j, c, _, _, h3⟩ := filtradas_desde_mem filtro sector cs 1 l h
    rw [h3]
    exact ⟨(linea_listado_forma j c).1, (linea_listado_forma j c).2.1⟩

/-- Witness of C24: the example catalog, listed and filtered by the genre `ROCK`. -/
theorem listados_sin_sentinela_witness :
    (∃ s1 lineas, listar_servidor (some (archivo_csv catalogo_ejemplo)) ⟨[], [], []⟩ =
        .ok (OK, s1) ∧
      s1.salida = [] ++ lineas ++ [FIN] ∧ FIN ∉ lineas ∧
      ∀ l ∈ lineas, (∃ d t, l = d :: t ∧ isdigit d = true) ∧ l.getLast? = some 10) ∧
    (∃ s2 lineas, filtrar_servidor (some (archivo_csv catalogo_ejemplo))
        ⟨ascii "ROCK" :: [], [], []⟩ 3 = .ok (OK, s2) ∧
      s2.salida = [] ++ lineas ++ [FIN] ∧ FIN ∉ lineas ∧
      ∀ l ∈ lineas, (∃ d t, l = d :: t ∧ isdigit d = true) ∧ l.getLast? = some 10) :=
  listados_sin_sentinela (archivo_csv catalogo_ejemplo) catalogo_ejemplo (ascii "ROCK") 3 [] []
    [] (by decide) (es_catalogo_cerrado catalogo_ejemplo) (by decide) (by decide) (by decide)
    (by decide) (by decide) (by decide)

/-- C26: the record lines emitted by one listing of well-formed records are pairwise
distinct, also when the catalog holds equal records: the line at position `i` (from 0)
begins with the decimal rendering of `i + 1` followed by `" - "`, its leading digits
are exactly that rendering, and different ordinals are rendered differently. -/
theorem lineas_distintas (media : List Nat) (cs : List Cancion) (en sal : List (List Nat))
    (fa : List Bool) (hm : es_catalogo media cs) (hv : ∀ c ∈ cs, cancion_valida c)
    (hn : cs.length < INT_MAX) (hfa : ∀ b ∈ fa, b = false) :
    ∃ s1 lineas, listar_servidor (some media) ⟨en, sal, fa⟩ = .ok (OK, s1) ∧
      s1.salida = sal ++ lineas ++ [FIN] ∧ lineas.length = cs.length ∧ lineas.Nodup ∧
      (∀ i l, lineas.get? i = some l →
        List.IsPrefix (decimal (i + 1) ++ ascii " - ") l ∧
          l.takeWhile isdigit = decimal (i + 1)) ∧
      ∀ j k : Nat, j ≠ k → decimal j ≠ decimal k := by
  obtain ⟨s1, e1, e2, _⟩ := listar_servidor_ok media cs en sal fa hm hv hn hfa
  refine ⟨s1, lineas_desde 1 cs, e1, e2, length_lineas_desde 1 cs, lineas_desde_nodup cs 1, ?_,
    fun j k hjk h => hjk (decimal_inyectiva j k h)⟩
  intro i l hl
  have hi : i < cs.length := by
    have := List.get?_eq_some.1 hl
    obtain ⟨h, _⟩ := this
    rw [length_lineas_desde] at h
    exact h
  have hc : cs.get? i = some (cs.get ⟨i, hi⟩) := List.get?_eq_get hi
  have hg := lineas_desde_get cs 1 i _ hc
  rw [hg] at hl
  have hl1 : l = linea_listado (1 + i) (cs.get ⟨i, hi⟩) := by
    simpa using hl.symm
  have e : 1 + i = i + 1 := by omega
  rw [e] at hl1
  rw [hl1]
  refine ⟨?_, linea_listado_ordinal _ _⟩
  exact ⟨(cs.get ⟨i, hi⟩).titulo ++ SEP ++ (cs.get ⟨i, hi⟩).artista ++ SEP ++
    (cs.get ⟨i, hi⟩).album ++ SEP ++ (cs.get ⟨i, hi⟩).genero ++ SEP ++
    (cs.get ⟨i, hi⟩).anio ++ [10], by simp [linea_listado, SEP]⟩

/-- Witness of C26: a catalog that holds the same record twice. -/
theorem lineas_distintas_witness :
    ∃ s1 lineas, listar_servidor
        (some (archivo_csv [⟨ascii "Uno", ascii "Ana", ascii "Alfa", ascii "Jazz", ascii "1999"⟩,
          ⟨ascii "Uno", ascii "Ana", ascii "Alfa", ascii "Jazz", ascii "1999"⟩]))
        ⟨[], [], []⟩ = .ok (OK, s1) ∧
      s1.salida = [] ++ lineas ++ [FIN] ∧
      lineas.length =
        [(⟨ascii "Uno", ascii "Ana", ascii "Alfa", ascii "Jazz", ascii "1999"⟩ : Cancion),
          ⟨ascii "Uno", ascii "Ana", ascii "Alfa", ascii "Jazz", ascii "1999"⟩].length ∧
      lineas.Nodup ∧
      (∀ i l, lineas.get? i = some l →
        List.IsPrefix (decimal (i + 1) ++ ascii " - ") l ∧
          l.takeWhile isdigit = decimal (i + 1)) ∧
      ∀ j k : Nat, j ≠ k → decimal j ≠ decimal k :=
  lineas_distintas _
    [⟨ascii "Uno", ascii "Ana", ascii "Alfa", ascii "Jazz", ascii "1999"⟩,
      ⟨ascii "Uno", ascii "Ana", ascii "Alfa", ascii "Jazz", ascii "1999"⟩] [] [] []
    (es_catalogo_cerrado _) (by decide) (by decide) (by decide)

/-- C30: for every well-formed catalog line and ordinal `k` the message that
`listar_servidor` builds with `snprintf` and `strcat` is the message that
`filtrar_servidor` builds with one `snprintf`; hence, for a catalog in which the
selected column of every record equals the filter text up to case (`verificar` returns
OK), the messages of the filter response are those of the listing response. -/
theorem formatos_coinciden (media : List Nat) (cs : List Cancion) (filtro : List Nat)
    (sector : Nat) (r sal : List (List Nat)) (fa : List Bool) (hsec : sector ≤ 4)
    (hm : es_catalogo media cs) (hv : ∀ c ∈ cs, cancion_valida c) (hn : cs.length < INT_MAX)
    (hf0 : filtro ≠ []) (hfl : filtro.length < FILTRO_MAX) (hfz : ∀ b ∈ filtro, b ≠ 0)
    (hfa : ∀ b ∈ fa, b = false)
    (htodas : ∀ c ∈ cs, verificar (campo c sector) filtro = OK) :
    (∀ (k : Nat) (c : Cancion) (linea l : List Nat) (segs : List (Option Nat)),
      cancion_valida c → k ≤ INT_MAX → segs.length = 5 →
      l = linea_csv c ++ [10] ∨ l = linea_csv c →
      ∃ msg mem, listar_linea k (cargar_linea linea l) = .ok (msg, mem) ∧
        filtrar_formato k (tokenizar 5 (strtok (cargar_linea linea l) 0 [44]) segs 0).1
          (tokenizar 5 (strtok (cargar_linea linea l) 0 [44]) segs 0).2 = .ok msg) ∧
    ∃ s1 s2, listar_servidor (some media) ⟨r, sal, fa⟩ = .ok (OK, s1) ∧
      filtrar_servidor (some media) ⟨filtro :: r, sal, fa⟩ sector = .ok (OK, s2) ∧
      s2.salida = s1.salida := by
  constructor
  · intro k c linea l segs hc hk hs hl
    have hd := decimal_length k hk
    rcases hl with hl | hl
    · subst hl
      rw [cargar_linea_ok linea c hc, listar_linea_ok k c _ hc hd, tokenizar_ok c _ segs hc hs]
      exact ⟨_, _, rfl, filtrar_formato_ok k c _ hc hd⟩
    · subst hl
      rw [cargar_linea_final linea c hc, listar_linea_ok k c _ hc hd, tokenizar_ok c _ segs hc hs]
      exact ⟨_, _, rfl, filtrar_formato_ok k c _ hc hd⟩
  · obtain ⟨s1, e1, e2, _⟩ := listar_servidor_ok media cs r sal fa hm hv hn hfa
    obtain ⟨s2, f1, f2, _⟩ := filtrar_servidor_ok media cs filtro sector r sal fa hsec hm hv hn
      hf0 hfl hfz hfa
    refine ⟨s1, s2, e1, f1, ?_⟩
    rw [f2, e2, filtradas_desde_todas filtro sector cs 1 htodas]

/-- Witness of C30: a catalog of two records by `Ana`, filtered by the artist `ANA`. -/
theorem formatos_coinciden_witness :
    (∀ (k : Nat) (c : Cancion) (linea l : List Nat) (segs : List (Option Nat)),
      cancion_valida c → k ≤ INT_MAX → segs.length = 5 →
      l = linea_csv c ++ [10] ∨ l = linea_csv c →
      ∃ msg mem, listar_linea k (cargar_linea linea l) = .ok (msg, mem) ∧
        filtrar_formato k (tokenizar 5 (strtok (cargar_linea linea l) 0 [44]) segs 0).1
          (tokenizar 5 (strtok (cargar_linea linea l) 0 [44]) segs 0).2 = .ok msg) ∧
    ∃ s1 s2, listar_servidor
        (some (archivo_csv [⟨ascii "Uno", ascii "Ana", ascii "Alfa", ascii "Jazz", ascii "1999"⟩,
          ⟨ascii "Tres", ascii "ana", ascii "Gama", ascii "Rock", ascii "2005"⟩]))
        ⟨[], [], []⟩ = .ok (OK, s1) ∧
      filtrar_servidor
        (some (archivo_csv [⟨ascii "Uno", ascii "Ana", ascii "Alfa", ascii "Jazz", ascii "1999"⟩,
          ⟨ascii "Tres", ascii "ana", ascii "Gama", ascii "Rock", ascii "2005"⟩]))
        ⟨ascii "ANA" :: [], [], []⟩ 1 = .ok (OK, s2) ∧
      s2.salida = s1.salida :=
  formatos_coinciden _
    [⟨ascii "Uno", ascii "Ana", ascii "Alfa", ascii "Jazz", ascii "1999"⟩,
      ⟨ascii "Tres", ascii "ana", ascii "Gama", ascii "Rock", ascii "2005"⟩] (ascii "ANA") 1
    [] [] [] (by decide) (es_catalogo_cerrado _) (by decide) (by decide) (by decide)
    (by decide) (by decide) (by decide) (by decide)

/-- C23, against the code: a handshake message whose opcode is neither 1 nor 2 is not
fatal and is swallowed without a trace. `procesar_opcion` has no branch for it: it sends
nothing, leaves the store as it was and returns OK, not SALIR; so, on one connection,
after the message `7:ana:clave` got no reply, the message `1:ana:clave` is processed
and logs in. -/
theorem opcode_desconocido_ignorado :
    (∀ (media : Option (List Nat)) (fs : List Nat → Archivo) (es1 es2 : FalloES)
      (db : Option (List Cuenta)) (s : Socket) (opcion : Int) (usuario : Cuenta),
      opcion ≠ 1 → opcion ≠ 2 →
      procesar_opcion media fs es1 es2 db s opcion usuario = ⟨db, false, .ok (OK, s, [])⟩) ∧
    leer_solicitud (ascii "7:ana:clave") = .ok (7, ⟨ascii "ana", ascii "clave"⟩) ∧
    conexion none (fun _ => .inexistente) [] (some [⟨ascii "ana", ascii "clave"⟩])
        ⟨[ascii "7:ana:clave", ascii "1:ana:clave"], [], []⟩ =
      ⟨[⟨some [⟨ascii "ana", ascii "clave"⟩], false,
          .ok (OK, ⟨[ascii "1:ana:clave"], [], []⟩, [])⟩,
        ⟨some [⟨ascii "ana", ascii "clave"⟩], true, .ok (SALIR, ⟨[], [EXITO], []⟩, [])⟩],
       some [⟨ascii "ana", ascii "clave"⟩], .ok ⟨[], [EXITO], []⟩⟩ ∧
    OK ≠ SALIR := by
  refine ⟨?_, by decide, by decide, by decide⟩
  intro media fs es1 es2 db s opcion usuario h1 h2
  unfold procesar_opcion
  simp only [h1, h2, if_false]

/-- C28, as stated, fails for a user name that begins with `:`: for the user name `:a`
and the password `c` the server recovers the user name `a`, which is not the (empty)
part of `:a` before its first `:`; and for the user name `:` the second `strtok` finds
the password and the third returns NULL, which is handed to `strcpy`. -/
theorem usuario_que_empieza_con_dos_puntos :
    leer_solicitud (mensaje_cliente 1 ⟨ascii ":a", ascii "c"⟩) =
      .ok (1, ⟨ascii "a", ascii "c"⟩) ∧
    (ascii ":a").takeWhile (fun x => decide (x ≠ 58)) = [] ∧
    ascii "a" ≠ [] ∧
    leer_solicitud (mensaje_cliente 1 ⟨ascii ":", ascii "c"⟩) = .error .indefinido := by
  decide

/-- C28 (amended): for the opcodes 1 and 2 and every user name and password that are
non-empty, of at most 25 bytes and without `:`, the server's parsing of the client's
message `<opcode>:<username>:<password>` recovers that opcode, user name and password;
for a user name that contains `:` and does not begin with it, the recovered user name
is only the part before the first `:` and the recovered password is the first
non-empty segment of what follows that `:` in the message (of the rest of the user
name, else the password entered), so the account acted on is not the one entered. -/
theorem solicitud_ida_y_vuelta (opcion : Int) (hop : opcion = 1 ∨ opcion = 2) :
    (∀ u p : List Nat, credencial_valida u → credencial_valida p → 58 ∉ u → 58 ∉ p →
      leer_solicitud (mensaje_cliente opcion ⟨u, p⟩) = .ok (opcion, ⟨u, p⟩)) ∧
    (∀ a t p : List Nat, a ≠ [] → 58 ∉ a → credencial_valida (a ++ 58 :: t) →
      credencial_valida p → 58 ∉ p →
      leer_solicitud (mensaje_cliente opcion ⟨a ++ 58 :: t, p⟩) =
        .ok (opcion, ⟨a, primer_segmento (t ++ 58 :: p)⟩) ∧
      (⟨a, primer_segmento (t ++ 58 :: p)⟩ : Cuenta) ≠ ⟨a ++ 58 :: t, p⟩) := by
  constructor
  · intro u p hu hp hu58 hp58
    obtain ⟨m1, m2, m3, m4, m5⟩ := mensaje_cliente_eq opcion u p hop hu.2.1 hp.2.1
    have h := leer_solicitud_campos (decimal_int opcion) u p [] 0 0 m3 m4 hu.1
      (fun x hx => ⟨hu.2.2 x hx, fun k => hu58 (k ▸ hx)⟩) hu.2.1 hp.1
      (fun x hx => ⟨hp.2.2 x hx, fun k => hp58 (k ▸ hx)⟩) hp.2.1 (Or.inl rfl)
      (by simpa using m2)
    have hmsg : decimal_int opcion ++ 58 :: (u ++ 58 :: p) =
        decimal_int opcion ++ 58 :: (List.replicate 0 58 ++ (u ++ 58 :: (List.replicate 0 58 ++
          (p ++ [])))) := by simp
    rw [m1, hmsg, h, m5]
  · intro a t p ha ha58 hu hp hp58
    obtain ⟨m1, m2, m3, m4, m5⟩ := mensaje_cliente_eq opcion (a ++ 58 :: t) p hop hu.2.1 hp.2.1
    obtain ⟨y, ys, hy⟩ := List.exists_cons_of_ne_nil hp.1
    have hy58 : y ≠ 58 := fun k => hp58 (by rw [hy, k]; exact List.mem_cons_self 58 ys)
    obtain ⟨j, cola, e, hb, hb58, hcola⟩ := segmentar (t ++ 58 :: p)
      ⟨y, by rw [hy]; simp, hy58⟩
    have hlb := length_segmento_compuesto t p
    have hlu : (a ++ 58 :: t).length ≤ 25 := hu.2.1
    have hlp : p.length ≤ 25 := hp.2.1
    have hb0 : ∀ x ∈ primer_segmento (t ++ 58 :: p), x ≠ 0 ∧ x ≠ 58 := by
      intro x hx
      refine ⟨?_, hb58 x hx⟩
      have hx1 : x ∈ t ++ 58 :: p := by
        rw [e]
        exact List.mem_append_right _ (List.mem_append_left _ hx)
      rcases List.mem_append.1 hx1 with h1 | h1
      · exact hu.2.2 x (List.mem_append_right _ (List.mem_cons_of_mem _ h1))
      · rcases List.mem_cons.1 h1 with h2 | h2
        · rw [h2]; decide
        · exact hp.2.2 x h2
    have hmsg : decimal_int opcion ++ 58 :: (a ++ 58 :: t ++ 58 :: p) =
        decimal_int opcion ++ 58 :: (List.replicate 0 58 ++ (a ++ 58 :: (List.replicate j 58 ++
          (primer_segmento (t ++ 58 :: p) ++ cola)))) := by
      rw [← e]; simp
    have h := leer_solicitud_campos (decimal_int opcion) a (primer_segmento (t ++ 58 :: p))
      cola 0 j m3 m4 ha
      (fun x hx => ⟨hu.2.2 x (List.mem_append_left _ hx), fun k => ha58 (k ▸ hx)⟩)
      (by simp at hlu; omega) hb hb0
      (by simp at hlu; omega) hcola (by rw [← hmsg]; exact m2)
    constructor
    · rw [m1, hmsg, h, m5]
    · intro k
      have k1 : a = a ++ 58 :: t := congrArg Cuenta.usuario k
      have k2 := congrArg List.length k1
      simp at k2

/-- Witness of C28 (amended): the opcode of a login. -/
theorem solicitud_ida_y_vuelta_witness :
    (∀ u p : List Nat, credencial_valida u → credencial_valida p → 58 ∉ u → 58 ∉ p →
      leer_solicitud (mensaje_cliente 1 ⟨u, p⟩) = .ok (1, ⟨u, p⟩)) ∧
    (∀ a t p : List Nat, a ≠ [] → 58 ∉ a → credencial_valida (a ++ 58 :: t) →
      credencial_valida p → 58 ∉ p →
      leer_solicitud (mensaje_cliente 1 ⟨a ++ 58 :: t, p⟩) =
        .ok (1, ⟨a, primer_segmento (t ++ 58 :: p)⟩) ∧
      (⟨a, primer_segmento (t ++ 58 :: p)⟩ : Cuenta) ≠ ⟨a ++ 58 :: t, p⟩) :=
  solicitud_ida_y_vuelta 1 (Or.inl rfl)

end Infotify
